import Mathlib

/-!
Credential lifecycle and environment orchestrator of google-cloud-shell-cli-go.

A shallow embedding of `auth.go`, `cloudshell.go` and `cmdline.go`.

* Go `string` values are Lean `String`s, that is, valid UTF-8 text; Go `error`
  values are their messages. The credential store is also given on records whose
  strings are bytes (`UserCredentialsBytes`), because `encoding/json` rewrites the
  bytes of a string that are not UTF-8.
* `int64` values are `Int`s; every `int64` operation of the source is followed
  by `wrap64`.
* Everything outside the process (file system, clock, HTTP endpoints, child
  processes, standard input) is an `Env` of answer functions; the program
  threads a `World` (files, configuration, trace of effects) through its calls.
* `encoding/json` is modelled on JSON documents (`Doc`): a file or body is either
  not JSON, or a JSON value; the struct tags of the source decide which member
  goes to which field.
* Console output (`fmt.Println`) is not modelled.
-/

namespace CloudShellCli

/-! ## Machine integers and `time` -/

/-- Two's-complement reduction of an integer to the `int64` range. -/
def wrap64 (x : Int) : Int := (x + 2 ^ 63) % 2 ^ 64 - 2 ^ 63

/-- The values an `int64` can hold. -/
def isInt64 (x : Int) : Prop := -(2 : Int) ^ 63 ≤ x ∧ x < 2 ^ 63

instance (x : Int) : Decidable (isInt64 x) := by unfold isInt64; infer_instance

/-- Seconds from January 1, year 1 to January 1, 1970 (`unixToInternal` of package `time`). -/
def unixToInternal : Int := 62135596800

/-- A Go `time.Time`, as `Before` and `Unix` see it: the `int64` count of seconds
since January 1, year 1, and the nanoseconds within the second. -/
structure Time where
  sec : Int
  nsec : Nat
  deriving DecidableEq, Repr

/-- Go `time.Unix(sec, nsec)` for `0 ≤ nsec < 1e9`: the library stores
`sec + unixToInternal` in an `int64`, without an overflow check (its documentation:
"Not all sec values have a corresponding time value. One such value is 1<<63-1").
`time.Now()` builds its result from the operating system's reading the same way. -/
def Time.ofUnix (sec : Int) (nsec : Nat) : Time := ⟨wrap64 (sec + unixToInternal), nsec⟩

/-- Go `t.Before(u)`, for the case met in the source: `u` comes from `time.Unix`
and carries no monotonic reading, so the wall clocks are compared. -/
def Time.Before (t u : Time) : Bool :=
  decide (t.sec < u.sec) || (decide (t.sec = u.sec) && decide (t.nsec < u.nsec))

/-- Go `t.UTC().Unix()`. -/
def Time.Unix (t : Time) : Int := wrap64 (t.sec - unixToInternal)

/-! ## Data model (`auth.go`, `cloudshell.go`) -/

/-- A Go `error`, identified with its message. -/
abbrev Err := String

/-- The `Installed` member of `ClientSecrets`. -/
structure Installed where
  ClientID : String := ""
  ProjectID : String := ""
  AuthURI : String := ""
  TokenURI : String := ""
  AuthProviderX509CertURL : String := ""
  ClientSecret : String := ""
  RedirectUris : List String := []
  deriving DecidableEq, Repr

structure ClientSecrets where
  Installed : Installed := {}
  deriving DecidableEq, Repr

structure UserCredentials where
  ClientID : String := ""
  ClientSecret : String := ""
  RefreshToken : String := ""
  Scope : String := ""
  Type_ : String := ""
  AccessToken : String := ""
  IDToken : String := ""
  Email : String := ""
  ExpiresAt : Int := 0
  deriving DecidableEq, Repr

structure OAuthTokens where
  AccessToken : String := ""
  ExpiresIn : Int := 0
  RefreshToken : String := ""
  Scope : String := ""
  TokenType : String := ""
  IDToken : String := ""
  Error : String := ""
  ErrorDescription : String := ""
  deriving DecidableEq, Repr

/-- The anonymous `Error` member of `CloudShellEnv`. -/
structure EnvError where
  Code : Int := 0
  Message : String := ""
  Status : String := ""
  deriving DecidableEq, Repr

structure CloudShellEnv where
  Name : String := ""
  Id : String := ""
  DockerImage : String := ""
  State : String := ""
  SshUsername : String := ""
  SshHost : String := ""
  SshPort : Int := 0
  Error : EnvError := {}
  deriving DecidableEq, Repr

/-- The `config.Flags` members the given files read or write. -/
structure Flags where
  Adc : Bool := false
  Auth : Bool := false
  Login : String := ""
  deriving DecidableEq, Repr

/-- The members of the global `config` that the given files read or write (the
variable is declared outside the given sources). -/
structure Config where
  Debug : Bool := false
  Flags : Flags := {}
  ClientSecretsFile : String := ""
  ProjectId : String := ""
  Command : Int := 0
  RemoteCommand : String := ""
  SrcFile : String := ""
  DstFile : String := ""
  deriving DecidableEq, Repr

/-! ## JSON documents -/

/-- A JSON value as a struct member sees it: `null`, a string, an integer
literal, or anything else (booleans, fractions, arrays, objects). -/
inductive JVal where
  | null
  | str (s : String)
  | num (n : Int)
  | other
  deriving DecidableEq, Repr

/-- What a file or a response body holds: bytes that are not JSON, a JSON value
that is not an object, or a JSON object with its members in order. -/
inductive Doc where
  | invalid
  | scalar (v : JVal)
  | object (members : List (String × JVal))
  deriving DecidableEq, Repr

/-! ## Effects -/

/-- One observable step of a run. `call` marks the entry into a function of the
program; the others are the effects the functions request. -/
inductive Event where
  | call (fn : String)
  | readFile (filename : String)
  | writeFile (filename : String) (data : Doc)
  | now
  | post (endpoint : String) (headers : List (String × String)) (content : String)
  | get (endpoint : String) (headers : List (String × String))
  | sleep (ms : Nat)
  | lookPath (file : String)
  | start (name : String) (args : List String)
  | output (name : String) (args : List String)
  | stdin
  | findDefaultCredentials (scope : String)
  | token
  | transport (handler : String) (params : CloudShellEnv)
  deriving DecidableEq, Repr

/-- The three ways an HTTP exchange of the source can fail (`req.Post`/`req.Get`,
`res.Body`, `json.Unmarshal`), or the struct the body decodes to. -/
inductive Reply (α : Type) where
  | sendErr (e : Err)
  | bodyErr (e : Err)
  | jsonErr (e : Err)
  | ok (v : α)
  deriving Repr

/-- The outcome of the three checks `if err != nil` that follow a request in the
source: the first error met, or the decoded struct. -/
def Reply.result {α : Type} : Reply α → Except Err α
  | .sendErr e => .error e
  | .bodyErr e => .error e
  | .jsonErr e => .error e
  | .ok v => .ok v

/-- The state a run threads through: the files, the global `config`, and the
effects so far (oldest first). -/
structure World where
  files : String → Option Doc
  config : Config
  trace : List Event

/-- The answers of everything outside the process. Answers are indexed by how
many requests of the same kind came before. The `CMD_*` constants and the two
package-level strings listed here are used by the given sources but declared
outside them. -/
structure Env where
  SavedUserCredentials : String
  SCOPE : String
  CMD_INLINE_SSH : Int
  CMD_WINSSH : Int
  CMD_SSH : Int
  CMD_BENCHMARK_DOWNLOAD : Int
  CMD_BENCHMARK_UPLOAD : Int
  CMD_BITVISE : Int
  CMD_WINSCP : Int
  isWindows : Bool
  /-- The operating system clock at the k-th `time.Now()`: Unix seconds, nanoseconds. -/
  clock : Nat → Int × Nat
  /-- Whether `ioutil.WriteFile` fails on a file. -/
  writeErr : String → Option Err
  /-- The client secrets file, as `json.Unmarshal` decodes it. -/
  clientSecrets : String → Except Err ClientSecrets
  /-- The token endpoint's answer to the k-th POST with the given form body. -/
  tokenEndpoint : Nat → String → Reply OAuthTokens
  /-- The tokeninfo endpoint's answer (the `email` member) to the k-th GET with the given bearer. -/
  tokenInfo : Nat → String → Reply String
  /-- The environment resource at the k-th GET. -/
  getEnvironment : Nat → Reply CloudShellEnv
  /-- The answer to the k-th `:start` POST. -/
  startEnvironment : Nat → Reply CloudShellEnv
  lookPath : String → Except Err String
  startProcess : String → List String → Option Err
  processOutput : String → List String → Except Err String
  /-- The k-th line read from standard input, newline included. -/
  stdinLine : Nat → String
  findDefaultCredentials : String → Option Err
  /-- The ambient token source: an access token or an error. -/
  tokenSource : Except Err String

/-- Append one event to the trace. -/
def World.log (w : World) (e : Event) : World := { w with trace := w.trace ++ [e] }

/-- How many events of a run satisfy `p`. -/
def count (p : Event → Bool) (w : World) : Nat := w.trace.countP p

def Event.isNow : Event → Bool
  | .now => true
  | _ => false

def Event.isPost : Event → Bool
  | .post _ _ _ => true
  | _ => false

def Event.isGet : Event → Bool
  | .get _ _ => true
  | _ => false

def Event.isWrite : Event → Bool
  | .writeFile _ _ => true
  | _ => false

def Event.isSleep : Event → Bool
  | .sleep _ => true
  | _ => false

def Event.isStdin : Event → Bool
  | .stdin => true
  | _ => false

def Event.isTransport : Event → Bool
  | .transport _ _ => true
  | _ => false

/-- Whether the event is an HTTP request to the given endpoint. -/
def Event.isHttpTo (endpoint : String) : Event → Bool
  | .post e _ _ => e == endpoint
  | .get e _ => e == endpoint
  | _ => false

/-- Whether the event is the entry into the named function. -/
def Event.isCall (fn : String) : Event → Bool
  | .call f => f == fn
  | _ => false

/-- Go `time.Now()`. -/
def timeNow (env : Env) (w : World) : Time × World :=
  let r := env.clock (count Event.isNow w)
  (Time.ofUnix r.1 r.2, w.log .now)

/-! ## Credential store (`auth.go`, lines 57-152) -/

/-- Go `readCredentials`: the content of the file, or the error of `os.Open`. -/
def readCredentials (filename : String) (w : World) : Except Err Doc × World :=
  let w := w.log (.readFile filename)
  match w.files filename with
  | none => (.error ("open " ++ filename ++ ": no such file or directory"), w)
  | some b => (.ok b, w)

/-- The `json` tags of `UserCredentials`, in declaration order. -/
def userCredentialsTags : List String :=
  ["client_id", "client_secret", "refresh_token", "scope", "type",
   "access_token", "id_token", "email", "expires_at"]

/-- Case folding of one character of a member name, as far as it can meet an
ASCII tag: upper-case letters, the Kelvin sign (for `k`) and the long s. -/
def foldChar (c : Char) : Char :=
  if c = Char.ofNat 0x212A then 'k'
  else if c = Char.ofNat 0x017F then 's'
  else c.toLower

/-- Case folding of member names (`encoding/json` accepts a case-insensitive match). -/
def foldName (s : String) : String := ⟨s.data.map foldChar⟩

/-- The field an object key is stored to: an exact match of a tag is preferred,
a case-insensitive match is accepted. -/
def findTag (tags : List String) (key : String) : Option String :=
  match tags.find? (fun t => t == key) with
  | some t => some t
  | none => tags.find? (fun t => foldName t == foldName key)

/-- Decoding a JSON value into a Go `string`. -/
def asString (field : String) : JVal → Except Err String
  | .str s => .ok s
  | _ => .error ("json: cannot unmarshal value into Go struct field " ++ field ++ " of type string")

/-- Decoding a JSON value into a Go `int64`: an integer literal within range. -/
def asInt64 (field : String) : JVal → Except Err Int
  | .num n =>
    if isInt64 n then .ok n
    else .error ("json: cannot unmarshal number into Go struct field " ++ field ++ " of type int64")
  | _ => .error ("json: cannot unmarshal value into Go struct field " ++ field ++ " of type int64")

/-- One member of a JSON object stored to the `UserCredentials` field with the
given tag; `null` leaves the field as it is. -/
def assignUserCredentials (c : UserCredentials) (tag : String) (v : JVal) :
    Except Err UserCredentials :=
  if v = .null then .ok c
  else if tag = "client_id" then (asString tag v).map fun s => { c with ClientID := s }
  else if tag = "client_secret" then (asString tag v).map fun s => { c with ClientSecret := s }
  else if tag = "refresh_token" then (asString tag v).map fun s => { c with RefreshToken := s }
  else if tag = "scope" then (asString tag v).map fun s => { c with Scope := s }
  else if tag = "type" then (asString tag v).map fun s => { c with Type_ := s }
  else if tag = "access_token" then (asString tag v).map fun s => { c with AccessToken := s }
  else if tag = "id_token" then (asString tag v).map fun s => { c with IDToken := s }
  else if tag = "email" then (asString tag v).map fun s => { c with Email := s }
  else if tag = "expires_at" then (asInt64 tag v).map fun n => { c with ExpiresAt := n }
  else .ok c

/-- Go `json.Unmarshal(data, &secrets)` for a `UserCredentials`: members are
taken in order, unknown keys are skipped, a later duplicate overwrites. -/
def unmarshalUserCredentials (data : Doc) (secrets : UserCredentials) :
    Except Err UserCredentials :=
  match data with
  | .invalid => .error "invalid character looking for beginning of value"
  | .scalar .null => .ok secrets
  | .scalar _ => .error "json: cannot unmarshal value into Go value of type main.UserCredentials"
  | .object members =>
    members.foldlM
      (fun c kv =>
        match findTag userCredentialsTags kv.1 with
        | none => .ok c
        | some tag => assignUserCredentials c tag kv.2)
      secrets

/-- Go `json.MarshalIndent(creds, "", " ")`: every field is written, under its tag,
in declaration order. -/
def marshalUserCredentials (creds : UserCredentials) : Doc :=
  .object
    [("client_id", .str creds.ClientID),
     ("client_secret", .str creds.ClientSecret),
     ("refresh_token", .str creds.RefreshToken),
     ("scope", .str creds.Scope),
     ("type", .str creds.Type_),
     ("access_token", .str creds.AccessToken),
     ("id_token", .str creds.IDToken),
     ("email", .str creds.Email),
     ("expires_at", .num creds.ExpiresAt)]

/-- Go `loadClientSecrets`; on success it sets `config.ProjectId`. -/
def loadClientSecrets (env : Env) (filename : String) (w : World) :
    Except Err ClientSecrets × World :=
  let w := w.log (.call "loadClientSecrets")
  let w := w.log (.readFile filename)
  match env.clientSecrets filename with
  | .error e => (.error e, w)
  | .ok secrets =>
    (.ok secrets, { w with config := { w.config with ProjectId := secrets.Installed.ProjectID } })

/-- Go `loadUserCredentials`. -/
def loadUserCredentials (filename : String) (w : World) : Except Err UserCredentials × World :=
  let w := w.log (.call "loadUserCredentials")
  let (data, w) := readCredentials filename w
  match data with
  | .error e => (.error e, w)
  | .ok data => (unmarshalUserCredentials data {}, w)

/-- Go `saveUserCredentials`. Marshalling this struct cannot fail; when
`ioutil.WriteFile` fails the file is taken to be left as it was. -/
def saveUserCredentials (env : Env) (filename : String) (creds : UserCredentials) (w : World) :
    Option Err × World :=
  let w := w.log (.call "saveUserCredentials")
  let j := marshalUserCredentials creds
  let w := w.log (.writeFile filename j)
  match env.writeErr filename with
  | some e => (some e, w)
  | none => (none, { w with files := fun f => if f = filename then some j else w.files f })

/-- Go `fileExists`: whether `os.Stat` finds a file (directories, and failures of
`os.Stat` other than a missing file, are not modelled). -/
def fileExists (filename : String) (w : World) : Bool := (w.files filename).isSome

/-! ## Token endpoints (`auth.go`, lines 179-408 and 655-769) -/

def tokenEndpointURL : String := "https://www.googleapis.com/oauth2/v4/token"

def tokenInfoURL : String := "https://www.googleapis.com/oauth2/v3/tokeninfo"

def formHeaders : List (String × String) :=
  [("Content-Type", "application/x-www-form-urlencoded")]

/-- Go `get_email_address`. -/
def get_email_address (env : Env) (accessToken : String) (w : World) :
    Except Err String × World :=
  let w := w.log (.call "get_email_address")
  let k := count (Event.isHttpTo tokenInfoURL) w
  let w := w.log (.get tokenInfoURL [("Authorization", "Bearer " ++ accessToken)])
  ((env.tokenInfo k accessToken).result, w)

/-- The form body of the refresh request (`auth.go`, lines 212-215). -/
def refreshContent (creds : UserCredentials) : String :=
  "client_id=" ++ creds.ClientID ++ "&" ++
  ("client_secret=" ++ creds.ClientSecret ++ "&") ++
  "grant_type=refresh_token&" ++
  ("refresh_token=" ++ creds.RefreshToken)

/-- Lines 255-267 of `doRefresh`: the stored record with the new tokens and the
new expiry, and with the email when the lookup succeeded. -/
def refreshedCredentials (creds : UserCredentials) (tokens : OAuthTokens) (expires_at : Int)
    (email : Except Err String) : UserCredentials :=
  let creds := { creds with
    AccessToken := tokens.AccessToken, IDToken := tokens.IDToken, ExpiresAt := expires_at }
  match email with
  | .ok email => { creds with Email := email }
  | .error _ => creds

/-- Go `doRefresh`: the access token, the id token and `valid`. -/
def doRefresh (env : Env) (filename : String) (w : World) : (String × String × Bool) × World :=
  let w := w.log (.call "doRefresh")
  let (creds, w) := loadUserCredentials filename w
  match creds with
  | .error _ => (("", "", false), w)
  | .ok creds =>
    let t := Time.ofUnix (wrap64 (creds.ExpiresAt - 15 * 60)) 0
    let (now, w) := timeNow env w
    if now.Before t then
      ((creds.AccessToken, creds.IDToken, true), w)
    else
      let content := refreshContent creds
      let k := count (Event.isHttpTo tokenEndpointURL) w
      let w := w.log (.post tokenEndpointURL formHeaders content)
      match (env.tokenEndpoint k content).result with
      | .error _ => (("", "", false), w)
      | .ok tokens =>
        let (now, w) := timeNow env w
        let expires_at := wrap64 (now.Unix + tokens.ExpiresIn)
        let (email, w) := get_email_address env tokens.AccessToken w
        let creds := refreshedCredentials creds tokens expires_at email
        let (err, w) := saveUserCredentials env filename creds w
        match err with
        | some _ => (("", "", false), w)
        | none => ((creds.AccessToken, creds.IDToken, true), w)

/-- The form body of the authorization-code exchange (`auth.go`, lines 657-665). -/
def authCodeContent (secrets : ClientSecrets) (auth_code : String) (flag_oob : Bool) : String :=
  "client_id=" ++ secrets.Installed.ClientID ++
  ("&client_secret=" ++ secrets.Installed.ClientSecret) ++
  ("&code=" ++ auth_code) ++
  "&grant_type=authorization_code" ++
  (if flag_oob = false then "&redirect_uri=http://localhost:9000"
   else "&redirect_uri=urn:ietf:wg:oauth:2.0:oob")

def userInfoURL : String := "https://www.googleapis.com/oauth2/v3/userinfo"

/-- Go `debug_displayAccessToken`: one GET whose answer is printed. -/
def debug_displayAccessToken (accessToken : String) (w : World) : World :=
  (w.log (.call "debug_displayAccessToken")).log
    (.get tokenInfoURL [("Authorization", "Bearer " ++ accessToken)])

/-- Go `debug_displayUserInfo`: one GET whose answer is printed. -/
def debug_displayUserInfo (accessToken : String) (w : World) : World :=
  (w.log (.call "debug_displayUserInfo")).log
    (.get userInfoURL [("Authorization", "Bearer " ++ accessToken)])

/-- Go `debug_displayIDToken`: one GET whose answer is printed. -/
def debug_displayIDToken (accessToken idToken : String) (w : World) : World :=
  (w.log (.call "debug_displayIDToken")).log
    (.get (tokenInfoURL ++ ("?id_token=" ++ idToken)) [("Authorization", "Bearer " ++ accessToken)])

/-- Lines 722-745 of `processAuthCode`: a new record from the client secrets and
the token response, with the email when the lookup succeeded. -/
def authorizedCredentials (secrets : ClientSecrets) (tokens : OAuthTokens) (expires_at : Int)
    (email : Except Err String) : UserCredentials :=
  let creds : UserCredentials :=
    { ClientID := secrets.Installed.ClientID
      ClientSecret := secrets.Installed.ClientSecret
      RefreshToken := tokens.RefreshToken
      Scope := tokens.Scope
      Type_ := tokens.TokenType
      AccessToken := tokens.AccessToken
      IDToken := tokens.IDToken
      ExpiresAt := expires_at }
  match email with
  | .ok email => { creds with Email := email }
  | .error _ => creds

/-- Go `processAuthCode`: the access token, the id token and the error. -/
def processAuthCode (env : Env) (secrets : ClientSecrets) (auth_code : String) (flag_oob : Bool)
    (w : World) : (String × String × Option Err) × World :=
  let w := w.log (.call "processAuthCode")
  let content := authCodeContent secrets auth_code flag_oob
  let k := count (Event.isHttpTo tokenEndpointURL) w
  let w := w.log (.post tokenEndpointURL formHeaders content)
  match (env.tokenEndpoint k content).result with
  | .error e => (("", "", some e), w)
  | .ok tokens =>
    if tokens.Error ≠ "" then
      (("", "", some tokens.ErrorDescription), w)
    else
      let (now, w) := timeNow env w
      let expires_at := wrap64 (now.Unix + tokens.ExpiresIn)
      let (email, w) := get_email_address env tokens.AccessToken w
      let creds := authorizedCredentials secrets tokens expires_at email
      let (err, w) := saveUserCredentials env env.SavedUserCredentials creds w
      match err with
      | some e => (("", "", some e), w)
      | none =>
        let w :=
          if w.config.Debug = true then
            debug_displayIDToken creds.AccessToken creds.IDToken
              (debug_displayUserInfo creds.AccessToken
                (debug_displayAccessToken creds.AccessToken w))
          else w
        ((creds.AccessToken, creds.IDToken, none), w)

/-! ## Strategy selection (`auth.go`, lines 410-653) -/

/-- How a function of the program ends: it returns, or the process exits
(`log.Fatal`, `os.Exit`). -/
inductive Outcome (α : Type) where
  | ret (v : α)
  | exit (status : Int)
  deriving Repr

def ENDPOINT : String := "https://accounts.google.com/o/oauth2/v2/auth"

/-- Go `get_sa_tokens`. -/
def get_sa_tokens (env : Env) (w : World) : (String × String × Option Err) × World :=
  let w := w.log (.call "get_sa_tokens")
  let scope := "https://www.googleapis.com/auth/cloud-platform"
  let w := w.log (.findDefaultCredentials scope)
  match env.findDefaultCredentials scope with
  | some e => (("", "", some e), w)
  | none =>
    let w := w.log .token
    match env.tokenSource with
    | .error e => (("", "", some e), w)
    | .ok accessToken => ((accessToken, "", none), w)

/-- Go `FindChromeBrowser`. -/
def FindChromeBrowser (w : World) : Except Err String :=
  let chrome1 := "C:\\Program Files (x86)\\Google\\Chrome\\Application\\chrome.exe"
  let chrome2 := "C:\\Program Files\\Google\\Chrome\\Application\\chrome.exe"
  if fileExists chrome1 w then .ok chrome1
  else if fileExists chrome2 w then .ok chrome2
  else .error "Cannot find Google Chrome Browser"

/-- Go `manualAuthentication`: the line read has every newline removed
(`strings.Replace(text, "\n", "", -1)`). -/
def manualAuthentication (env : Env) (secrets : ClientSecrets) (url : String) (w : World) :
    (String × String × Option Err) × World :=
  let _ := url
  let w := w.log (.call "manualAuthentication")
  let text := env.stdinLine (count Event.isStdin w)
  let w := w.log .stdin
  let auth_code : String := ⟨text.data.filter fun c => c ≠ '\n'⟩
  processAuthCode env secrets auth_code true w

/-- Lines 497-575 of `get_tokens`: the browser flow. On Windows the error of
`cmd.Start()` is assigned to a variable that shadows the one tested afterwards. -/
def get_tokens_browser (env : Env) (secrets : ClientSecrets) (url : String) (w : World) :
    Outcome (String × String × Option Err) × World :=
  let w := w.log (.lookPath "python3")
  let (python, w) :=
    match env.lookPath "python3" with
    | .ok path => (Except.ok path, w)
    | .error _ => (env.lookPath "python", w.log (.lookPath "python"))
  match python with
  | .error e => (.ret ("", "", some e), w)
  | .ok python_path =>
    let (err, w) :=
      if env.isWindows = true then
        match FindChromeBrowser w with
        | .ok chrome => ((none : Option Err), (w.log (.start chrome [url])).log (.start chrome [url]))
        | .error _ =>
          (none, w.log (.start "rundll32" ["url.dll,FileProtocolHandler", url]))
      else
        (env.startProcess "xdg-open" [url], w.log (.start "xdg-open" [url]))
    match err with
    | some e => (.ret ("", "", some e), w)
    | none =>
      let w := w.log (.output python_path ["webserver.py"])
      match env.processOutput python_path ["webserver.py"] with
      | .error e => (.ret ("", "", some e), w)
      | .ok out =>
        if out.length = 0 then (.exit 1, w)
        else
          let (r, w) := processAuthCode env secrets out false w
          (.ret r, w)

/-- Lines 445-495 of `get_tokens`: the client secrets are loaded, the desktop is
probed and the browser or the manual flow is entered. -/
def get_tokens_interactive (env : Env) (w : World) :
    Outcome (String × String × Option Err) × World :=
  let (secrets, w) := loadClientSecrets env w.config.ClientSecretsFile w
  match secrets with
  | .error e => (.ret ("", "", some e), w)
  | .ok secrets =>
    let (flag_desktop, w) :=
      if env.isWindows = false then
        match env.lookPath "dxg-open" with
        | .error _ => (false, w.log (.lookPath "dxg-open"))
        | .ok _ => (true, w.log (.lookPath "dxg-open"))
      else (true, w)
    let url := ENDPOINT ++ ("?client_id=" ++ secrets.Installed.ClientID) ++
      "&response_type=code" ++ ("&scope=" ++ env.SCOPE) ++ "&access_type=offline"
    let url :=
      if w.config.Flags.Login.length ≠ 0 then url ++ ("&login_hint=" ++ w.config.Flags.Login)
      else url
    if env.isWindows = true then
      get_tokens_browser env secrets (url ++ "&redirect_uri=http://localhost:9000") w
    else if flag_desktop = true then
      get_tokens_browser env secrets (url ++ "&redirect_uri=http://localhost:9000") w
    else
      let (r, w) := manualAuthentication env secrets (url ++ "&redirect_uri=urn:ietf:wg:oauth:2.0:oob") w
      (.ret r, w)

/-- Go `get_tokens`. -/
def get_tokens (env : Env) (w : World) : Outcome (String × String × Option Err) × World :=
  let w := w.log (.call "get_tokens")
  if w.config.Flags.Adc = true then
    let (r, w) := get_sa_tokens env w
    (.ret r, w)
  else
    let (done, w) :=
      if w.config.Flags.Auth = false then
        if fileExists env.SavedUserCredentials w then
          let ((accessToken, idToken, valid), w) := doRefresh env env.SavedUserCredentials w
          if valid = true then (some (accessToken, idToken), w)
          else (none, w)
        else (none, w)
      else (none, w)
    match done with
    | some (accessToken, idToken) => (.ret (accessToken, idToken, none), w)
    | none => get_tokens_interactive env w

/-! ## Environment client and orchestrator (`cloudshell.go`) -/

def CMD_INFO : Int := 0

def CMD_PUTTY : Int := 1

def CMD_EXEC : Int := 2

def CMD_UPLOAD : Int := 3

def CMD_DOWNLOAD : Int := 4

def environmentURL : String :=
  "https://cloudshell.googleapis.com/v1alpha1/users/me/environments/default" ++ "?alt=json"

def startURL : String :=
  "https://cloudshell.googleapis.com/v1alpha1/users/me/environments/default" ++ ":start" ++
    "?alt=json"

/-- The headers both environment calls send. -/
def environmentHeaders (accessToken : String) (w : World) : List (String × String) :=
  [("Authorization", "Bearer " ++ accessToken), ("X-Goog-User-Project", w.config.ProjectId)]

/-- Go `cloud_shell_get_environment`: one GET; an embedded error code is printed
and the descriptor is returned with a nil error all the same. -/
def cloud_shell_get_environment (env : Env) (accessToken : String) (flag_info : Bool)
    (w : World) : (CloudShellEnv × Option Err) × World :=
  let _ := flag_info
  let hdrs := environmentHeaders accessToken w
  let w := w.log (.call "cloud_shell_get_environment")
  let k := count (Event.isHttpTo environmentURL) w
  let w := w.log (.get environmentURL hdrs)
  match (env.getEnvironment k).result with
  | .error e => (({}, some e), w)
  | .ok params => ((params, none), w)

/-- Go `cloudshell_start`: one POST; an embedded error code becomes an error. -/
def cloudshell_start (env : Env) (accessToken : String) (w : World) : Option Err × World :=
  let hdrs := environmentHeaders accessToken w
  let w := w.log (.call "cloudshell_start")
  let k := count (Event.isHttpTo startURL) w
  let w := w.log (.post startURL hdrs "")
  match (env.startEnvironment k).result with
  | .error e => (some e, w)
  | .ok params =>
    if params.Error.Code ≠ 0 then (some params.Error.Message, w)
    else (none, w)

/-- The loop of lines 283-304 with `n` iterations left: `none` when the function
returns from inside the loop, otherwise the descriptor held when the loop is left. -/
def pollEnvironment (env : Env) (accessToken : String) (flag_info : Bool) :
    Nat → CloudShellEnv → World → Option CloudShellEnv × World
  | 0, params, w => (some params, w)
  | n + 1, _, w =>
    let w := w.log (.sleep 500)
    let ((params, err), w) := cloud_shell_get_environment env accessToken flag_info w
    match err with
    | some _ => (none, w)
    | none =>
      if params.Error.Code ≠ 0 then (none, w)
      else if params.State = "RUNNING" then (some params, w.log (.sleep 5000))
      else pollEnvironment env accessToken flag_info n params w

/-- Lines 312-354 of `call_cloud_shell`: every handler whose command constant
equals `config.Command` is called, in this order. -/
def dispatch (env : Env) (params : CloudShellEnv) (w : World) : World :=
  let c := w.config.Command
  let w := if c = CMD_PUTTY then w.log (.transport "exec_putty" params) else w
  let w := if c = env.CMD_INLINE_SSH then w.log (.transport "exec_inline_ssh" params) else w
  let w := if c = env.CMD_WINSSH then w.log (.transport "exec_winssh" params) else w
  let w := if c = env.CMD_SSH then w.log (.transport "exec_ssh" params) else w
  let w := if c = CMD_EXEC then w.log (.transport "exec_command" params) else w
  let w := if c = CMD_DOWNLOAD then w.log (.transport "sftp_download" params) else w
  let w := if c = CMD_UPLOAD then w.log (.transport "sftp_upload" params) else w
  let w :=
    if c = env.CMD_BENCHMARK_DOWNLOAD then w.log (.transport "sftp_benchmark_download" params)
    else w
  let w :=
    if c = env.CMD_BENCHMARK_UPLOAD then w.log (.transport "sftp_benchmark_upload" params)
    else w
  let w := if c = env.CMD_BITVISE then w.log (.transport "exec_bitvise" params) else w
  let w := if c = env.CMD_WINSCP then w.log (.transport "exec_winscp" params) else w
  w

/-- Go `call_cloud_shell`. -/
def call_cloud_shell (env : Env) (accessToken : String) (w : World) : World :=
  let w := w.log (.call "call_cloud_shell")
  let flag_info := decide (w.config.Command = CMD_INFO)
  let ((params, err), w) := cloud_shell_get_environment env accessToken flag_info w
  match err with
  | some _ => w
  | none =>
    if w.config.Command = CMD_INFO then w
    else
      let (polled, w) :=
        if params.State = "DISABLED" then
          let (err, w) := cloudshell_start env accessToken w
          match err with
          | some _ => (none, w)
          | none => pollEnvironment env accessToken flag_info 60 params w
        else (some params, w)
      match polled with
      | none => w
      | some params =>
        if params.State ≠ "RUNNING" then w
        else dispatch env params w

/-! ## Command line (`cmdline.go`) -/

/-- How `process_cmdline` ends: it returns, the process exits with a status
(`os.Exit`), or the Go runtime stops it with an index out of range. -/
inductive CmdOutcome (α : Type) where
  | ret (v : α)
  | exit (status : Int)
  | outOfRange (index : Nat) (length : Nat)
  deriving DecidableEq, Repr

/-- Go `strings.HasPrefix(arg, p)`. -/
def hasPrefix (arg p : String) : Bool := p.data.isPrefixOf arg.data

/-- Go `strings.ReplaceAll(s, "\\", "/")`. -/
def slashes (s : String) : String := ⟨s.data.map fun c => if c = '\\' then '/' else c⟩

/-- The file part of Go `path.Split(s)`: what follows the last slash. -/
def splitFile (s : String) : String := ⟨(s.data.reverse.takeWhile fun c => c ≠ '/').reverse⟩

/-- The loop of lines 35-83 over `os.Args[x], os.Args[x+1], ...`: the options are
applied to `config` and the other arguments are collected in `args`. The list
`rest` is empty exactly when `x == len(os.Args)`, and it has one element exactly
when `x == len(os.Args) - 1`. -/
def stripOptions : List String → Config → List String → CmdOutcome (Config × List String)
  | [], cfg, args => .ret (cfg, args)
  | arg :: rest, cfg, args =>
    if arg = "-help" ∨ arg = "--help" then .exit 0
    else if arg = "-debug" ∨ arg = "--debug" then
      stripOptions rest { cfg with Debug := true } args
    else if arg = "-auth" ∨ arg = "--auth" then
      stripOptions rest { cfg with Flags := { cfg.Flags with Auth := true } } args
    else if arg = "-login" ∨ arg = "--login" then
      match rest with
      | [] => .exit 1
      | email :: rest =>
        stripOptions rest { cfg with Flags := { cfg.Flags with Login := email, Auth := true } } args
    else if hasPrefix arg "-login=" then
      stripOptions rest
        { cfg with Flags := { cfg.Flags with Login := ⟨arg.data.drop 7⟩, Auth := true } } args
    else if hasPrefix arg "--login=" then
      stripOptions rest
        { cfg with Flags := { cfg.Flags with Login := ⟨arg.data.drop 8⟩, Auth := true } } args
    else stripOptions rest cfg (args ++ [arg])

/-- The loop of lines 89-166 at index `x`, with `fuel` rounds left (every round
raises `x`, so `len(args)` rounds are enough). A read `args[x + 1]` beyond the end
of `args` is the runtime error `outOfRange`. `abs` is `filepath.Abs`, which
depends on the working directory. -/
def commandLoop (abs : String → Except Err String) (args : List String) :
    Nat → Nat → Config → CmdOutcome Config
  | 0, _, cfg => .ret cfg
  | fuel + 1, x, cfg =>
    match args[x]? with
    | none => .ret cfg
    | some arg =>
      if arg = "info" then
        commandLoop abs args fuel (x + 1) { cfg with Command := CMD_INFO }
      else if arg = "putty" then
        commandLoop abs args fuel (x + 1) { cfg with Command := CMD_PUTTY }
      else if arg = "exec" then
        if args.length < 2 then .exit 1
        else
          match args[x + 1]? with
          | none => .outOfRange (x + 1) args.length
          | some command =>
            commandLoop abs args fuel (x + 2)
              { cfg with Command := CMD_EXEC, RemoteCommand := command }
      else if arg = "download" then
        if args.length < 2 then .exit 1
        else
          match args[x + 1]? with
          | none => .outOfRange (x + 1) args.length
          | some src =>
            let cfg := { cfg with Command := CMD_DOWNLOAD, SrcFile := slashes src }
            if args.length ≥ 3 then
              match args[x + 2]? with
              | none => .outOfRange (x + 2) args.length
              | some dst => commandLoop abs args fuel (x + 3) { cfg with DstFile := slashes dst }
            else
              commandLoop abs args fuel (x + 2) { cfg with DstFile := splitFile cfg.SrcFile }
      else if arg = "upload" then
        if args.length < 2 then .exit 1
        else
          match args[x + 1]? with
          | none => .outOfRange (x + 1) args.length
          | some src =>
            match abs src with
            | .error _ => .exit 1
            | .ok path =>
              let cfg := { cfg with Command := CMD_UPLOAD, SrcFile := path }
              if args.length ≥ 3 then
                match args[x + 2]? with
                | none => .outOfRange (x + 2) args.length
                | some dst =>
                  commandLoop abs args fuel (x + 3) { cfg with DstFile := slashes dst }
              else
                commandLoop abs args fuel (x + 2)
                  { cfg with DstFile := splitFile (slashes cfg.SrcFile) }
      else .exit 1

/-- Go `process_cmdline` on `os.Args = osArgs`, from the given `config`. -/
def process_cmdline (abs : String → Except Err String) (osArgs : List String) (cfg : Config) :
    CmdOutcome Config :=
  if osArgs.length < 2 then .ret { cfg with Command := CMD_INFO }
  else if osArgs.any (fun arg => arg = "--help") then .exit 1
  else
    match stripOptions (osArgs.drop 1) cfg [] with
    | .exit status => .exit status
    | .outOfRange i n => .outOfRange i n
    | .ret (cfg, args) => commandLoop abs args args.length 0 cfg

/-! ## Go strings as bytes (`unicode/utf8`, `encoding/json`)

A Go `string` holds arbitrary bytes; here it is a list of numbers below 256. -/

/-- Go `utf8.RuneError`, the replacement character U+FFFD. -/
def RuneError : Nat := 0xFFFD

/-- Go `utf8.RuneSelf`: bytes below it are single-byte runes. -/
def RuneSelf : Nat := 0x80

/-- The table `first` of `unicode/utf8` for a lead byte of a multi-byte sequence:
the size of the sequence and the range accepted for its second byte. The other
bytes (ASCII, and the bytes that begin no sequence) have no entry. -/
def first (s0 : Nat) : Option (Nat × Nat × Nat) :=
  if 0xC2 ≤ s0 ∧ s0 ≤ 0xDF then some (2, 0x80, 0xBF)
  else if s0 = 0xE0 then some (3, 0xA0, 0xBF)
  else if 0xE1 ≤ s0 ∧ s0 ≤ 0xEC then some (3, 0x80, 0xBF)
  else if s0 = 0xED then some (3, 0x80, 0x9F)
  else if 0xEE ≤ s0 ∧ s0 ≤ 0xEF then some (3, 0x80, 0xBF)
  else if s0 = 0xF0 then some (4, 0x90, 0xBF)
  else if 0xF1 ≤ s0 ∧ s0 ≤ 0xF3 then some (4, 0x80, 0xBF)
  else if s0 = 0xF4 then some (4, 0x80, 0x8F)
  else none

/-- Go `utf8.DecodeRuneInString`: the first rune of `s` and its width in bytes;
`(RuneError, 0)` for the empty string and `(RuneError, 1)` for a byte that begins
no valid encoding. The masks and shifts of the source are written as remainders
and products. -/
def DecodeRuneInString (s : List Nat) : Nat × Nat :=
  match s with
  | [] => (RuneError, 0)
  | s0 :: _ =>
    if s0 < RuneSelf then (s0, 1)
    else
      match first s0 with
      | none => (RuneError, 1)
      | some (sz, lo, hi) =>
        if s.length < sz then (RuneError, 1)
        else if s.getD 1 0 < lo ∨ hi < s.getD 1 0 then (RuneError, 1)
        else if sz ≤ 2 then (s0 % 32 * 64 + s.getD 1 0 % 64, 2)
        else if s.getD 2 0 < 0x80 ∨ 0xBF < s.getD 2 0 then (RuneError, 1)
        else if sz ≤ 3 then (s0 % 16 * 4096 + s.getD 1 0 % 64 * 64 + s.getD 2 0 % 64, 3)
        else if s.getD 3 0 < 0x80 ∨ 0xBF < s.getD 3 0 then (RuneError, 1)
        else
          (s0 % 8 * 262144 + s.getD 1 0 % 64 * 4096 + s.getD 2 0 % 64 * 64 + s.getD 3 0 % 64, 4)

/-- Go `utf8.AppendRune(nil, r)`: the UTF-8 encoding of a rune; a surrogate or a
value beyond U+10FFFF is encoded as `RuneError`. -/
def EncodeRune (r : Nat) : List Nat :=
  if r ≤ 0x7F then [r]
  else if r ≤ 0x7FF then [0xC0 + r / 64, 0x80 + r % 64]
  else if 0x10FFFF < r ∨ (0xD800 ≤ r ∧ r ≤ 0xDFFF) then [0xEF, 0xBF, 0xBD]
  else if r ≤ 0xFFFF then [0xE0 + r / 4096, 0x80 + r / 64 % 64, 0x80 + r % 64]
  else [0xF0 + r / 262144, 0x80 + r / 4096 % 64, 0x80 + r / 64 % 64, 0x80 + r % 64]

/-- The runes that `encoding/json` writes for the Go string `s` (the loop of
`appendString`): it decodes rune after rune, and a byte that begins no valid
encoding is written as U+FFFD. Every round consumes a byte, so `len(s)` rounds
are enough. -/
def runes : Nat → List Nat → List Nat
  | 0, _ => []
  | fuel + 1, s =>
    match s with
    | [] => []
    | _ :: _ => (DecodeRuneInString s).1 :: runes fuel (s.drop (DecodeRuneInString s).2)

/-- The loop of Go `utf8.ValidString`: no position reached in `s` decodes to
`(RuneError, 1)`. Every round consumes a byte, so `len(s)` rounds are enough. -/
def validRunes : Nat → List Nat → Bool
  | 0, _ => true
  | fuel + 1, s =>
    match s with
    | [] => true
    | _ :: _ =>
      if (DecodeRuneInString s).1 = RuneError ∧ (DecodeRuneInString s).2 = 1 then false
      else validRunes fuel (s.drop (DecodeRuneInString s).2)

/-- Go `utf8.ValidString`: whether `s` consists of valid UTF-8 encodings only. -/
def ValidString (s : List Nat) : Bool := validRunes s.length s

/-- The JSON string that `json.Marshal` writes for the Go string `s`. -/
def jsonString (s : List Nat) : String := ⟨(runes s.length s).map Char.ofNat⟩

/-- The Go string that `json.Unmarshal` stores for a JSON string: its UTF-8 encoding. -/
def goString (s : String) : List Nat := s.data.flatMap fun c => EncodeRune c.toNat

/-- The Go struct `UserCredentials` with every `string` as the bytes it holds. -/
structure UserCredentialsBytes where
  ClientID : List Nat := []
  ClientSecret : List Nat := []
  RefreshToken : List Nat := []
  Scope : List Nat := []
  Type_ : List Nat := []
  AccessToken : List Nat := []
  IDToken : List Nat := []
  Email : List Nat := []
  ExpiresAt : Int := 0
  deriving DecidableEq, Repr

/-- Whether the eight strings of the record are valid UTF-8. -/
def UserCredentialsBytes.ValidStrings (c : UserCredentialsBytes) : Bool :=
  ValidString c.ClientID && ValidString c.ClientSecret && ValidString c.RefreshToken &&
  ValidString c.Scope && ValidString c.Type_ && ValidString c.AccessToken &&
  ValidString c.IDToken && ValidString c.Email

/-- The record as `json.MarshalIndent` writes it: every string as its JSON string. -/
def UserCredentialsBytes.toJSON (c : UserCredentialsBytes) : UserCredentials :=
  { ClientID := jsonString c.ClientID, ClientSecret := jsonString c.ClientSecret,
    RefreshToken := jsonString c.RefreshToken, Scope := jsonString c.Scope,
    Type_ := jsonString c.Type_, AccessToken := jsonString c.AccessToken,
    IDToken := jsonString c.IDToken, Email := jsonString c.Email, ExpiresAt := c.ExpiresAt }

/-- The record as `json.Unmarshal` stores it: every JSON string as its bytes. -/
def UserCredentials.toBytes (c : UserCredentials) : UserCredentialsBytes :=
  { ClientID := goString c.ClientID, ClientSecret := goString c.ClientSecret,
    RefreshToken := goString c.RefreshToken, Scope := goString c.Scope,
    Type_ := goString c.Type_, AccessToken := goString c.AccessToken,
    IDToken := goString c.IDToken, Email := goString c.Email, ExpiresAt := c.ExpiresAt }

/-- Go `saveUserCredentials` on a record whose strings are bytes. -/
def saveUserCredentialsBytes (env : Env) (filename : String) (creds : UserCredentialsBytes)
    (w : World) : Option Err × World :=
  saveUserCredentials env filename creds.toJSON w

/-- Go `loadUserCredentials`, its result as a record whose strings are bytes. -/
def loadUserCredentialsBytes (filename : String) (w : World) :
    Except Err UserCredentialsBytes × World :=
  let (creds, w) := loadUserCredentials filename w
  (creds.map UserCredentials.toBytes, w)

/-! ## Auxiliary predicates -/

/-- Calls that the token exchange and its helpers never make. -/
def outsideAuth (fn : String) : Prop :=
  fn ≠ "processAuthCode" ∧ fn ≠ "get_email_address" ∧ fn ≠ "saveUserCredentials" ∧
  fn ≠ "debug_displayAccessToken" ∧ fn ≠ "debug_displayUserInfo" ∧ fn ≠ "debug_displayIDToken" ∧
  fn ≠ "manualAuthentication" ∧ fn ≠ "loadUserCredentials"

/-- Whether a reply to `GetEnvironment` ends the polling: the request or the
decoding fails, the body carries an error code, or the state is `RUNNING`. -/
def Reply.stops (r : Reply CloudShellEnv) : Bool :=
  match r.result with
  | .error _ => true
  | .ok params => decide (params.Error.Code ≠ 0) || decide (params.State = "RUNNING")

/-- The events of `m` rounds of the poll loop: a 500 ms sleep, then one
`cloud_shell_get_environment` with its GET. -/
def pollEvents (accessToken : String) (w : World) : Nat → List Event
  | 0 => []
  | m + 1 =>
    [.sleep 500, .call "cloud_shell_get_environment",
      .get environmentURL (environmentHeaders accessToken w)] ++ pollEvents accessToken w m

/-- The events of `call_cloud_shell` up to and including the start request. -/
def startEvents (accessToken : String) (w : World) : List Event :=
  [.call "call_cloud_shell", .call "cloud_shell_get_environment",
    .get environmentURL (environmentHeaders accessToken w), .call "cloudshell_start",
    .post startURL (environmentHeaders accessToken w) ""]

/-- Whether the event is the 5000 ms settle delay. -/
def Event.isSettle : Event → Bool
  | .sleep ms => decide (ms = 5000)
  | _ => false

/-- The milliseconds an event sleeps. -/
def Event.sleepMs : Event → Nat
  | .sleep ms => ms
  | _ => 0

/-- The total sleep requested in a run, in milliseconds. -/
def totalSleep (w : World) : Nat := (w.trace.map Event.sleepMs).sum

/-- The events of `call_cloud_shell` up to and including the first
`cloud_shell_get_environment`. -/
def firstEvents (accessToken : String) (w : World) : List Event :=
  [.call "call_cloud_shell", .call "cloud_shell_get_environment",
    .get environmentURL (environmentHeaders accessToken w)]

/-- Whether the event starts a child process (`cmd.Start()`). -/
def Event.isStart : Event → Bool
  | .start _ _ => true
  | _ => false

/-! ## Sample environments and worlds -/

/-- An environment in which every outside request fails. -/
def env0 : Env :=
  { SavedUserCredentials := "user_credentials.json"
    SCOPE := "https://www.googleapis.com/auth/cloud-platform"
    CMD_INLINE_SSH := 5
    CMD_WINSSH := 6
    CMD_SSH := 7
    CMD_BENCHMARK_DOWNLOAD := 8
    CMD_BENCHMARK_UPLOAD := 9
    CMD_BITVISE := 10
    CMD_WINSCP := 11
    isWindows := false
    clock := fun _ => (1600000000, 0)
    writeErr := fun _ => none
    clientSecrets := fun _ => .error "open client_secrets.json: no such file or directory"
    tokenEndpoint := fun _ _ => .sendErr "dial tcp: no route to host"
    tokenInfo := fun _ _ => .sendErr "dial tcp: no route to host"
    getEnvironment := fun _ => .sendErr "dial tcp: no route to host"
    startEnvironment := fun _ => .sendErr "dial tcp: no route to host"
    lookPath := fun _ => .error "executable file not found in $PATH"
    startProcess := fun _ _ => some "executable file not found in $PATH"
    processOutput := fun _ _ => .error "executable file not found in $PATH"
    stdinLine := fun _ => "4/abc\n"
    findDefaultCredentials := fun _ => some "could not find default credentials"
    tokenSource := .error "no token" }

/-- A world whose only file is the credential file, holding `creds`. -/
def worldWith (creds : UserCredentials) : World :=
  { files := fun f => if f = "user_credentials.json" then some (marshalUserCredentials creds) else none
    config := { ClientSecretsFile := "client_secrets.json" }
    trace := [] }

/-- A stored record that expires at Unix second 1600003600. -/
def storedCreds : UserCredentials :=
  { ClientID := "id", ClientSecret := "secret", RefreshToken := "1//r", Scope := "openid",
    Type_ := "Bearer", AccessToken := "old", IDToken := "oldid", Email := "a@b.c",
    ExpiresAt := 1600003600 }

/-- The token endpoint answers every request with fresh tokens. -/
def envTokens : Env :=
  { env0 with
    tokenEndpoint := fun _ _ =>
      .ok { AccessToken := "new", IDToken := "newid", ExpiresIn := 3600, RefreshToken := "1//r2",
            Scope := "openid", TokenType := "Bearer" } }

/-- A stored record whose expiry is the largest `int64`. -/
def farFutureCreds : UserCredentials :=
  { storedCreds with ExpiresAt := 9223372036854775807 }

/-- A stored record that expires 500 seconds after the sample clock reading. -/
def staleCreds : UserCredentials :=
  { storedCreds with ExpiresAt := 1600000500 }

/-- The token endpoint rejects every request with an `error` member. -/
def envRejected : Env :=
  { env0 with
    tokenEndpoint := fun _ _ =>
      .ok { Error := "invalid_grant", ErrorDescription := "Token has been expired or revoked." } }

def sampleSecrets : ClientSecrets :=
  { Installed := { ClientID := "id", ClientSecret := "secret", ProjectID := "project" } }

/-- The interactive sign-in succeeds by hand: the client secrets load, no desktop
launcher is found, a code is typed and the token endpoint accepts it. -/
def envManual : Env :=
  { envTokens with
    clientSecrets := fun _ => .ok sampleSecrets }

/-- A world whose credential file is not JSON. -/
def worldBroken : World :=
  { files := fun f => if f = "user_credentials.json" then some .invalid else none
    config := { ClientSecretsFile := "client_secrets.json" }
    trace := [] }

/-- A world with no files in which the command is `putty`. -/
def worldPutty : World :=
  { files := fun _ => none
    config := { Command := CMD_PUTTY, ProjectId := "project" }
    trace := [] }

/-- The environment is already running. -/
def envRunning : Env :=
  { env0 with
    getEnvironment := fun _ =>
      .ok { State := "RUNNING", SshUsername := "user", SshHost := "host", SshPort := 6000 } }

/-- The environment stays disabled and the start request cannot be sent. -/
def envStartFails : Env :=
  { env0 with getEnvironment := fun _ => .ok { State := "DISABLED" } }

/-- The environment stays disabled although the start request is accepted. -/
def envNeverStarts : Env :=
  { env0 with
    getEnvironment := fun _ => .ok { State := "DISABLED" }
    startEnvironment := fun _ => .ok {} }

/-- A world in which service-account mode is requested. -/
def worldAdc : World :=
  { files := fun _ => none
    config := { Flags := { Adc := true } }
    trace := [] }

/-- The environment is being started and stays so. -/
def envStarting : Env :=
  { env0 with getEnvironment := fun _ => .ok { State := "STARTING" } }

/-- The replies `DISABLED`, `STARTING`, `STARTING`, `RUNNING` to successive
`GetEnvironment` requests, and an accepted start request. -/
def envThreePolls : Env :=
  { env0 with
    getEnvironment := fun k =>
      if k = 0 then .ok { State := "DISABLED" }
      else if k < 3 then .ok { State := "STARTING" }
      else .ok { State := "RUNNING", SshUsername := "user", SshHost := "host", SshPort := 6000 }
    startEnvironment := fun _ => .ok {} }

/-- As `envThreePolls`, but the `RUNNING` reply carries an error code. -/
def envRunningWithError : Env :=
  { envThreePolls with
    getEnvironment := fun k =>
      if k = 0 then .ok { State := "DISABLED" }
      else if k < 3 then .ok { State := "STARTING" }
      else .ok { State := "RUNNING", Error := { Code := 500, Message := "backend error" } } }

/-- As `envThreePolls`, but the start request cannot be sent. -/
def envThreePollsStartFails : Env :=
  { envThreePolls with startEnvironment := fun _ => .sendErr "dial tcp: no route to host" }

/-- A world with no files in which the command is `info`. -/
def worldInfo : World :=
  { files := fun _ => none
    config := { Command := CMD_INFO, ProjectId := "project" }
    trace := [] }

/-- The token endpoint accepts the authorization code but, as for a consent
given before, answers without a `refresh_token`. -/
def envNoRefreshToken : Env :=
  { env0 with
    tokenEndpoint := fun _ _ =>
      .ok { AccessToken := "new", IDToken := "newid", ExpiresIn := 3600, Scope := "openid",
            TokenType := "Bearer" } }

/-- The first `GetEnvironment` reply carries an error code together with the state
`DISABLED`; the start request is accepted and the next reply is `RUNNING`. -/
def envEntryError : Env :=
  { env0 with
    getEnvironment := fun k =>
      if k = 0 then
        .ok { State := "DISABLED",
              Error := { Code := 403, Message := "denied", Status := "PERMISSION_DENIED" } }
      else .ok { State := "RUNNING", SshUsername := "user", SshHost := "host", SshPort := 6000 }
    startEnvironment := fun _ => .ok {} }

/-- A Linux desktop: `xdg-open` and `python3` are on the PATH, no program called
`dxg-open` is; the client secrets load and the token endpoint accepts the code. -/
def envDesktop : Env :=
  { envManual with
    lookPath := fun file =>
      if file = "xdg-open" then .ok "/usr/bin/xdg-open"
      else if file = "python3" then .ok "/usr/bin/python3"
      else .error "executable file not found in $PATH"
    startProcess := fun _ _ => none
    processOutput := fun _ _ => .ok "4/browser" }

/-- A world with no credential file and no flags. -/
def worldFirstRun : World :=
  { files := fun _ => none
    config := { ClientSecretsFile := "client_secrets.json" }
    trace := [] }

/-- A Go record whose strings are valid UTF-8; `Email` holds runes of two, three
and four bytes. -/
def storedBytes : UserCredentialsBytes :=
  { ClientID := [0x69, 0x64], ClientSecret := [0x73, 0x65, 0x63, 0x72, 0x65, 0x74],
    RefreshToken := [0x31, 0x2F, 0x2F, 0x72], Scope := [0x6F, 0x70, 0x65, 0x6E, 0x69, 0x64],
    Type_ := [0x42, 0x65, 0x61, 0x72, 0x65, 0x72], AccessToken := [0x6F, 0x6C, 0x64],
    IDToken := [0x6F, 0x6C, 0x64, 0x69, 0x64],
    Email := [0xC3, 0xA9, 0xE2, 0x82, 0xAC, 0xF0, 0x9F, 0x98, 0x80, 0x40, 0x78],
    ExpiresAt := 1600003600 }

/-- The same record with the byte `0xFF`, which no UTF-8 encoding contains, at the
end of `ClientID`. -/
def invalidBytes : UserCredentialsBytes :=
  { storedBytes with ClientID := [0x69, 0x64, 0xFF] }

/-- An environment in which no file can be written. -/
def envReadOnly : Env :=
  { env0 with writeErr := fun _ => some "permission denied" }

/-! ## Auxiliary lemmas -/

theorem wrap64_of_isInt64 {x : Int} (h : isInt64 x) : wrap64 x = x := by
  unfold isInt64 at h
  unfold wrap64
  omega

theorem wrap64_isInt64 (x : Int) : isInt64 (wrap64 x) := by
  unfold isInt64 wrap64
  omega

theorem wrap64_add_left (a b : Int) : wrap64 (wrap64 a + b) = wrap64 (a + b) := by
  unfold wrap64
  omega

theorem wrap64_sub_right (a b : Int) : wrap64 (wrap64 a - b) = wrap64 (a - b) := by
  unfold wrap64
  omega

@[simp] theorem log_trace (w : World) (e : Event) : (w.log e).trace = w.trace ++ [e] := rfl

@[simp] theorem log_files (w : World) (e : Event) : (w.log e).files = w.files := rfl

@[simp] theorem log_config (w : World) (e : Event) : (w.log e).config = w.config := rfl

theorem count_log (p : Event → Bool) (w : World) (e : Event) :
    count p (w.log e) = count p w + if p e then 1 else 0 := by
  simp [count, List.countP_append, List.countP_cons]


theorem loadUserCredentials_of_file {filename : String} {w : World} {data : Doc}
    (h : w.files filename = some data) :
    loadUserCredentials filename w =
      (unmarshalUserCredentials data {},
        (w.log (.call "loadUserCredentials")).log (.readFile filename)) := by
  simp [loadUserCredentials, readCredentials, h]

theorem before_of_lt {T E : Int} (n : Nat) (hT : isInt64 T) (hlt : T < E - 900)
    (hrep : E - 900 + unixToInternal < 2 ^ 63) :
    (Time.ofUnix T n).Before (Time.ofUnix (wrap64 (E - 900)) 0) = true := by
  unfold isInt64 at hT
  unfold unixToInternal at hrep
  have h1 : wrap64 (T + unixToInternal) < wrap64 (wrap64 (E - 900) + unixToInternal) := by
    unfold wrap64 unixToInternal
    omega
  simp [Time.Before, Time.ofUnix, h1]

theorem not_before_of_ge {T E : Int} (n : Nat) (hT : -(2 : Int) ^ 63 ≤ T)
    (hT2 : T + unixToInternal < 2 ^ 63) (hE : isInt64 E) (hge : E - 900 ≤ T) :
    (Time.ofUnix T n).Before (Time.ofUnix (wrap64 (E - 900)) 0) = false := by
  unfold isInt64 at hE
  unfold unixToInternal at hT2
  have h1 : wrap64 (wrap64 (E - 900) + unixToInternal) ≤ wrap64 (T + unixToInternal) := by
    unfold wrap64 unixToInternal
    omega
  simp [Time.Before, Time.ofUnix]
  omega

theorem doRefresh_fresh (env : Env) (filename : String) (w : World) (data : Doc)
    (creds : UserCredentials)
    (hfile : w.files filename = some data)
    (hdec : unmarshalUserCredentials data {} = .ok creds)
    (hclock : isInt64 (env.clock (count Event.isNow w)).1)
    (hrep : creds.ExpiresAt - 900 + unixToInternal < 2 ^ 63)
    (hfresh : (env.clock (count Event.isNow w)).1 < creds.ExpiresAt - 900) :
    doRefresh env filename w =
      ((creds.AccessToken, creds.IDToken, true),
        { w with trace := w.trace ++
            [.call "doRefresh", .call "loadUserCredentials", .readFile filename, .now] }) := by
  have hb := before_of_lt (env.clock (count Event.isNow w)).2 hclock hfresh hrep
  have hf : (w.log (.call "doRefresh")).files filename = some data := hfile
  simp only [doRefresh, loadUserCredentials_of_file hf, hdec, timeNow]
  simp [count_log, Event.isNow, hb]
  simp [World.log]


theorem except_map_ok {α β : Type} {f : α → β} {x : Except Err α} {b : β}
    (h : x.map f = .ok b) : ∃ a, x = .ok a ∧ b = f a := by
  cases x with
  | error e => simp [Except.map] at h
  | ok a => exact ⟨a, rfl, by simpa [Except.map] using h.symm⟩

theorem asInt64_ok {field : String} {v : JVal} {n : Int} (h : asInt64 field v = .ok n) :
    isInt64 n := by
  cases v with
  | num m =>
    simp only [asInt64] at h
    split_ifs at h with hm
    cases h
    exact hm
  | _ => simp [asInt64] at h

theorem assignUserCredentials_isInt64 {c c' : UserCredentials} {tag : String} {v : JVal}
    (h : assignUserCredentials c tag v = .ok c') (hc : isInt64 c.ExpiresAt) :
    isInt64 c'.ExpiresAt := by
  unfold assignUserCredentials at h
  by_cases hv : v = .null
  · rw [if_pos hv] at h
    cases h
    exact hc
  rw [if_neg hv] at h
  by_cases h1 : tag = "client_id"
  · rw [if_pos h1] at h
    obtain ⟨s, _, rfl⟩ := except_map_ok h
    exact hc
  rw [if_neg h1] at h
  clear h1
  by_cases h1 : tag = "client_secret"
  · rw [if_pos h1] at h
    obtain ⟨s, _, rfl⟩ := except_map_ok h
    exact hc
  rw [if_neg h1] at h
  clear h1
  by_cases h1 : tag = "refresh_token"
  · rw [if_pos h1] at h
    obtain ⟨s, _, rfl⟩ := except_map_ok h
    exact hc
  rw [if_neg h1] at h
  clear h1
  by_cases h1 : tag = "scope"
  · rw [if_pos h1] at h
    obtain ⟨s, _, rfl⟩ := except_map_ok h
    exact hc
  rw [if_neg h1] at h
  clear h1
  by_cases h1 : tag = "type"
  · rw [if_pos h1] at h
    obtain ⟨s, _, rfl⟩ := except_map_ok h
    exact hc
  rw [if_neg h1] at h
  clear h1
  by_cases h1 : tag = "access_token"
  · rw [if_pos h1] at h
    obtain ⟨s, _, rfl⟩ := except_map_ok h
    exact hc
  rw [if_neg h1] at h
  clear h1
  by_cases h1 : tag = "id_token"
  · rw [if_pos h1] at h
    obtain ⟨s, _, rfl⟩ := except_map_ok h
    exact hc
  rw [if_neg h1] at h
  clear h1
  by_cases h1 : tag = "email"
  · rw [if_pos h1] at h
    obtain ⟨s, _, rfl⟩ := except_map_ok h
    exact hc
  rw [if_neg h1] at h
  clear h1
  by_cases h1 : tag = "expires_at"
  · rw [if_pos h1] at h
    obtain ⟨s, hs, rfl⟩ := except_map_ok h
    exact asInt64_ok hs
  rw [if_neg h1] at h
  cases h
  exact hc

theorem unmarshalUserCredentials_isInt64 {data : Doc} {c0 c : UserCredentials}
    (h : unmarshalUserCredentials data c0 = .ok c) (hc : isInt64 c0.ExpiresAt) :
    isInt64 c.ExpiresAt := by
  unfold unmarshalUserCredentials at h
  split at h
  · simp at h
  · simp at h; subst h; exact hc
  · simp at h
  · rename_i members
    induction members generalizing c0 with
    | nil => simp [pure, Except.pure] at h; subst h; exact hc
    | cons kv rest ih =>
      rw [List.foldlM_cons] at h
      cases hk : findTag userCredentialsTags kv.1 with
      | none =>
        simp [hk, bind, Except.bind] at h
        exact ih hc h
      | some tag =>
        simp only [hk] at h
        cases ha : assignUserCredentials c0 tag kv.2 with
        | error e => simp [ha, bind, Except.bind] at h
        | ok c1 =>
          simp [ha, bind, Except.bind] at h
          exact ih (assignUserCredentials_isInt64 ha hc) h

theorem unix_ofUnix_add (T E : Int) (n : Nat) :
    wrap64 ((Time.ofUnix T n).Unix + E) = wrap64 (T + E) := by
  simp only [Time.Unix, Time.ofUnix]
  unfold wrap64 unixToInternal
  omega

@[simp] theorem result_ok {α : Type} (v : α) : (Reply.ok v).result = .ok v := rfl

@[simp] theorem refreshedCredentials_AccessToken (creds : UserCredentials) (tokens : OAuthTokens)
    (x : Int) (email : Except Err String) :
    (refreshedCredentials creds tokens x email).AccessToken = tokens.AccessToken := by
  cases email <;> rfl

@[simp] theorem refreshedCredentials_IDToken (creds : UserCredentials) (tokens : OAuthTokens)
    (x : Int) (email : Except Err String) :
    (refreshedCredentials creds tokens x email).IDToken = tokens.IDToken := by
  cases email <;> rfl

@[simp] theorem refreshedCredentials_ExpiresAt (creds : UserCredentials) (tokens : OAuthTokens)
    (x : Int) (email : Except Err String) :
    (refreshedCredentials creds tokens x email).ExpiresAt = x := by
  cases email <;> rfl

@[simp] theorem refreshedCredentials_RefreshToken (creds : UserCredentials) (tokens : OAuthTokens)
    (x : Int) (email : Except Err String) :
    (refreshedCredentials creds tokens x email).RefreshToken = creds.RefreshToken := by
  cases email <;> rfl

theorem get_email_address_eq (env : Env) (accessToken : String) (w : World) :
    get_email_address env accessToken w =
      ((env.tokenInfo (count (Event.isHttpTo tokenInfoURL) w) accessToken).result,
        (w.log (.call "get_email_address")).log
          (.get tokenInfoURL [("Authorization", "Bearer " ++ accessToken)])) := by
  simp [get_email_address, count_log, Event.isHttpTo]

theorem log_eq (w : World) (e : Event) : w.log e = { w with trace := w.trace ++ [e] } := rfl

theorem doRefresh_stale_ok (env : Env) (filename : String) (w : World) (data : Doc)
    (creds : UserCredentials) (tokens : OAuthTokens)
    (hfile : w.files filename = some data)
    (hdec : unmarshalUserCredentials data {} = .ok creds)
    (hstale : (Time.ofUnix (env.clock (count Event.isNow w)).1
        (env.clock (count Event.isNow w)).2).Before
          (Time.ofUnix (wrap64 (creds.ExpiresAt - 900)) 0) = false)
    (hreply : env.tokenEndpoint (count (Event.isHttpTo tokenEndpointURL) w)
        (refreshContent creds) = .ok tokens)
    (saved : UserCredentials)
    (hsaved : saved = refreshedCredentials creds tokens
        (wrap64 ((env.clock (count Event.isNow w + 1)).1 + tokens.ExpiresIn))
        (env.tokenInfo (count (Event.isHttpTo tokenInfoURL) w) tokens.AccessToken).result) :
    doRefresh env filename w =
      match env.writeErr filename with
      | some _ =>
        (("", "", false),
          { w with trace := w.trace ++
            [.call "doRefresh", .call "loadUserCredentials", .readFile filename, .now,
             .post tokenEndpointURL formHeaders (refreshContent creds), .now,
             .call "get_email_address",
             .get tokenInfoURL [("Authorization", "Bearer " ++ tokens.AccessToken)],
             .call "saveUserCredentials", .writeFile filename (marshalUserCredentials saved)] })
      | none =>
        ((tokens.AccessToken, tokens.IDToken, true),
          { w with
            files := fun f => if f = filename then some (marshalUserCredentials saved) else w.files f
            trace := w.trace ++
            [.call "doRefresh", .call "loadUserCredentials", .readFile filename, .now,
             .post tokenEndpointURL formHeaders (refreshContent creds), .now,
             .call "get_email_address",
             .get tokenInfoURL [("Authorization", "Bearer " ++ tokens.AccessToken)],
             .call "saveUserCredentials", .writeFile filename (marshalUserCredentials saved)] }) := by
  subst hsaved
  have hf : (w.log (.call "doRefresh")).files filename = some data := hfile
  simp only [doRefresh, loadUserCredentials_of_file hf, hdec, timeNow, get_email_address_eq]
  simp only [count_log, Event.isNow, Event.isHttpTo, tokenEndpointURL, tokenInfoURL]
  simp only [tokenEndpointURL, tokenInfoURL] at hreply
  simp [hstale, hreply, unix_ofUnix_add, saveUserCredentials]
  cases hw : env.writeErr filename <;> simp [World.log]

theorem doRefresh_stale_err (env : Env) (filename : String) (w : World) (data : Doc)
    (creds : UserCredentials) (e : Err)
    (hfile : w.files filename = some data)
    (hdec : unmarshalUserCredentials data {} = .ok creds)
    (hstale : (Time.ofUnix (env.clock (count Event.isNow w)).1
        (env.clock (count Event.isNow w)).2).Before
          (Time.ofUnix (wrap64 (creds.ExpiresAt - 900)) 0) = false)
    (hreply : (env.tokenEndpoint (count (Event.isHttpTo tokenEndpointURL) w)
        (refreshContent creds)).result = .error e) :
    doRefresh env filename w =
      (("", "", false),
        { w with trace := w.trace ++
          [.call "doRefresh", .call "loadUserCredentials", .readFile filename, .now,
           .post tokenEndpointURL formHeaders (refreshContent creds)] }) := by
  have hf : (w.log (.call "doRefresh")).files filename = some data := hfile
  simp only [doRefresh, loadUserCredentials_of_file hf, hdec, timeNow]
  simp only [count_log, Event.isNow, Event.isHttpTo, tokenEndpointURL]
  simp only [tokenEndpointURL] at hreply
  simp [hstale, hreply, World.log]

@[simp] theorem authorizedCredentials_AccessToken (secrets : ClientSecrets) (tokens : OAuthTokens)
    (x : Int) (email : Except Err String) :
    (authorizedCredentials secrets tokens x email).AccessToken = tokens.AccessToken := by
  cases email <;> rfl

@[simp] theorem authorizedCredentials_IDToken (secrets : ClientSecrets) (tokens : OAuthTokens)
    (x : Int) (email : Except Err String) :
    (authorizedCredentials secrets tokens x email).IDToken = tokens.IDToken := by
  cases email <;> rfl

@[simp] theorem authorizedCredentials_ExpiresAt (secrets : ClientSecrets) (tokens : OAuthTokens)
    (x : Int) (email : Except Err String) :
    (authorizedCredentials secrets tokens x email).ExpiresAt = x := by
  cases email <;> rfl

@[simp] theorem authorizedCredentials_RefreshToken (secrets : ClientSecrets)
    (tokens : OAuthTokens) (x : Int) (email : Except Err String) :
    (authorizedCredentials secrets tokens x email).RefreshToken = tokens.RefreshToken := by
  cases email <;> rfl

theorem processAuthCode_err (env : Env) (secrets : ClientSecrets) (auth_code : String)
    (flag_oob : Bool) (w : World) (tokens : OAuthTokens)
    (hreply : env.tokenEndpoint (count (Event.isHttpTo tokenEndpointURL) w)
        (authCodeContent secrets auth_code flag_oob) = .ok tokens)
    (herr : tokens.Error ≠ "") :
    processAuthCode env secrets auth_code flag_oob w =
      (("", "", some tokens.ErrorDescription),
        { w with trace := w.trace ++
          [.call "processAuthCode",
           .post tokenEndpointURL formHeaders (authCodeContent secrets auth_code flag_oob)] }) := by
  simp only [processAuthCode]
  simp only [count_log, Event.isHttpTo, tokenEndpointURL]
  simp only [tokenEndpointURL] at hreply
  simp [hreply, herr, World.log]

theorem processAuthCode_ok_trace (env : Env) (secrets : ClientSecrets) (auth_code : String)
    (flag_oob : Bool) (w : World) (tokens : OAuthTokens)
    (hreply : env.tokenEndpoint (count (Event.isHttpTo tokenEndpointURL) w)
        (authCodeContent secrets auth_code flag_oob) = .ok tokens)
    (herr : tokens.Error = "")
    (saved : UserCredentials)
    (hsaved : saved = authorizedCredentials secrets tokens
        (wrap64 ((env.clock (count Event.isNow w)).1 + tokens.ExpiresIn))
        (env.tokenInfo (count (Event.isHttpTo tokenInfoURL) w) tokens.AccessToken).result) :
    (processAuthCode env secrets auth_code flag_oob w).2.trace.filter Event.isWrite =
        w.trace.filter Event.isWrite ++
          [.writeFile env.SavedUserCredentials (marshalUserCredentials saved)] ∧
    (env.writeErr env.SavedUserCredentials = none →
      (processAuthCode env secrets auth_code flag_oob w).1 =
          (tokens.AccessToken, tokens.IDToken, none) ∧
      (processAuthCode env secrets auth_code flag_oob w).2.files env.SavedUserCredentials =
          some (marshalUserCredentials saved)) ∧
    (env.writeErr env.SavedUserCredentials ≠ none →
      (processAuthCode env secrets auth_code flag_oob w).1.2.2 ≠ none ∧
      (processAuthCode env secrets auth_code flag_oob w).2.files = w.files) := by
  subst hsaved
  simp only [processAuthCode, timeNow, get_email_address_eq]
  simp only [count_log, Event.isNow, Event.isHttpTo, tokenEndpointURL, tokenInfoURL]
  simp only [tokenEndpointURL, tokenInfoURL] at hreply
  simp [hreply, herr, unix_ofUnix_add, saveUserCredentials]
  cases hw : env.writeErr env.SavedUserCredentials
  · by_cases hd : w.config.Debug = true <;>
      simp [hd, World.log, Event.isWrite, debug_displayIDToken, debug_displayUserInfo,
        debug_displayAccessToken, List.filter_append]
  · simp [World.log, Event.isWrite, List.filter_append]

theorem unmarshal_marshal (creds c0 : UserCredentials) (hE : isInt64 creds.ExpiresAt) :
    unmarshalUserCredentials (marshalUserCredentials creds) c0 = .ok creds := by
  have h9 : asInt64 "expires_at" (.num creds.ExpiresAt) = .ok creds.ExpiresAt := by
    simp [asInt64, hE]
  simp only [unmarshalUserCredentials, marshalUserCredentials, List.foldlM_cons, List.foldlM_nil]
  have t1 : findTag userCredentialsTags "client_id" = some "client_id" := by decide
  have t2 : findTag userCredentialsTags "client_secret" = some "client_secret" := by decide
  have t3 : findTag userCredentialsTags "refresh_token" = some "refresh_token" := by decide
  have t4 : findTag userCredentialsTags "scope" = some "scope" := by decide
  have t5 : findTag userCredentialsTags "type" = some "type" := by decide
  have t6 : findTag userCredentialsTags "access_token" = some "access_token" := by decide
  have t7 : findTag userCredentialsTags "id_token" = some "id_token" := by decide
  have t8 : findTag userCredentialsTags "email" = some "email" := by decide
  have t9 : findTag userCredentialsTags "expires_at" = some "expires_at" := by decide
  simp only [t1, t2, t3, t4, t5, t6, t7, t8, t9]
  have a9 : ∀ c : UserCredentials,
      assignUserCredentials c "expires_at" (.num creds.ExpiresAt) =
        .ok { c with ExpiresAt := creds.ExpiresAt } := by
    intro c
    have : assignUserCredentials c "expires_at" (.num creds.ExpiresAt) =
        (asInt64 "expires_at" (.num creds.ExpiresAt)).map fun n => { c with ExpiresAt := n } :=
      rfl
    rw [this, h9]
    rfl
  have a1 : ∀ c : UserCredentials, assignUserCredentials c "client_id" (.str creds.ClientID) =
      .ok { c with ClientID := creds.ClientID } := fun _ => rfl
  have a2 : ∀ c : UserCredentials,
      assignUserCredentials c "client_secret" (.str creds.ClientSecret) =
        .ok { c with ClientSecret := creds.ClientSecret } := fun _ => rfl
  have a3 : ∀ c : UserCredentials,
      assignUserCredentials c "refresh_token" (.str creds.RefreshToken) =
        .ok { c with RefreshToken := creds.RefreshToken } := fun _ => rfl
  have a4 : ∀ c : UserCredentials, assignUserCredentials c "scope" (.str creds.Scope) =
      .ok { c with Scope := creds.Scope } := fun _ => rfl
  have a5 : ∀ c : UserCredentials, assignUserCredentials c "type" (.str creds.Type_) =
      .ok { c with Type_ := creds.Type_ } := fun _ => rfl
  have a6 : ∀ c : UserCredentials,
      assignUserCredentials c "access_token" (.str creds.AccessToken) =
        .ok { c with AccessToken := creds.AccessToken } := fun _ => rfl
  have a7 : ∀ c : UserCredentials, assignUserCredentials c "id_token" (.str creds.IDToken) =
      .ok { c with IDToken := creds.IDToken } := fun _ => rfl
  have a8 : ∀ c : UserCredentials, assignUserCredentials c "email" (.str creds.Email) =
      .ok { c with Email := creds.Email } := fun _ => rfl
  rw [a1, show ∀ (x : UserCredentials) (f : UserCredentials → Except Err UserCredentials),
    (Except.ok x >>= f) = f x from fun _ _ => rfl]
  simp only [a2, a3, a4, a5, a6, a7, a8, a9, bind, Except.bind, pure, Except.pure]

theorem saveUserCredentials_eq (env : Env) (filename : String) (creds : UserCredentials)
    (w : World) :
    saveUserCredentials env filename creds w =
      (env.writeErr filename,
        { files :=
            if (env.writeErr filename).isNone then
              fun f => if f = filename then some (marshalUserCredentials creds) else w.files f
            else w.files
          config := w.config
          trace := w.trace ++
            [.call "saveUserCredentials", .writeFile filename (marshalUserCredentials creds)] }) := by
  unfold saveUserCredentials
  cases env.writeErr filename <;> simp [World.log]

theorem loadUserCredentials_eq (filename : String) (w : World) :
    loadUserCredentials filename w =
      (match w.files filename with
        | none => .error ("open " ++ filename ++ ": no such file or directory")
        | some data => unmarshalUserCredentials data {},
       (w.log (.call "loadUserCredentials")).log (.readFile filename)) := by
  unfold loadUserCredentials readCredentials
  simp only [log_files]
  cases w.files filename <;> rfl

theorem loadClientSecrets_eq (env : Env) (filename : String) (w : World) :
    loadClientSecrets env filename w =
      (env.clientSecrets filename,
        { files := w.files
          config :=
            match env.clientSecrets filename with
            | .error _ => w.config
            | .ok secrets => { w.config with ProjectId := secrets.Installed.ProjectID }
          trace := w.trace ++ [.call "loadClientSecrets", .readFile filename] }) := by
  unfold loadClientSecrets
  cases env.clientSecrets filename <;> simp [World.log]

theorem processAuthCode_count_call (env : Env) (secrets : ClientSecrets) (auth_code : String)
    (flag_oob : Bool) (w : World) (fn : String) (h : outsideAuth fn) :
    count (Event.isCall fn) (processAuthCode env secrets auth_code flag_oob w).2 =
      count (Event.isCall fn) w := by
  obtain ⟨h1, h2, h3, h4, h5, h6, -, -⟩ := h
  simp only [processAuthCode, timeNow, get_email_address_eq, saveUserCredentials_eq,
    debug_displayIDToken, debug_displayUserInfo, debug_displayAccessToken]
  repeat' split
  all_goals
    simp [count_log, Event.isCall, count, World.log, Ne.symm h1, Ne.symm h2, Ne.symm h3,
      Ne.symm h4, Ne.symm h5, Ne.symm h6]

theorem manualAuthentication_count_call (env : Env) (secrets : ClientSecrets) (url : String)
    (w : World) (fn : String) (h : outsideAuth fn) :
    count (Event.isCall fn) (manualAuthentication env secrets url w).2 =
      count (Event.isCall fn) w := by
  simp only [manualAuthentication]
  rw [processAuthCode_count_call _ _ _ _ _ _ h]
  simp [count_log, Event.isCall, Ne.symm h.2.2.2.2.2.2.1]

theorem get_tokens_browser_count_call (env : Env) (secrets : ClientSecrets) (url : String)
    (w : World) (fn : String) (h : outsideAuth fn) :
    count (Event.isCall fn) (get_tokens_browser env secrets url w).2 =
      count (Event.isCall fn) w := by
  simp only [get_tokens_browser]
  repeat' split
  all_goals first
    | rw [processAuthCode_count_call _ _ _ _ _ _ h]
    | skip
  all_goals simp_all [count_log, Event.isCall]

theorem outsideAuth_loadClientSecrets : outsideAuth "loadClientSecrets" := by
  unfold outsideAuth; decide

theorem outsideAuth_doRefresh : outsideAuth "doRefresh" := by
  unfold outsideAuth; decide

theorem get_tokens_interactive_count_call (env : Env) (w : World) (fn : String)
    (h : outsideAuth fn) (h' : fn ≠ "loadClientSecrets") :
    count (Event.isCall fn) (get_tokens_interactive env w).2 = count (Event.isCall fn) w := by
  simp only [get_tokens_interactive, loadClientSecrets_eq]
  repeat' split
  all_goals first
    | rw [get_tokens_browser_count_call _ _ _ _ _ h]
    | rw [manualAuthentication_count_call _ _ _ _ _ h]
    | skip
  all_goals simp_all [count_log, Event.isCall, count, Ne.symm h']

theorem get_tokens_interactive_count_loadClientSecrets (env : Env) (w : World) :
    count (Event.isCall "loadClientSecrets") (get_tokens_interactive env w).2 =
      count (Event.isCall "loadClientSecrets") w + 1 := by
  simp only [get_tokens_interactive, loadClientSecrets_eq]
  repeat' split
  all_goals first
    | rw [get_tokens_browser_count_call _ _ _ _ _ outsideAuth_loadClientSecrets]
    | rw [manualAuthentication_count_call _ _ _ _ _ outsideAuth_loadClientSecrets]
    | skip
  all_goals simp_all [count_log, Event.isCall, count]

theorem doRefresh_count_call (env : Env) (filename : String) (w : World) (fn : String)
    (h : outsideAuth fn) (h' : fn ≠ "doRefresh") :
    count (Event.isCall fn) (doRefresh env filename w).2 = count (Event.isCall fn) w := by
  obtain ⟨-, h2, h3, -, -, -, -, h8⟩ := h
  simp only [doRefresh, loadUserCredentials_eq, timeNow, get_email_address_eq,
    saveUserCredentials_eq]
  repeat' split
  all_goals
    simp [count_log, Event.isCall, count, World.log, Ne.symm h2, Ne.symm h3, Ne.symm h8,
      Ne.symm h']

theorem doRefresh_count_doRefresh (env : Env) (filename : String) (w : World) :
    count (Event.isCall "doRefresh") (doRefresh env filename w).2 =
      count (Event.isCall "doRefresh") w + 1 := by
  simp only [doRefresh, loadUserCredentials_eq, timeNow, get_email_address_eq,
    saveUserCredentials_eq]
  repeat' split
  all_goals simp [count_log, Event.isCall, count, World.log]

theorem get_sa_tokens_count_call (env : Env) (w : World) (fn : String)
    (h : fn ≠ "get_sa_tokens") :
    count (Event.isCall fn) (get_sa_tokens env w).2 = count (Event.isCall fn) w := by
  simp only [get_sa_tokens]
  repeat' split
  all_goals simp [count_log, Event.isCall, Ne.symm h]

theorem get_sa_tokens_id_token (env : Env) (w : World) (a i : String)
    (h : (get_sa_tokens env w).1 = (a, i, none)) : i = "" := by
  simp only [get_sa_tokens] at h
  repeat' split at h
  all_goals simp_all

theorem fileExists_log (filename : String) (w : World) (e : Event) :
    fileExists filename (w.log e) = fileExists filename w := rfl

theorem get_tokens_adc (env : Env) (w : World) (h : w.config.Flags.Adc = true) :
    get_tokens env w =
      (.ret (get_sa_tokens env (w.log (.call "get_tokens"))).1,
        (get_sa_tokens env (w.log (.call "get_tokens"))).2) := by
  simp [get_tokens, h]

theorem get_tokens_interactive_of (env : Env) (w : World) (h : w.config.Flags.Adc = false)
    (h' : w.config.Flags.Auth = true ∨ fileExists env.SavedUserCredentials w = false) :
    get_tokens env w = get_tokens_interactive env (w.log (.call "get_tokens")) := by
  rcases h' with h' | h' <;> simp [get_tokens, h, h', fileExists_log]

theorem get_tokens_refresh (env : Env) (w : World) (h : w.config.Flags.Adc = false)
    (hAuth : w.config.Flags.Auth = false)
    (hfile : fileExists env.SavedUserCredentials w = true) :
    get_tokens env w =
      if (doRefresh env env.SavedUserCredentials (w.log (.call "get_tokens"))).1.2.2 = true then
        (.ret ((doRefresh env env.SavedUserCredentials (w.log (.call "get_tokens"))).1.1,
            (doRefresh env env.SavedUserCredentials (w.log (.call "get_tokens"))).1.2.1, none),
          (doRefresh env env.SavedUserCredentials (w.log (.call "get_tokens"))).2)
      else
        get_tokens_interactive env
          (doRefresh env env.SavedUserCredentials (w.log (.call "get_tokens"))).2 := by
  simp only [get_tokens, log_config, h, hAuth, fileExists_log, hfile]
  by_cases hv : (doRefresh env env.SavedUserCredentials (w.log (.call "get_tokens"))).1.2.2 = true
  · simp [hv]
  · simp [hv]

theorem cloud_shell_get_environment_eq (env : Env) (accessToken : String) (flag_info : Bool)
    (w : World) :
    cloud_shell_get_environment env accessToken flag_info w =
      (match (env.getEnvironment (count (Event.isHttpTo environmentURL) w)).result with
        | .error e => ({}, some e)
        | .ok params => (params, none),
       { w with trace := w.trace ++
          [.call "cloud_shell_get_environment",
           .get environmentURL (environmentHeaders accessToken w)] }) := by
  simp only [cloud_shell_get_environment, count_log, Event.isHttpTo]
  simp only [Bool.false_eq_true, if_false, Nat.add_zero]
  cases h : (env.getEnvironment (count (Event.isHttpTo environmentURL) w)).result <;>
    simp [World.log]

theorem cloudshell_start_eq (env : Env) (accessToken : String) (w : World) :
    cloudshell_start env accessToken w =
      (match (env.startEnvironment (count (Event.isHttpTo startURL) w)).result with
        | .error e => some e
        | .ok params => if params.Error.Code ≠ 0 then some params.Error.Message else none,
       { w with trace := w.trace ++
          [.call "cloudshell_start", .post startURL (environmentHeaders accessToken w) ""] }) := by
  simp only [cloudshell_start, count_log, Event.isHttpTo]
  simp only [Bool.false_eq_true, if_false, Nat.add_zero]
  cases h : (env.startEnvironment (count (Event.isHttpTo startURL) w)).result with
  | error e => simp [World.log]
  | ok p => by_cases h : p.Error.Code = 0 <;> simp [World.log, h]

theorem pollEvents_congr (accessToken : String) (w w' : World) (h : w'.config = w.config)
    (m : Nat) : pollEvents accessToken w' m = pollEvents accessToken w m := by
  induction m with
  | zero => rfl
  | succ m ih => simp [pollEvents, ih, environmentHeaders, h]

theorem stops_of_error {r : Reply CloudShellEnv} {e : Err} (h : r.result = .error e) :
    r.stops = true := by
  simp [Reply.stops, h]

theorem stops_of_ok {r : Reply CloudShellEnv} {p : CloudShellEnv} (h : r.result = .ok p) :
    r.stops = (decide (p.Error.Code ≠ 0) || decide (p.State = "RUNNING")) := by
  simp [Reply.stops, h]

theorem pollEnvironment_succ (env : Env) (accessToken : String) (flag_info : Bool) (n : Nat)
    (params : CloudShellEnv) (w : World) :
    pollEnvironment env accessToken flag_info (n + 1) params w =
      match (env.getEnvironment (count (Event.isHttpTo environmentURL) w)).result with
      | .error _ => (none, { w with trace := w.trace ++ pollEvents accessToken w 1 })
      | .ok p =>
        if p.Error.Code ≠ 0 then
          (none, { w with trace := w.trace ++ pollEvents accessToken w 1 })
        else if p.State = "RUNNING" then
          (some p, { w with trace := w.trace ++ pollEvents accessToken w 1 ++ [.sleep 5000] })
        else
          pollEnvironment env accessToken flag_info n p
            { w with trace := w.trace ++ pollEvents accessToken w 1 } := by
  have hg : count (Event.isHttpTo environmentURL) (w.log (.sleep 500)) =
      count (Event.isHttpTo environmentURL) w := by
    simp [count_log, Event.isHttpTo]
  simp only [pollEnvironment, cloud_shell_get_environment_eq, hg]
  cases hr : (env.getEnvironment (count (Event.isHttpTo environmentURL) w)).result with
  | error e => simp [pollEvents, World.log, environmentHeaders]
  | ok p =>
    by_cases hc : p.Error.Code = 0
    · by_cases hs : p.State = "RUNNING"
      · simp [pollEvents, World.log, environmentHeaders, hc, hs]
      · simp [pollEvents, World.log, environmentHeaders, hc, hs]
    · simp [pollEvents, World.log, environmentHeaders, hc]

theorem pollEnvironment_spec (env : Env) (accessToken : String) (flag_info : Bool) :
    ∀ (n : Nat) (params : CloudShellEnv) (w : World),
    ∃ m : Nat, m ≤ n ∧ (n ≠ 0 → 1 ≤ m) ∧
      (∀ i, i + 1 < m →
        (env.getEnvironment (count (Event.isHttpTo environmentURL) w + i)).stops = false) ∧
      ((1 ≤ m ∧
          (∀ p, (env.getEnvironment (count (Event.isHttpTo environmentURL) w + (m - 1))).result =
            .ok p → p.Error.Code ≠ 0) ∧
          pollEnvironment env accessToken flag_info n params w =
            (none, { w with trace := w.trace ++ pollEvents accessToken w m })) ∨
        (1 ≤ m ∧ ∃ p,
          (env.getEnvironment (count (Event.isHttpTo environmentURL) w + (m - 1))).result =
            .ok p ∧ p.Error.Code = 0 ∧ p.State = "RUNNING" ∧
          pollEnvironment env accessToken flag_info n params w =
            (some p,
              { w with trace := w.trace ++ pollEvents accessToken w m ++ [.sleep 5000] })) ∨
        (m = n ∧
          (∀ i, i < n →
            (env.getEnvironment (count (Event.isHttpTo environmentURL) w + i)).stops = false) ∧
          ∃ q, (n = 0 → q = params) ∧
            (n ≠ 0 →
              (env.getEnvironment (count (Event.isHttpTo environmentURL) w + (n - 1))).result =
                .ok q) ∧
            pollEnvironment env accessToken flag_info n params w =
              (some q, { w with trace := w.trace ++ pollEvents accessToken w n }))) := by
  intro n
  induction n with
  | zero =>
    intro params w
    refine ⟨0, le_refl _, by simp, by simp, Or.inr (Or.inr ⟨rfl, by simp, params, by simp, by simp, ?_⟩)⟩
    simp [pollEnvironment, pollEvents]
  | succ n ih =>
    intro params w
    rw [pollEnvironment_succ]
    cases hr : (env.getEnvironment (count (Event.isHttpTo environmentURL) w)).result with
    | error e =>
      refine ⟨1, by omega, by simp, by simp, Or.inl ⟨le_refl _, ?_, rfl⟩⟩
      intro p hp
      simp [hr] at hp
    | ok p =>
      by_cases hc : p.Error.Code = 0
      · by_cases hs : p.State = "RUNNING"
        · refine ⟨1, by omega, by simp, by simp, Or.inr (Or.inl ⟨le_refl _, p, ?_, hc, hs, ?_⟩)⟩
          · simpa using hr
          · simp [hc, hs]
        · have hstop : (env.getEnvironment (count (Event.isHttpTo environmentURL) w)).stops =
              false := by
            rw [stops_of_ok hr]; simp [hc, hs]
          have hcnt : count (Event.isHttpTo environmentURL)
              ({ w with trace := w.trace ++ pollEvents accessToken w 1 } : World) =
              count (Event.isHttpTo environmentURL) w + 1 := by
            simp [count, pollEvents, List.countP_append, List.countP_cons, Event.isHttpTo]
          have hev : ∀ k, pollEvents accessToken
              ({ w with trace := w.trace ++ pollEvents accessToken w 1 } : World) k =
              pollEvents accessToken w k := fun k => pollEvents_congr accessToken w _ (by rfl) k
          have happ : ∀ k, (w.trace ++ pollEvents accessToken w 1) ++ pollEvents accessToken w k =
              w.trace ++ pollEvents accessToken w (k + 1) := by
            intro k
            induction k with
            | zero => simp [pollEvents]
            | succ k _ => simp [pollEvents]
          obtain ⟨m, hm, hm1, hpre, hcase⟩ :=
            ih p ({ w with trace := w.trace ++ pollEvents accessToken w 1 } : World)
          simp only [hcnt, hev, happ] at hpre hcase
          simp only [hc, hs, ne_eq, not_true_eq_false, if_false]
          refine ⟨m + 1, by omega, by omega, ?_, ?_⟩
          · intro i hi
            cases i with
            | zero => simpa using hstop
            | succ i =>
              have := hpre i (by omega)
              rw [show count (Event.isHttpTo environmentURL) w + (i + 1) =
                count (Event.isHttpTo environmentURL) w + 1 + i by omega]
              exact this
          · rcases hcase with ⟨h1, h2, h3⟩ | ⟨h1, q, h2, h3, h4, h5⟩ | ⟨h1, h2, q, h3, h4, h5⟩
            · refine Or.inl ⟨by omega, ?_, h3⟩
              intro p' hp'
              apply h2 p'
              rw [show count (Event.isHttpTo environmentURL) w + 1 + (m - 1) =
                count (Event.isHttpTo environmentURL) w + (m + 1 - 1) by omega]
              exact hp'
            · refine Or.inr (Or.inl ⟨by omega, q, ?_, h3, h4, ?_⟩)
              · rw [show count (Event.isHttpTo environmentURL) w + (m + 1 - 1) =
                  count (Event.isHttpTo environmentURL) w + 1 + (m - 1) by omega]
                exact h2
              · rw [h5]
            · subst h1
              refine Or.inr (Or.inr ⟨rfl, ?_, ?_⟩)
              · intro i hi
                cases i with
                | zero => simpa using hstop
                | succ i =>
                  have := h2 i (by omega)
                  rw [show count (Event.isHttpTo environmentURL) w + (i + 1) =
                    count (Event.isHttpTo environmentURL) w + 1 + i by omega]
                  exact this
              · by_cases hz : m = 0
                · subst hz
                  refine ⟨p, by simp, ?_, ?_⟩
                  · intro _
                    simpa using hr
                  · rw [h5, h3 rfl]
                · refine ⟨q, by simp, ?_, h5⟩
                  intro _
                  have := h4 hz
                  rw [show count (Event.isHttpTo environmentURL) w + (m + 1 - 1) =
                    count (Event.isHttpTo environmentURL) w + 1 + (m - 1) by omega]
                  exact this
      · refine ⟨1, by omega, by simp, by simp, Or.inl ⟨le_refl _, ?_, ?_⟩⟩
        · intro p' hp'
          simp [hr] at hp'
          subst hp'
          exact hc
        · simp [hc]

theorem count_ite_log (p : Event → Bool) (c : Prop) [Decidable c] (w : World) (e : Event)
    (h : p e = false) : count p (if c then w.log e else w) = count p w := by
  split
  · simp [count_log, h]
  · rfl

theorem dispatch_count (env : Env) (params : CloudShellEnv) (w : World) (p : Event → Bool)
    (h : ∀ handler q, p (.transport handler q) = false) :
    count p (dispatch env params w) = count p w := by
  simp only [dispatch]
  simp only [count_ite_log, h]

theorem ite_log_files (c : Prop) [Decidable c] (w : World) (e : Event) :
    (if c then w.log e else w).files = w.files := by
  split <;> rfl

theorem ite_log_config (c : Prop) [Decidable c] (w : World) (e : Event) :
    (if c then w.log e else w).config = w.config := by
  split <;> rfl

theorem dispatch_files (env : Env) (params : CloudShellEnv) (w : World) :
    (dispatch env params w).files = w.files := by
  simp only [dispatch, ite_log_files]

theorem dispatch_config (env : Env) (params : CloudShellEnv) (w : World) :
    (dispatch env params w).config = w.config := by
  simp only [dispatch, ite_log_config]

theorem ite_log_trace (c : Prop) [Decidable c] (w : World) (e : Event) :
    (if c then w.log e else w).trace = w.trace ++ if c then [e] else [] := by
  split <;> simp

theorem dispatch_trace (env : Env) (params : CloudShellEnv) (w : World) :
    ∃ evs : List Event, (dispatch env params w).trace = w.trace ++ evs ∧
      ∀ e ∈ evs, ∃ handler, e = .transport handler params := by
  simp only [dispatch, ite_log_trace, List.append_assoc]
  refine ⟨_, rfl, ?_⟩
  intro e he
  simp only [List.mem_append] at he
  rcases he with he | he | he | he | he | he | he | he | he | he | he <;>
    (split at he <;> simp at he; exact ⟨_, he⟩)

theorem call_cloud_shell_first (env : Env) (accessToken : String) (w : World)
    (params : CloudShellEnv)
    (hreply : (env.getEnvironment (count (Event.isHttpTo environmentURL) w)).result = .ok params) :
    call_cloud_shell env accessToken w =
      let w1 : World := { w with trace := w.trace ++
        [.call "call_cloud_shell", .call "cloud_shell_get_environment",
         .get environmentURL (environmentHeaders accessToken w)] }
      if w.config.Command = CMD_INFO then w1
      else
        let r :=
          if params.State = "DISABLED" then
            let r := cloudshell_start env accessToken w1
            match r.1 with
            | some _ => (none, r.2)
            | none =>
              pollEnvironment env accessToken (decide (w.config.Command = CMD_INFO)) 60 params r.2
          else (some params, w1)
        match r.1 with
        | none => r.2
        | some params => if params.State ≠ "RUNNING" then r.2 else dispatch env params r.2 := by
  have hg : count (Event.isHttpTo environmentURL) (w.log (.call "call_cloud_shell")) =
      count (Event.isHttpTo environmentURL) w := by
    simp [count_log, Event.isHttpTo]
  simp only [call_cloud_shell, cloud_shell_get_environment_eq, hg, hreply, log_config]
  simp [World.log, environmentHeaders]

theorem countP_pollEvents_call (accessToken : String) (w : World) (m : Nat) :
    (pollEvents accessToken w m).countP (Event.isCall "cloud_shell_get_environment") = m := by
  induction m with
  | zero => rfl
  | succ m ih =>
    simp only [pollEvents, List.countP_append, ih]
    simp [List.countP_cons, Event.isCall]
    omega

theorem countP_pollEvents_transport (accessToken : String) (w : World) (m : Nat) :
    (pollEvents accessToken w m).countP Event.isTransport = 0 := by
  induction m with
  | zero => rfl
  | succ m ih =>
    simp only [pollEvents, List.countP_append, ih]
    simp [List.countP_cons, Event.isTransport]

theorem call_cloud_shell_disabled (env : Env) (accessToken : String) (w : World)
    (p0 q : CloudShellEnv)
    (hcmd : w.config.Command ≠ CMD_INFO)
    (hreply : env.getEnvironment (count (Event.isHttpTo environmentURL) w) = .ok p0)
    (hstate : p0.State = "DISABLED")
    (hstart : env.startEnvironment (count (Event.isHttpTo startURL) w) = .ok q)
    (hq : q.Error.Code = 0) :
    call_cloud_shell env accessToken w =
      match (pollEnvironment env accessToken false 60 p0
          { w with trace := w.trace ++ startEvents accessToken w }).1 with
      | none =>
        (pollEnvironment env accessToken false 60 p0
          { w with trace := w.trace ++ startEvents accessToken w }).2
      | some params =>
        if params.State ≠ "RUNNING" then
          (pollEnvironment env accessToken false 60 p0
            { w with trace := w.trace ++ startEvents accessToken w }).2
        else
          dispatch env params
            (pollEnvironment env accessToken false 60 p0
              { w with trace := w.trace ++ startEvents accessToken w }).2 := by
  have hr : (env.getEnvironment (count (Event.isHttpTo environmentURL) w)).result = .ok p0 := by
    rw [hreply]; rfl
  have hu : environmentURL ≠ startURL := by decide
  have hs : count (Event.isHttpTo startURL)
      ({ w with trace := w.trace ++
        [.call "call_cloud_shell", .call "cloud_shell_get_environment",
         .get environmentURL (environmentHeaders accessToken w)] } : World) =
      count (Event.isHttpTo startURL) w := by
    simp [count, List.countP_append, List.countP_cons, Event.isHttpTo, hu]
  rw [call_cloud_shell_first env accessToken w p0 hr]
  simp only [hcmd, if_false, hstate, if_true, cloudshell_start_eq, hs, hstart, result_ok, hq,
    ne_eq, not_true_eq_false, decide_False]
  simp [startEvents, environmentHeaders]

theorem call_cloud_shell_disabled_cases (env : Env) (accessToken : String) (w : World)
    (p0 q : CloudShellEnv)
    (hcmd : w.config.Command ≠ CMD_INFO)
    (hreply : env.getEnvironment (count (Event.isHttpTo environmentURL) w) = .ok p0)
    (hstate : p0.State = "DISABLED")
    (hstart : env.startEnvironment (count (Event.isHttpTo startURL) w) = .ok q)
    (hq : q.Error.Code = 0) :
    ∃ m : Nat, 1 ≤ m ∧ m ≤ 60 ∧
      (∀ i, i + 1 < m →
        (env.getEnvironment (count (Event.isHttpTo environmentURL) w + 1 + i)).stops = false) ∧
      (((∀ p, (env.getEnvironment (count (Event.isHttpTo environmentURL) w + m)).result = .ok p →
            p.Error.Code ≠ 0) ∧
          call_cloud_shell env accessToken w =
            { w with trace := w.trace ++ startEvents accessToken w ++
              pollEvents accessToken w m }) ∨
        (∃ p, (env.getEnvironment (count (Event.isHttpTo environmentURL) w + m)).result = .ok p ∧
          p.Error.Code = 0 ∧ p.State = "RUNNING" ∧
          call_cloud_shell env accessToken w =
            dispatch env p
              { w with trace := w.trace ++ startEvents accessToken w ++
                pollEvents accessToken w m ++ [.sleep 5000] }) ∨
        (m = 60 ∧
          (∀ i, i < 60 →
            (env.getEnvironment (count (Event.isHttpTo environmentURL) w + 1 + i)).stops =
              false) ∧
          call_cloud_shell env accessToken w =
            { w with trace := w.trace ++ startEvents accessToken w ++
              pollEvents accessToken w 60 })) := by
  have hu : environmentURL ≠ startURL := by decide
  have hcnt : count (Event.isHttpTo environmentURL)
      ({ w with trace := w.trace ++ startEvents accessToken w } : World) =
      count (Event.isHttpTo environmentURL) w + 1 := by
    simp [count, startEvents, List.countP_append, List.countP_cons, Event.isHttpTo, Ne.symm hu]
  have hev : ∀ k, pollEvents accessToken
      ({ w with trace := w.trace ++ startEvents accessToken w } : World) k =
      pollEvents accessToken w k := fun k => pollEvents_congr accessToken w _ (by rfl) k
  rw [call_cloud_shell_disabled env accessToken w p0 q hcmd hreply hstate hstart hq]
  obtain ⟨m, hm, hm1, hpre, hcase⟩ := pollEnvironment_spec env accessToken false 60 p0
    ({ w with trace := w.trace ++ startEvents accessToken w } : World)
  simp only [hcnt, hev] at hpre hcase
  have hm1' : 1 ≤ m := hm1 (by decide)
  have hidx : count (Event.isHttpTo environmentURL) w + 1 + (m - 1) =
      count (Event.isHttpTo environmentURL) w + m := by omega
  rw [hidx] at hcase
  refine ⟨m, hm1', hm, hpre, ?_⟩
  rcases hcase with ⟨-, h2, h3⟩ | ⟨-, p, h2, h3, h4, h5⟩ | ⟨h1, h2, r, -, h4, h5⟩
  · exact Or.inl ⟨h2, by rw [h3]⟩
  · refine Or.inr (Or.inl ⟨p, h2, h3, h4, ?_⟩)
    rw [h5]
    simp [h4]
  · subst h1
    refine Or.inr (Or.inr ⟨rfl, h2, ?_⟩)
    have h59 := h2 59 (by decide)
    have hres := h4 (by decide)
    rw [show count (Event.isHttpTo environmentURL) w + 1 + (60 - 1) =
      count (Event.isHttpTo environmentURL) w + 1 + 59 by omega] at hres
    rw [stops_of_ok hres] at h59
    have hnr : r.State ≠ "RUNNING" := by
      intro hrun
      simp [hrun] at h59
    rw [h5]
    simp [hnr]

theorem countP_pollEvents_zero (accessToken : String) (w : World) (p : Event → Bool)
    (h1 : p (.sleep 500) = false) (h2 : p (.call "cloud_shell_get_environment") = false)
    (h3 : ∀ hd, p (.get environmentURL hd) = false) (m : Nat) :
    (pollEvents accessToken w m).countP p = 0 := by
  induction m with
  | zero => rfl
  | succ m ih =>
    simp only [pollEvents, List.countP_append, ih]
    simp [List.countP_cons, h1, h2, h3]

theorem stops_of_failing {r : Reply CloudShellEnv}
    (h : ∀ p, r.result = .ok p → p.Error.Code ≠ 0) : r.stops = true := by
  cases hr : r.result with
  | error e => exact stops_of_error hr
  | ok p =>
    rw [stops_of_ok hr]
    simp [h p hr]

theorem countP_tail_zero (p : Event → Bool) (tail : List Event)
    (h1 : p (.sleep 5000) = false)
    (h2 : ∀ handler params, p (.transport handler params) = false)
    (h3 : ∀ e ∈ tail, e = .sleep 5000 ∨ ∃ handler params, e = .transport handler params) :
    tail.countP p = 0 := by
  rw [List.countP_eq_zero]
  intro e he
  rcases h3 e he with rfl | ⟨handler, params, rfl⟩
  · simp [h1]
  · simp [h2]

theorem call_cloud_shell_start_rejected (env : Env) (accessToken : String) (w : World)
    (p0 : CloudShellEnv)
    (hcmd : w.config.Command ≠ CMD_INFO)
    (hreply : env.getEnvironment (count (Event.isHttpTo environmentURL) w) = .ok p0)
    (hstate : p0.State = "DISABLED")
    (hfail : ∀ q, env.startEnvironment (count (Event.isHttpTo startURL) w) = .ok q →
      q.Error.Code ≠ 0) :
    call_cloud_shell env accessToken w =
      { w with trace := w.trace ++ startEvents accessToken w } := by
  have hr : (env.getEnvironment (count (Event.isHttpTo environmentURL) w)).result =
      .ok p0 := by
    rw [hreply]; rfl
  have hu : environmentURL ≠ startURL := by decide
  have hs : count (Event.isHttpTo startURL)
      ({ w with trace := w.trace ++
        [.call "call_cloud_shell", .call "cloud_shell_get_environment",
         .get environmentURL (environmentHeaders accessToken w)] } : World) =
      count (Event.isHttpTo startURL) w := by
    simp [count, List.countP_append, List.countP_cons, Event.isHttpTo, hu]
  rw [call_cloud_shell_first env accessToken w p0 hr]
  cases hsr : env.startEnvironment (count (Event.isHttpTo startURL) w) with
  | ok q =>
    have hq := hfail q hsr
    simp only [hcmd, if_false, hstate, if_true, cloudshell_start_eq, hs, hsr, result_ok]
    simp [hq, startEvents, environmentHeaders]
  | sendErr e =>
    simp only [hcmd, if_false, hstate, if_true, cloudshell_start_eq, hs, hsr, Reply.result]
    simp [startEvents, environmentHeaders]
  | bodyErr e =>
    simp only [hcmd, if_false, hstate, if_true, cloudshell_start_eq, hs, hsr, Reply.result]
    simp [startEvents, environmentHeaders]
  | jsonErr e =>
    simp only [hcmd, if_false, hstate, if_true, cloudshell_start_eq, hs, hsr, Reply.result]
    simp [startEvents, environmentHeaders]

theorem call_cloud_shell_disabled_polls (env : Env) (accessToken : String) (w : World)
    (p0 q : CloudShellEnv)
    (hcmd : w.config.Command ≠ CMD_INFO)
    (hreply : env.getEnvironment (count (Event.isHttpTo environmentURL) w) = .ok p0)
    (hstate : p0.State = "DISABLED")
    (hstart : env.startEnvironment (count (Event.isHttpTo startURL) w) = .ok q)
    (hq : q.Error.Code = 0) :
    ∃ (m : Nat) (tail : List Event), 1 ≤ m ∧ m ≤ 60 ∧
      (call_cloud_shell env accessToken w).trace =
        w.trace ++ startEvents accessToken w ++ pollEvents accessToken w m ++ tail ∧
      (∀ e ∈ tail, e = .sleep 5000 ∨ ∃ handler params, e = .transport handler params) ∧
      (∀ i, i + 1 < m →
        (env.getEnvironment (count (Event.isHttpTo environmentURL) w + 1 + i)).stops = false) ∧
      (m < 60 →
        (env.getEnvironment (count (Event.isHttpTo environmentURL) w + m)).stops = true) ∧
      ((∀ i, i < 60 →
          (env.getEnvironment (count (Event.isHttpTo environmentURL) w + 1 + i)).stops =
            false) → m = 60) ∧
      (m = 60 →
        (∀ i p, i < 60 →
          (env.getEnvironment (count (Event.isHttpTo environmentURL) w + 1 + i)).result =
            .ok p → p.State ≠ "RUNNING") →
        tail = []) := by
  obtain ⟨m, hm1, hm, hpre, hcase⟩ :=
    call_cloud_shell_disabled_cases env accessToken w p0 q hcmd hreply hstate hstart hq
  have hidx : count (Event.isHttpTo environmentURL) w + 1 + (m - 1) =
      count (Event.isHttpTo environmentURL) w + m := by omega
  rcases hcase with ⟨h1, h2⟩ | ⟨p, h1, h2, h3, h4⟩ | ⟨h1, h2, h3⟩
  · have hst := stops_of_failing h1
    refine ⟨m, [], hm1, hm, by rw [h2]; simp, by simp, hpre, fun _ => hst, ?_, fun _ _ => rfl⟩
    intro hno
    have := hno (m - 1) (by omega)
    rw [hidx, hst] at this
    exact absurd this (by decide)
  · have hst : (env.getEnvironment (count (Event.isHttpTo environmentURL) w + m)).stops =
        true := by
      rw [stops_of_ok h1]; simp [h3]
    obtain ⟨evs, hevs, hall⟩ := dispatch_trace env p
      ({ w with trace := w.trace ++ startEvents accessToken w ++
        pollEvents accessToken w m ++ [.sleep 5000] } : World)
    refine ⟨m, [.sleep 5000] ++ evs, hm1, hm, ?_, ?_, hpre, fun _ => hst, ?_, ?_⟩
    · rw [h4, hevs]
      simp [List.append_assoc]
    · intro e he
      simp only [List.mem_append, List.mem_singleton] at he
      rcases he with he | he
      · exact Or.inl he
      · obtain ⟨handler, hh⟩ := hall e he
        exact Or.inr ⟨handler, p, hh⟩
    · intro hno
      have := hno (m - 1) (by omega)
      rw [hidx, hst] at this
      exact absurd this (by decide)
    · intro h60 hnr
      have := hnr (m - 1) p (by omega) (by rw [hidx]; exact h1)
      exact absurd h3 this
  · subst h1
    refine ⟨60, [], by decide, le_refl _, by rw [h3]; simp, by simp, hpre,
      fun h => absurd h (by decide), fun _ => rfl, fun _ _ => rfl⟩

theorem call_cloud_shell_first_error (env : Env) (accessToken : String) (w : World) (e : Err)
    (hreply : (env.getEnvironment (count (Event.isHttpTo environmentURL) w)).result = .error e) :
    call_cloud_shell env accessToken w =
      { w with trace := w.trace ++ firstEvents accessToken w } := by
  have hg : count (Event.isHttpTo environmentURL) (w.log (.call "call_cloud_shell")) =
      count (Event.isHttpTo environmentURL) w := by
    simp [count_log, Event.isHttpTo]
  simp only [call_cloud_shell, cloud_shell_get_environment_eq, hg, hreply, log_config]
  simp [World.log, environmentHeaders, firstEvents]

theorem call_cloud_shell_info (env : Env) (accessToken : String) (w : World)
    (p0 : CloudShellEnv)
    (hreply : (env.getEnvironment (count (Event.isHttpTo environmentURL) w)).result = .ok p0)
    (hcmd : w.config.Command = CMD_INFO) :
    call_cloud_shell env accessToken w =
      { w with trace := w.trace ++ firstEvents accessToken w } := by
  rw [call_cloud_shell_first env accessToken w p0 hreply]
  simp [hcmd, firstEvents]

theorem call_cloud_shell_other_state (env : Env) (accessToken : String) (w : World)
    (p0 : CloudShellEnv)
    (hreply : (env.getEnvironment (count (Event.isHttpTo environmentURL) w)).result = .ok p0)
    (hd : p0.State ≠ "DISABLED") (hr : p0.State ≠ "RUNNING") :
    call_cloud_shell env accessToken w =
      { w with trace := w.trace ++ firstEvents accessToken w } := by
  rw [call_cloud_shell_first env accessToken w p0 hreply]
  by_cases hcmd : w.config.Command = CMD_INFO
  · simp [hcmd, firstEvents]
  · simp [hcmd, hd, hr, firstEvents]

theorem call_cloud_shell_running (env : Env) (accessToken : String) (w : World)
    (p0 : CloudShellEnv)
    (hreply : (env.getEnvironment (count (Event.isHttpTo environmentURL) w)).result = .ok p0)
    (hcmd : w.config.Command ≠ CMD_INFO) (hr : p0.State = "RUNNING") :
    call_cloud_shell env accessToken w =
      dispatch env p0 { w with trace := w.trace ++ firstEvents accessToken w } := by
  rw [call_cloud_shell_first env accessToken w p0 hreply]
  have hd : p0.State ≠ "DISABLED" := by rw [hr]; decide
  simp only [hcmd, if_neg hd, if_false]
  simp [hr, firstEvents]

theorem result_eq_ok {α : Type} {r : Reply α} {v : α} (h : r.result = .ok v) : r = .ok v := by
  cases r <;> simp [Reply.result] at h
  rw [h]

theorem countP_pollEvents_get (accessToken : String) (w : World) (m : Nat) :
    (pollEvents accessToken w m).countP (Event.isHttpTo environmentURL) = m := by
  induction m with
  | zero => rfl
  | succ m ih =>
    simp only [pollEvents, List.countP_append, ih]
    simp [List.countP_cons, Event.isHttpTo]
    omega

theorem call_cloud_shell_shape (env : Env) (accessToken : String) (w : World) :
    ∃ pre : List Event, pre.countP Event.isTransport = 0 ∧
      (call_cloud_shell env accessToken w = { w with trace := w.trace ++ pre } ∨
        ∃ d, 1 ≤ pre.countP (Event.isHttpTo environmentURL) ∧
          (env.getEnvironment (count (Event.isHttpTo environmentURL) w +
            pre.countP (Event.isHttpTo environmentURL) - 1)).result = .ok d ∧
          d.State = "RUNNING" ∧
          call_cloud_shell env accessToken w =
            dispatch env d { w with trace := w.trace ++ pre }) := by
  have hu : environmentURL ≠ startURL := by decide
  have hfirstT : (firstEvents accessToken w).countP Event.isTransport = 0 := by
    simp [firstEvents, List.countP_cons, Event.isTransport]
  have hfirstG : (firstEvents accessToken w).countP (Event.isHttpTo environmentURL) = 1 := by
    simp [firstEvents, List.countP_cons, Event.isHttpTo]
  have hstartT : (startEvents accessToken w).countP Event.isTransport = 0 := by
    simp [startEvents, List.countP_cons, Event.isTransport]
  have hstartG : (startEvents accessToken w).countP (Event.isHttpTo environmentURL) = 1 := by
    simp [startEvents, List.countP_cons, Event.isHttpTo, Ne.symm hu]
  cases hr : (env.getEnvironment (count (Event.isHttpTo environmentURL) w)).result with
  | error e =>
    exact ⟨_, hfirstT, Or.inl (call_cloud_shell_first_error env accessToken w e hr)⟩
  | ok p0 =>
    by_cases hcmd : w.config.Command = CMD_INFO
    · exact ⟨_, hfirstT, Or.inl (call_cloud_shell_info env accessToken w p0 hr hcmd)⟩
    by_cases hd : p0.State = "DISABLED"
    · by_cases hacc : ∃ q, env.startEnvironment (count (Event.isHttpTo startURL) w) = .ok q ∧
          q.Error.Code = 0
      · obtain ⟨q, hsr, hq⟩ := hacc
        obtain ⟨m, hm1, hm, -, hcase⟩ := call_cloud_shell_disabled_cases env accessToken w p0 q
          hcmd (result_eq_ok hr) hd hsr hq
        rcases hcase with ⟨-, h2⟩ | ⟨p, h1, -, h3, h4⟩ | ⟨-, -, h3⟩
        · refine ⟨startEvents accessToken w ++ pollEvents accessToken w m, ?_, Or.inl ?_⟩
          · simp [List.countP_append, hstartT, countP_pollEvents_transport]
          · rw [h2]; simp [List.append_assoc]
        · refine ⟨startEvents accessToken w ++ pollEvents accessToken w m ++ [.sleep 5000], ?_,
            Or.inr ⟨p, ?_, ?_, h3, ?_⟩⟩
          · simp [List.countP_append, hstartT, countP_pollEvents_transport, List.countP_cons,
              Event.isTransport]
          · simp [List.countP_append, hstartG]
          · have hc : (startEvents accessToken w ++ pollEvents accessToken w m ++
                [Event.sleep 5000]).countP (Event.isHttpTo environmentURL) = 1 + m := by
              simp [List.countP_append, hstartG, countP_pollEvents_get, List.countP_cons,
                Event.isHttpTo]
            rw [hc, show count (Event.isHttpTo environmentURL) w + (1 + m) - 1 =
              count (Event.isHttpTo environmentURL) w + m by omega]
            exact h1
          · rw [h4]; simp [List.append_assoc]
        · refine ⟨startEvents accessToken w ++ pollEvents accessToken w 60, ?_, Or.inl ?_⟩
          · simp [List.countP_append, hstartT, countP_pollEvents_transport]
          · rw [h3]; simp [List.append_assoc]
      · exact ⟨_, hstartT, Or.inl (call_cloud_shell_start_rejected env accessToken w p0 hcmd
          (result_eq_ok hr) hd (fun q hsr hq => hacc ⟨q, hsr, hq⟩))⟩
    · by_cases hrun : p0.State = "RUNNING"
      · refine ⟨firstEvents accessToken w, hfirstT, Or.inr ⟨p0, ?_, ?_, hrun, ?_⟩⟩
        · rw [hfirstG]
        · rw [hfirstG]; simpa using hr
        · exact call_cloud_shell_running env accessToken w p0 hr hcmd hrun
      · exact ⟨_, hfirstT, Or.inl (call_cloud_shell_other_state env accessToken w p0 hr hd hrun)⟩

theorem call_cloud_shell_running_at (env : Env) (accessToken : String) (w : World)
    (p0 q p : CloudShellEnv) (k : Nat)
    (hcmd : w.config.Command ≠ CMD_INFO)
    (hreply : env.getEnvironment (count (Event.isHttpTo environmentURL) w) = .ok p0)
    (hstate : p0.State = "DISABLED")
    (hstart : env.startEnvironment (count (Event.isHttpTo startURL) w) = .ok q)
    (hq : q.Error.Code = 0)
    (hk1 : 1 ≤ k) (hk : k ≤ 60)
    (hpolls : ∀ i, i + 1 < k →
      (env.getEnvironment (count (Event.isHttpTo environmentURL) w + 1 + i)).stops = false)
    (hlast : env.getEnvironment (count (Event.isHttpTo environmentURL) w + k) = .ok p)
    (hp : p.Error.Code = 0) (hrun : p.State = "RUNNING") :
    call_cloud_shell env accessToken w =
      dispatch env p
        { w with trace := w.trace ++ startEvents accessToken w ++
          pollEvents accessToken w k ++ [.sleep 5000] } := by
  have hres : (env.getEnvironment (count (Event.isHttpTo environmentURL) w + k)).result =
      .ok p := by
    rw [hlast]; rfl
  have hstopk : (env.getEnvironment (count (Event.isHttpTo environmentURL) w + k)).stops =
      true := by
    rw [stops_of_ok hres]; simp [hrun]
  obtain ⟨m, hm1, hm, hpre, hcase⟩ :=
    call_cloud_shell_disabled_cases env accessToken w p0 q hcmd hreply hstate hstart hq
  have hnonstop : ∀ j, 1 ≤ j → j < k →
      (env.getEnvironment (count (Event.isHttpTo environmentURL) w + j)).stops = false := by
    intro j hj1 hjk
    have := hpolls (j - 1) (by omega)
    rwa [show count (Event.isHttpTo environmentURL) w + 1 + (j - 1) =
      count (Event.isHttpTo environmentURL) w + j by omega] at this
  have hmk : ¬ k < m := by
    intro hlt
    have := hpre (k - 1) (by omega)
    rw [show count (Event.isHttpTo environmentURL) w + 1 + (k - 1) =
      count (Event.isHttpTo environmentURL) w + k by omega, hstopk] at this
    exact absurd this (by decide)
  rcases hcase with ⟨h1, -⟩ | ⟨d, h1, -, hdr, h4⟩ | ⟨h1, h2, -⟩
  · have hst := stops_of_failing h1
    have hmeq : m = k := by
      by_contra hne
      have := hnonstop m hm1 (by omega)
      rw [hst] at this
      exact absurd this (by decide)
    subst hmeq
    exact absurd hp (h1 p hres)
  · have hst : (env.getEnvironment (count (Event.isHttpTo environmentURL) w + m)).stops =
        true := by
      rw [stops_of_ok h1]
      simp [hdr]
    have hmeq : m = k := by
      by_contra hne
      have := hnonstop m hm1 (by omega)
      rw [hst] at this
      exact absurd this (by decide)
    subst hmeq
    rw [hres] at h1
    cases h1
    exact h4
  · subst h1
    have hk60 : k = 60 := by omega
    subst hk60
    have := h2 59 (by decide)
    rw [show count (Event.isHttpTo environmentURL) w + 1 + 59 =
      count (Event.isHttpTo environmentURL) w + 60 by omega, hstopk] at this
    exact absurd this (by decide)

theorem totalSleep_append (w : World) (evs : List Event) :
    totalSleep { w with trace := w.trace ++ evs } = totalSleep w + (evs.map Event.sleepMs).sum := by
  simp [totalSleep]

theorem sleepMs_pollEvents (accessToken : String) (w : World) (m : Nat) :
    ((pollEvents accessToken w m).map Event.sleepMs).sum = 500 * m := by
  induction m with
  | zero => rfl
  | succ m ih =>
    simp only [pollEvents, List.map_append, List.sum_append, ih]
    simp [Event.sleepMs]
    omega

theorem sleepMs_transports (d : CloudShellEnv) (evs : List Event)
    (h : ∀ e ∈ evs, ∃ handler, e = .transport handler d) :
    (evs.map Event.sleepMs).sum = 0 := by
  induction evs with
  | nil => rfl
  | cons e rest ih =>
    obtain ⟨handler, rfl⟩ := h _ (List.mem_cons_self _ _)
    simp only [List.map_cons, List.sum_cons, Event.sleepMs, Nat.zero_add]
    exact ih (fun e he => h e (List.mem_cons_of_mem _ he))

theorem totalSleep_dispatch (env : Env) (d : CloudShellEnv) (w : World) :
    totalSleep (dispatch env d w) = totalSleep w := by
  obtain ⟨evs, hevs, hall⟩ := dispatch_trace env d w
  simp only [totalSleep, hevs, List.map_append, List.sum_append, sleepMs_transports d evs hall]
  rfl

theorem dispatch_mem (env : Env) (d : CloudShellEnv) (w : World) :
    (w.config.Command = CMD_PUTTY → .transport "exec_putty" d ∈ (dispatch env d w).trace) ∧
    (w.config.Command = CMD_EXEC → .transport "exec_command" d ∈ (dispatch env d w).trace) ∧
    (w.config.Command = CMD_DOWNLOAD → .transport "sftp_download" d ∈ (dispatch env d w).trace) ∧
    (w.config.Command = CMD_UPLOAD → .transport "sftp_upload" d ∈ (dispatch env d w).trace) := by
  simp only [dispatch, ite_log_trace, List.append_assoc]
  refine ⟨?_, ?_, ?_, ?_⟩ <;> intro h <;> simp [h]

/-! ### UTF-8 -/

theorem toNat_ofNat (r : Nat) (h : r < 0xD800 ∨ (0xDFFF < r ∧ r < 0x110000)) :
    (Char.ofNat r).toNat = r := by
  have hv : r.isValidChar := h
  simp only [Char.ofNat, hv, dite_true, Char.ofNatAux]
  rfl

theorem first_cases (s0 sz lo hi : Nat) (h : first s0 = some (sz, lo, hi)) :
    (sz = 2 ∧ lo = 0x80 ∧ hi = 0xBF ∧ 0xC2 ≤ s0 ∧ s0 ≤ 0xDF) ∨
    (sz = 3 ∧ lo = 0xA0 ∧ hi = 0xBF ∧ s0 = 0xE0) ∨
    (sz = 3 ∧ lo = 0x80 ∧ hi = 0xBF ∧ 0xE1 ≤ s0 ∧ s0 ≤ 0xEF ∧ s0 ≠ 0xED) ∨
    (sz = 3 ∧ lo = 0x80 ∧ hi = 0x9F ∧ s0 = 0xED) ∨
    (sz = 4 ∧ lo = 0x90 ∧ hi = 0xBF ∧ s0 = 0xF0) ∨
    (sz = 4 ∧ lo = 0x80 ∧ hi = 0xBF ∧ 0xF1 ≤ s0 ∧ s0 ≤ 0xF3) ∨
    (sz = 4 ∧ lo = 0x80 ∧ hi = 0x8F ∧ s0 = 0xF4) := by
  unfold first at h
  split_ifs at h with c1 c2 c3 c4 c5 c6 c7 c8
  · obtain ⟨rfl, rfl, rfl⟩ : 2 = sz ∧ 0x80 = lo ∧ 0xBF = hi := by simpa using h
    exact Or.inl ⟨rfl, rfl, rfl, c1.1, c1.2⟩
  · obtain ⟨rfl, rfl, rfl⟩ : 3 = sz ∧ 0xA0 = lo ∧ 0xBF = hi := by simpa using h
    exact Or.inr (Or.inl ⟨rfl, rfl, rfl, c2⟩)
  · obtain ⟨rfl, rfl, rfl⟩ : 3 = sz ∧ 0x80 = lo ∧ 0xBF = hi := by simpa using h
    exact Or.inr (Or.inr (Or.inl ⟨rfl, rfl, rfl, c3.1, by omega, by omega⟩))
  · obtain ⟨rfl, rfl, rfl⟩ : 3 = sz ∧ 0x80 = lo ∧ 0x9F = hi := by simpa using h
    exact Or.inr (Or.inr (Or.inr (Or.inl ⟨rfl, rfl, rfl, c4⟩)))
  · obtain ⟨rfl, rfl, rfl⟩ : 3 = sz ∧ 0x80 = lo ∧ 0xBF = hi := by simpa using h
    exact Or.inr (Or.inr (Or.inl ⟨rfl, rfl, rfl, by omega, c5.2, by omega⟩))
  · obtain ⟨rfl, rfl, rfl⟩ : 4 = sz ∧ 0x90 = lo ∧ 0xBF = hi := by simpa using h
    exact Or.inr (Or.inr (Or.inr (Or.inr (Or.inl ⟨rfl, rfl, rfl, c6⟩))))
  · obtain ⟨rfl, rfl, rfl⟩ : 4 = sz ∧ 0x80 = lo ∧ 0xBF = hi := by simpa using h
    exact Or.inr (Or.inr (Or.inr (Or.inr (Or.inr (Or.inl ⟨rfl, rfl, rfl, c7.1, c7.2⟩)))))
  · obtain ⟨rfl, rfl, rfl⟩ : 4 = sz ∧ 0x80 = lo ∧ 0x8F = hi := by simpa using h
    exact Or.inr (Or.inr (Or.inr (Or.inr (Or.inr (Or.inr ⟨rfl, rfl, rfl, c8⟩)))))

theorem encode1 (s0 : Nat) (h : s0 < 0x80) : EncodeRune (Char.ofNat s0).toNat = [s0] := by
  rw [toNat_ofNat s0 (by omega)]
  unfold EncodeRune
  rw [if_pos (by omega)]

theorem encode2 (s0 s1 lo hi : Nat) (hf : first s0 = some (2, lo, hi))
    (h1 : ¬ (s1 < lo ∨ hi < s1)) :
    EncodeRune (Char.ofNat (s0 % 32 * 64 + s1 % 64)).toNat = [s0, s1] := by
  rcases first_cases s0 2 lo hi hf with h | h | h | h | h | h | h <;>
    obtain ⟨hsz, rfl, rfl, hs0⟩ := h <;>
    first
    | exact absurd hsz (by decide)
    | (rw [toNat_ofNat _ (by omega)]
       unfold EncodeRune
       rw [if_neg (by omega), if_pos (by omega)]
       have e0 : 0xC0 + (s0 % 32 * 64 + s1 % 64) / 64 = s0 := by omega
       have e1 : 0x80 + (s0 % 32 * 64 + s1 % 64) % 64 = s1 := by omega
       rw [e0, e1])

theorem encode3 (s0 s1 s2 lo hi : Nat) (hf : first s0 = some (3, lo, hi))
    (h1 : ¬ (s1 < lo ∨ hi < s1)) (h2 : ¬ (s2 < 0x80 ∨ 0xBF < s2)) :
    EncodeRune (Char.ofNat (s0 % 16 * 4096 + s1 % 64 * 64 + s2 % 64)).toNat = [s0, s1, s2] := by
  rcases first_cases s0 3 lo hi hf with h | h | h | h | h | h | h <;>
    obtain ⟨hsz, rfl, rfl, hs0⟩ := h <;>
    first
    | exact absurd hsz (by decide)
    | (rw [toNat_ofNat _ (by omega)]
       unfold EncodeRune
       rw [if_neg (by omega), if_neg (by omega), if_neg (by omega), if_pos (by omega)]
       have e0 : 0xE0 + (s0 % 16 * 4096 + s1 % 64 * 64 + s2 % 64) / 4096 = s0 := by omega
       have e1 : 0x80 + (s0 % 16 * 4096 + s1 % 64 * 64 + s2 % 64) / 64 % 64 = s1 := by omega
       have e2 : 0x80 + (s0 % 16 * 4096 + s1 % 64 * 64 + s2 % 64) % 64 = s2 := by omega
       rw [e0, e1, e2])

theorem encode4 (s0 s1 s2 s3 lo hi : Nat) (hf : first s0 = some (4, lo, hi))
    (h1 : ¬ (s1 < lo ∨ hi < s1)) (h2 : ¬ (s2 < 0x80 ∨ 0xBF < s2))
    (h3 : ¬ (s3 < 0x80 ∨ 0xBF < s3)) :
    EncodeRune (Char.ofNat
      (s0 % 8 * 262144 + s1 % 64 * 4096 + s2 % 64 * 64 + s3 % 64)).toNat = [s0, s1, s2, s3] := by
  rcases first_cases s0 4 lo hi hf with h | h | h | h | h | h | h <;>
    obtain ⟨hsz, rfl, rfl, hs0⟩ := h <;>
    first
    | exact absurd hsz (by decide)
    | (rw [toNat_ofNat _ (by omega)]
       unfold EncodeRune
       rw [if_neg (by omega), if_neg (by omega), if_neg (by omega), if_neg (by omega)]
       have e0 : 0xF0 + (s0 % 8 * 262144 + s1 % 64 * 4096 + s2 % 64 * 64 + s3 % 64) / 262144 =
           s0 := by omega
       have e1 : 0x80 + (s0 % 8 * 262144 + s1 % 64 * 4096 + s2 % 64 * 64 + s3 % 64) / 4096 % 64 =
           s1 := by omega
       have e2 : 0x80 + (s0 % 8 * 262144 + s1 % 64 * 4096 + s2 % 64 * 64 + s3 % 64) / 64 % 64 =
           s2 := by omega
       have e3 : 0x80 + (s0 % 8 * 262144 + s1 % 64 * 4096 + s2 % 64 * 64 + s3 % 64) % 64 =
           s3 := by omega
       rw [e0, e1, e2, e3])

theorem first_size (s0 sz lo hi : Nat) (h : first s0 = some (sz, lo, hi)) :
    sz = 2 ∨ sz = 3 ∨ sz = 4 := by
  rcases first_cases s0 sz lo hi h with h | h | h | h | h | h | h <;>
    obtain ⟨hsz, -⟩ := h <;> simp [hsz]

/-- Where `DecodeRuneInString` finds a valid encoding, its width is between 1 and
the length of `s`, and encoding the rune gives back the bytes consumed. -/
theorem decode_encode (s : List Nat) (hs : s ≠ [])
    (h : ¬ ((DecodeRuneInString s).1 = RuneError ∧ (DecodeRuneInString s).2 = 1)) :
    1 ≤ (DecodeRuneInString s).2 ∧ (DecodeRuneInString s).2 ≤ s.length ∧
    EncodeRune (Char.ofNat (DecodeRuneInString s).1).toNat = s.take (DecodeRuneInString s).2 := by
  rcases s with _ | ⟨s0, t⟩
  · exact absurd rfl hs
  by_cases h0 : s0 < RuneSelf
  · have hd : DecodeRuneInString (s0 :: t) = (s0, 1) := by
      simp only [DecodeRuneInString, if_pos h0]
    rw [hd]
    exact ⟨le_refl 1, by simp, by simpa using encode1 s0 h0⟩
  cases hf : first s0 with
  | none =>
    have hd : DecodeRuneInString (s0 :: t) = (RuneError, 1) := by
      simp only [DecodeRuneInString, if_neg h0, hf]
    rw [hd] at h
    exact absurd ⟨rfl, rfl⟩ h
  | some x =>
    obtain ⟨sz, lo, hi⟩ := x
    have hsz := first_size s0 sz lo hi hf
    have hd : DecodeRuneInString (s0 :: t) =
        if (s0 :: t).length < sz then (RuneError, 1)
        else if (s0 :: t).getD 1 0 < lo ∨ hi < (s0 :: t).getD 1 0 then (RuneError, 1)
        else if sz ≤ 2 then (s0 % 32 * 64 + (s0 :: t).getD 1 0 % 64, 2)
        else if (s0 :: t).getD 2 0 < 0x80 ∨ 0xBF < (s0 :: t).getD 2 0 then (RuneError, 1)
        else if sz ≤ 3 then
          (s0 % 16 * 4096 + (s0 :: t).getD 1 0 % 64 * 64 + (s0 :: t).getD 2 0 % 64, 3)
        else if (s0 :: t).getD 3 0 < 0x80 ∨ 0xBF < (s0 :: t).getD 3 0 then (RuneError, 1)
        else
          (s0 % 8 * 262144 + (s0 :: t).getD 1 0 % 64 * 4096 + (s0 :: t).getD 2 0 % 64 * 64 +
            (s0 :: t).getD 3 0 % 64, 4) := by
      simp only [DecodeRuneInString, if_neg h0, hf]
    rw [hd] at h ⊢
    clear hd h0
    by_cases c1 : (s0 :: t).length < sz
    · rw [if_pos c1] at h; exact absurd ⟨rfl, rfl⟩ h
    rw [if_neg c1] at h ⊢
    by_cases c2 : (s0 :: t).getD 1 0 < lo ∨ hi < (s0 :: t).getD 1 0
    · rw [if_pos c2] at h; exact absurd ⟨rfl, rfl⟩ h
    rw [if_neg c2] at h ⊢
    rcases t with _ | ⟨s1, t⟩
    · simp only [List.length_cons, List.length_nil] at c1; omega
    simp only [List.getD_cons_succ, List.getD_cons_zero] at c2 h ⊢
    by_cases c3 : sz ≤ 2
    · rw [if_pos c3]
      obtain rfl : sz = 2 := by omega
      exact ⟨by simp, by simp, encode2 s0 s1 lo hi hf c2⟩
    rw [if_neg c3] at h ⊢
    by_cases c4 : t.getD 0 0 < 0x80 ∨ 0xBF < t.getD 0 0
    · rw [if_pos c4] at h; exact absurd ⟨rfl, rfl⟩ h
    rw [if_neg c4] at h ⊢
    rcases t with _ | ⟨s2, t⟩
    · simp only [List.length_cons, List.length_nil] at c1; omega
    simp only [List.getD_cons_succ, List.getD_cons_zero] at c4 h ⊢
    by_cases c5 : sz ≤ 3
    · rw [if_pos c5]
      obtain rfl : sz = 3 := by omega
      exact ⟨by simp, by simp, encode3 s0 s1 s2 lo hi hf c2 c4⟩
    rw [if_neg c5] at h ⊢
    by_cases c6 : t.getD 0 0 < 0x80 ∨ 0xBF < t.getD 0 0
    · rw [if_pos c6] at h; exact absurd ⟨rfl, rfl⟩ h
    rw [if_neg c6] at h ⊢
    rcases t with _ | ⟨s3, t⟩
    · simp only [List.length_cons, List.length_nil] at c1; omega
    simp only [List.getD_cons_succ, List.getD_cons_zero] at c6 ⊢
    obtain rfl : sz = 4 := by omega
    exact ⟨by simp, by simp, encode4 s0 s1 s2 s3 lo hi hf c2 c4 c6⟩

theorem goString_runes (fuel : Nat) : ∀ s : List Nat, s.length ≤ fuel →
    validRunes fuel s = true →
    ((runes fuel s).map Char.ofNat).flatMap (fun c => EncodeRune c.toNat) = s := by
  induction fuel with
  | zero =>
    intro s hl _
    have : s = [] := List.length_eq_zero.mp (by omega)
    subst this
    rfl
  | succ fuel ih =>
    intro s hl hv
    rcases s with _ | ⟨a, t⟩
    · rfl
    simp only [validRunes] at hv
    by_cases he : (DecodeRuneInString (a :: t)).1 = RuneError ∧
        (DecodeRuneInString (a :: t)).2 = 1
    · rw [if_pos he] at hv
      exact absurd hv (by decide)
    rw [if_neg he] at hv
    obtain ⟨h1, h2, h3⟩ := decode_encode (a :: t) (by simp) he
    simp only [runes, List.map_cons, List.flatMap_cons]
    rw [h3, ih _ (by rw [List.length_drop]; omega) hv, List.take_append_drop]

/-- A valid UTF-8 string is written by `json.Marshal` and read back by
`json.Unmarshal` unchanged. -/
theorem goString_jsonString (s : List Nat) (h : ValidString s = true) :
    goString (jsonString s) = s :=
  goString_runes s.length s (le_refl _) h

/-- A record of valid UTF-8 strings is written and read back unchanged. -/
theorem toBytes_toJSON (creds : UserCredentialsBytes) (h : creds.ValidStrings = true) :
    creds.toJSON.toBytes = creds := by
  simp only [UserCredentialsBytes.ValidStrings, Bool.and_eq_true] at h
  obtain ⟨⟨⟨⟨⟨⟨⟨h1, h2⟩, h3⟩, h4⟩, h5⟩, h6⟩, h7⟩, h8⟩ := h
  simp only [UserCredentialsBytes.toJSON, UserCredentials.toBytes, goString_jsonString _ h1,
    goString_jsonString _ h2, goString_jsonString _ h3, goString_jsonString _ h4,
    goString_jsonString _ h5, goString_jsonString _ h6, goString_jsonString _ h7,
    goString_jsonString _ h8]

/-- For every record `creds` of JSON strings (its `ExpiresAt` an `int64`) and every
file name, `saveUserCredentials` succeeds whenever the file write does, and
`loadUserCredentials` on the same file then succeeds and returns a record equal to
`creds`, hence equal in each of the nine fields. -/
theorem saveUserCredentials_then_load (env : Env) (filename : String) (creds : UserCredentials)
    (w : World) (hE : isInt64 creds.ExpiresAt) (hw : env.writeErr filename = none) :
    (saveUserCredentials env filename creds w).1 = none ∧
    (loadUserCredentials filename (saveUserCredentials env filename creds w).2).1 = .ok creds ∧
    ∀ loaded : UserCredentials,
      (loadUserCredentials filename (saveUserCredentials env filename creds w).2).1 = .ok loaded →
      loaded.ClientID = creds.ClientID ∧ loaded.ClientSecret = creds.ClientSecret ∧
      loaded.RefreshToken = creds.RefreshToken ∧ loaded.Scope = creds.Scope ∧
      loaded.Type_ = creds.Type_ ∧ loaded.AccessToken = creds.AccessToken ∧
      loaded.IDToken = creds.IDToken ∧ loaded.Email = creds.Email ∧
      loaded.ExpiresAt = creds.ExpiresAt := by
  have hs : saveUserCredentials env filename creds w =
      (none, { (w.log (.call "saveUserCredentials")).log
          (.writeFile filename (marshalUserCredentials creds)) with
        files := fun f => if f = filename then some (marshalUserCredentials creds) else w.files f })
      := by
    simp [saveUserCredentials, hw]
  have hl : (loadUserCredentials filename (saveUserCredentials env filename creds w).2).1 =
      .ok creds := by
    rw [hs, @loadUserCredentials_of_file filename _ (marshalUserCredentials creds) (by simp)]
    exact unmarshal_marshal creds {} hE
  refine ⟨by rw [hs], hl, ?_⟩
  intro loaded h
  rw [hl] at h
  cases h
  simp

/-! ## The claims -/

/-! ## Cached refresh -/

/-- C1 (as amended). When the stored record decodes to `creds`, the clock reads
`now < creds.ExpiresAt - 900`, and `creds.ExpiresAt - 900` is a second that
`time.Unix` can represent, `doRefresh` returns the stored access token, the stored
id token and `valid = true`; it appends only the file read and the clock reading to
the trace: no POST, no GET, no file write, and the files are as before. -/
theorem doRefresh_fresh_returns_cached (env : Env) (filename : String) (w : World) (data : Doc)
    (creds : UserCredentials)
    (hfile : w.files filename = some data)
    (hdec : unmarshalUserCredentials data {} = .ok creds)
    (hclock : isInt64 (env.clock (count Event.isNow w)).1)
    (hrep : creds.ExpiresAt - 900 + unixToInternal < 2 ^ 63)
    (hfresh : (env.clock (count Event.isNow w)).1 < creds.ExpiresAt - 900) :
    (doRefresh env filename w).1 = (creds.AccessToken, creds.IDToken, true) ∧
    (doRefresh env filename w).2.trace = w.trace ++
      [.call "doRefresh", .call "loadUserCredentials", .readFile filename, .now] ∧
    count Event.isPost (doRefresh env filename w).2 = count Event.isPost w ∧
    count Event.isGet (doRefresh env filename w).2 = count Event.isGet w ∧
    count Event.isWrite (doRefresh env filename w).2 = count Event.isWrite w ∧
    (doRefresh env filename w).2.files = w.files := by
  rw [doRefresh_fresh env filename w data creds hfile hdec hclock hrep hfresh]
  simp [count, List.countP_append, List.countP_cons, Event.isPost, Event.isGet, Event.isWrite]

theorem doRefresh_fresh_returns_cached_witness :
    (doRefresh env0 "user_credentials.json" (worldWith storedCreds)).1 =
      (storedCreds.AccessToken, storedCreds.IDToken, true) ∧
    (doRefresh env0 "user_credentials.json" (worldWith storedCreds)).2.trace =
      (worldWith storedCreds).trace ++
        [.call "doRefresh", .call "loadUserCredentials", .readFile "user_credentials.json", .now] ∧
    count Event.isPost (doRefresh env0 "user_credentials.json" (worldWith storedCreds)).2 =
      count Event.isPost (worldWith storedCreds) ∧
    count Event.isGet (doRefresh env0 "user_credentials.json" (worldWith storedCreds)).2 =
      count Event.isGet (worldWith storedCreds) ∧
    count Event.isWrite (doRefresh env0 "user_credentials.json" (worldWith storedCreds)).2 =
      count Event.isWrite (worldWith storedCreds) ∧
    (doRefresh env0 "user_credentials.json" (worldWith storedCreds)).2.files =
      (worldWith storedCreds).files :=
  doRefresh_fresh_returns_cached env0 "user_credentials.json" (worldWith storedCreds)
    (marshalUserCredentials storedCreds) storedCreds rfl rfl (by decide) (by decide) (by decide)

/-- C1 (as stated) fails: the stored record has `expires_at = 2^63 - 1` and the
clock reads Unix second 1600000000, so `now < expires_at - 900`; `time.Unix` wraps
`expires_at - 900 + 62135596800` to the negative second count -9223371974719179909,
which lies before every clock reading, so the record is taken as stale, and `doRefresh` posts a refresh, writes the file and returns the new
tokens instead of the stored ones. -/
theorem doRefresh_far_future_expiry_refreshes :
    (loadUserCredentials "user_credentials.json" (worldWith farFutureCreds)).1 =
      .ok farFutureCreds ∧
    (envTokens.clock 0).1 < farFutureCreds.ExpiresAt - 900 ∧
    (Time.ofUnix (wrap64 (farFutureCreds.ExpiresAt - 15 * 60)) 0).sec = -9223371974719179909 ∧
    (doRefresh envTokens "user_credentials.json" (worldWith farFutureCreds)).1 =
      ("new", "newid", true) ∧
    (doRefresh envTokens "user_credentials.json" (worldWith farFutureCreds)).1 ≠
      (farFutureCreds.AccessToken, farFutureCreds.IDToken, true) ∧
    count Event.isPost (doRefresh envTokens "user_credentials.json" (worldWith farFutureCreds)).2
      = 1 ∧
    count Event.isWrite (doRefresh envTokens "user_credentials.json" (worldWith farFutureCreds)).2
      = 1 := by
  refine ⟨rfl, by decide, by decide, rfl, by decide, by decide, by decide⟩

/-- C2. When the stored record decodes to `creds` and the clock reads
`now ≥ creds.ExpiresAt - 900` (a reading whose second count `time.Now` can hold),
`doRefresh` issues exactly one POST: to the token endpoint, with the form body
`client_id=…&client_secret=…&grant_type=refresh_token&refresh_token=…` built from
the stored record. When that call answers with tokens, the record handed to the
one file write has `ExpiresAt` set anew to the second reading of the clock plus
`expires_in`, and it is the content of the file when the write succeeds. -/
theorem doRefresh_stale_posts_once (env : Env) (filename : String) (w : World) (data : Doc)
    (creds : UserCredentials)
    (hfile : w.files filename = some data)
    (hdec : unmarshalUserCredentials data {} = .ok creds)
    (hclock : -(2 : Int) ^ 63 ≤ (env.clock (count Event.isNow w)).1 ∧
      (env.clock (count Event.isNow w)).1 + unixToInternal < 2 ^ 63)
    (hstale : creds.ExpiresAt - 900 ≤ (env.clock (count Event.isNow w)).1) :
    (doRefresh env filename w).2.trace.filter Event.isPost =
      w.trace.filter Event.isPost ++
        [.post "https://www.googleapis.com/oauth2/v4/token"
          [("Content-Type", "application/x-www-form-urlencoded")] (refreshContent creds)] ∧
    refreshContent creds =
      "client_id=" ++ creds.ClientID ++ "&" ++ ("client_secret=" ++ creds.ClientSecret ++ "&") ++
        "grant_type=refresh_token&" ++ ("refresh_token=" ++ creds.RefreshToken) ∧
    ∀ tokens : OAuthTokens,
      env.tokenEndpoint (count (Event.isHttpTo tokenEndpointURL) w) (refreshContent creds) =
        .ok tokens →
      ∃ saved : UserCredentials,
        saved.ExpiresAt =
          wrap64 ((env.clock (count Event.isNow w + 1)).1 + tokens.ExpiresIn) ∧
        (doRefresh env filename w).2.trace.filter Event.isWrite =
          w.trace.filter Event.isWrite ++ [.writeFile filename (marshalUserCredentials saved)] ∧
        (env.writeErr filename = none →
          (doRefresh env filename w).2.files filename = some (marshalUserCredentials saved)) := by
  have hE : isInt64 creds.ExpiresAt :=
    unmarshalUserCredentials_isInt64 hdec (by decide)
  have hb := not_before_of_ge (env.clock (count Event.isNow w)).2 hclock.1 hclock.2 hE hstale
  refine ⟨?_, rfl, ?_⟩
  · cases hr : (env.tokenEndpoint (count (Event.isHttpTo tokenEndpointURL) w)
        (refreshContent creds)).result with
    | error e =>
      rw [doRefresh_stale_err env filename w data creds e hfile hdec hb hr]
      simp [List.filter_append, Event.isPost, tokenEndpointURL, formHeaders]
    | ok tokens =>
      have hr' : env.tokenEndpoint (count (Event.isHttpTo tokenEndpointURL) w)
          (refreshContent creds) = .ok tokens := by
        cases hq : env.tokenEndpoint (count (Event.isHttpTo tokenEndpointURL) w)
          (refreshContent creds) <;> simp [hq, Reply.result] at hr
        exact congrArg _ hr
      rw [doRefresh_stale_ok env filename w data creds tokens hfile hdec hb hr' _ rfl]
      cases hw : env.writeErr filename <;>
        simp [List.filter_append, Event.isPost, tokenEndpointURL, formHeaders]
  · intro tokens hr
    refine ⟨refreshedCredentials creds tokens
      (wrap64 ((env.clock (count Event.isNow w + 1)).1 + tokens.ExpiresIn))
      (env.tokenInfo (count (Event.isHttpTo tokenInfoURL) w) tokens.AccessToken).result,
      refreshedCredentials_ExpiresAt creds tokens _ _, ?_, ?_⟩
    · rw [doRefresh_stale_ok env filename w data creds tokens hfile hdec hb hr _ rfl]
      cases hw : env.writeErr filename <;> simp [List.filter_append, Event.isWrite]
    · intro hw
      rw [doRefresh_stale_ok env filename w data creds tokens hfile hdec hb hr _ rfl]
      simp [hw]

theorem doRefresh_stale_posts_once_witness :
    staleCreds.ExpiresAt - 900 ≤ (envTokens.clock 0).1 ∧
    (doRefresh envTokens "user_credentials.json" (worldWith staleCreds)).2.trace.filter
        Event.isPost =
      (worldWith staleCreds).trace.filter Event.isPost ++
        [.post "https://www.googleapis.com/oauth2/v4/token"
          [("Content-Type", "application/x-www-form-urlencoded")] (refreshContent staleCreds)] :=
  ⟨by decide,
    (doRefresh_stale_posts_once envTokens "user_credentials.json" (worldWith staleCreds)
      (marshalUserCredentials staleCreds) staleCreds rfl rfl (by decide) (by decide)).1⟩

/-! ## Expiry arithmetic -/

/-- C3. Let the token response carry `expires_in = E` and let the clock read Unix
second `T` when the response has been parsed. The record that `doRefresh` (on its
refresh path) and `processAuthCode` (on a response without `error`) hand to the
file write has `ExpiresAt = T + E` in `int64` arithmetic, which is `T + E` exactly
whenever that sum is an `int64`; when the write succeeds this record is the
content of the credential file. -/
theorem persisted_expires_at_eq_now_add_expires_in (env : Env) (w : World)
    (tokens : OAuthTokens) :
    (∀ (filename : String) (data : Doc) (creds : UserCredentials),
      w.files filename = some data →
      unmarshalUserCredentials data {} = .ok creds →
      (Time.ofUnix (env.clock (count Event.isNow w)).1 (env.clock (count Event.isNow w)).2).Before
        (Time.ofUnix (wrap64 (creds.ExpiresAt - 900)) 0) = false →
      env.tokenEndpoint (count (Event.isHttpTo tokenEndpointURL) w) (refreshContent creds) =
        .ok tokens →
      ∃ saved : UserCredentials,
        saved.ExpiresAt =
          wrap64 ((env.clock (count Event.isNow w + 1)).1 + tokens.ExpiresIn) ∧
        (isInt64 ((env.clock (count Event.isNow w + 1)).1 + tokens.ExpiresIn) →
          saved.ExpiresAt = (env.clock (count Event.isNow w + 1)).1 + tokens.ExpiresIn) ∧
        (doRefresh env filename w).2.trace.filter Event.isWrite =
          w.trace.filter Event.isWrite ++ [.writeFile filename (marshalUserCredentials saved)] ∧
        (env.writeErr filename = none →
          (doRefresh env filename w).2.files filename = some (marshalUserCredentials saved))) ∧
    (∀ (secrets : ClientSecrets) (auth_code : String) (flag_oob : Bool),
      env.tokenEndpoint (count (Event.isHttpTo tokenEndpointURL) w)
        (authCodeContent secrets auth_code flag_oob) = .ok tokens →
      tokens.Error = "" →
      ∃ saved : UserCredentials,
        saved.ExpiresAt = wrap64 ((env.clock (count Event.isNow w)).1 + tokens.ExpiresIn) ∧
        (isInt64 ((env.clock (count Event.isNow w)).1 + tokens.ExpiresIn) →
          saved.ExpiresAt = (env.clock (count Event.isNow w)).1 + tokens.ExpiresIn) ∧
        (processAuthCode env secrets auth_code flag_oob w).2.trace.filter Event.isWrite =
          w.trace.filter Event.isWrite ++
            [.writeFile env.SavedUserCredentials (marshalUserCredentials saved)] ∧
        (env.writeErr env.SavedUserCredentials = none →
          (processAuthCode env secrets auth_code flag_oob w).2.files env.SavedUserCredentials =
            some (marshalUserCredentials saved))) := by
  constructor
  · intro filename data creds hfile hdec hb hr
    refine ⟨refreshedCredentials creds tokens
      (wrap64 ((env.clock (count Event.isNow w + 1)).1 + tokens.ExpiresIn))
      (env.tokenInfo (count (Event.isHttpTo tokenInfoURL) w) tokens.AccessToken).result,
      refreshedCredentials_ExpiresAt creds tokens _ _, ?_, ?_, ?_⟩
    · intro h
      rw [refreshedCredentials_ExpiresAt, wrap64_of_isInt64 h]
    · rw [doRefresh_stale_ok env filename w data creds tokens hfile hdec hb hr _ rfl]
      cases hw : env.writeErr filename <;> simp [List.filter_append, Event.isWrite]
    · intro hw
      rw [doRefresh_stale_ok env filename w data creds tokens hfile hdec hb hr _ rfl]
      simp [hw]
  · intro secrets auth_code flag_oob hr herr
    have h := processAuthCode_ok_trace env secrets auth_code flag_oob w tokens hr herr _ rfl
    refine ⟨authorizedCredentials secrets tokens
      (wrap64 ((env.clock (count Event.isNow w)).1 + tokens.ExpiresIn))
      (env.tokenInfo (count (Event.isHttpTo tokenInfoURL) w) tokens.AccessToken).result,
      authorizedCredentials_ExpiresAt secrets tokens _ _, ?_, h.1, fun hw => (h.2.1 hw).2⟩
    intro hi
    rw [authorizedCredentials_ExpiresAt, wrap64_of_isInt64 hi]

theorem persisted_expires_at_eq_now_add_expires_in_witness :
    (∃ saved : UserCredentials,
      saved.ExpiresAt = wrap64 ((envTokens.clock 1).1 + 3600) ∧
      (isInt64 ((envTokens.clock 1).1 + 3600) → saved.ExpiresAt = (envTokens.clock 1).1 + 3600) ∧
      (doRefresh envTokens "user_credentials.json" (worldWith staleCreds)).2.trace.filter
          Event.isWrite =
        (worldWith staleCreds).trace.filter Event.isWrite ++
          [.writeFile "user_credentials.json" (marshalUserCredentials saved)] ∧
      (envTokens.writeErr "user_credentials.json" = none →
        (doRefresh envTokens "user_credentials.json"
            (worldWith staleCreds)).2.files "user_credentials.json" =
          some (marshalUserCredentials saved))) ∧
    (∃ saved : UserCredentials,
      saved.ExpiresAt = wrap64 ((envTokens.clock 0).1 + 3600) ∧
      (isInt64 ((envTokens.clock 0).1 + 3600) → saved.ExpiresAt = (envTokens.clock 0).1 + 3600) ∧
      (processAuthCode envTokens sampleSecrets "4/abc" true (worldWith storedCreds)).2.trace.filter
          Event.isWrite =
        (worldWith storedCreds).trace.filter Event.isWrite ++
          [.writeFile envTokens.SavedUserCredentials (marshalUserCredentials saved)] ∧
      (envTokens.writeErr envTokens.SavedUserCredentials = none →
        (processAuthCode envTokens sampleSecrets "4/abc" true
            (worldWith storedCreds)).2.files envTokens.SavedUserCredentials =
          some (marshalUserCredentials saved))) :=
  ⟨(persisted_expires_at_eq_now_add_expires_in envTokens (worldWith staleCreds)
      { AccessToken := "new", IDToken := "newid", ExpiresIn := 3600, RefreshToken := "1//r2",
        Scope := "openid", TokenType := "Bearer" }).1
      "user_credentials.json" (marshalUserCredentials staleCreds) staleCreds rfl rfl
      (by decide) rfl,
   (persisted_expires_at_eq_now_add_expires_in envTokens (worldWith storedCreds)
      { AccessToken := "new", IDToken := "newid", ExpiresIn := 3600, RefreshToken := "1//r2",
        Scope := "openid", TokenType := "Bearer" }).2 sampleSecrets "4/abc" true rfl rfl⟩

/-! ## Error responses -/

/-- C4. When the token endpoint answers the authorization-code exchange with a
response whose `error` member is not empty, `processAuthCode` returns an error
whose message is the response's `error_description`, with empty access and id
tokens; it appends only its POST to the trace, so `saveUserCredentials` is not
called, nothing is written and the files are as before. -/
theorem processAuthCode_error_is_terminal (env : Env) (secrets : ClientSecrets)
    (auth_code : String) (flag_oob : Bool) (w : World) (tokens : OAuthTokens)
    (hreply : env.tokenEndpoint (count (Event.isHttpTo tokenEndpointURL) w)
        (authCodeContent secrets auth_code flag_oob) = .ok tokens)
    (herr : tokens.Error ≠ "") :
    (processAuthCode env secrets auth_code flag_oob w).1 =
      ("", "", some tokens.ErrorDescription) ∧
    (processAuthCode env secrets auth_code flag_oob w).2.trace = w.trace ++
      [.call "processAuthCode",
       .post tokenEndpointURL formHeaders (authCodeContent secrets auth_code flag_oob)] ∧
    count (Event.isCall "saveUserCredentials") (processAuthCode env secrets auth_code flag_oob w).2
      = count (Event.isCall "saveUserCredentials") w ∧
    count Event.isWrite (processAuthCode env secrets auth_code flag_oob w).2 =
      count Event.isWrite w ∧
    (processAuthCode env secrets auth_code flag_oob w).2.files = w.files := by
  rw [processAuthCode_err env secrets auth_code flag_oob w tokens hreply herr]
  simp [count, List.countP_append, List.countP_cons, Event.isCall, Event.isWrite]

theorem processAuthCode_error_is_terminal_witness :
    (processAuthCode envRejected sampleSecrets "4/abc" true (worldWith storedCreds)).1 =
      ("", "", some "Token has been expired or revoked.") ∧
    (processAuthCode envRejected sampleSecrets "4/abc" true (worldWith storedCreds)).2.trace =
      (worldWith storedCreds).trace ++
        [.call "processAuthCode",
         .post tokenEndpointURL formHeaders (authCodeContent sampleSecrets "4/abc" true)] ∧
    count (Event.isCall "saveUserCredentials")
        (processAuthCode envRejected sampleSecrets "4/abc" true (worldWith storedCreds)).2 =
      count (Event.isCall "saveUserCredentials") (worldWith storedCreds) ∧
    count Event.isWrite
        (processAuthCode envRejected sampleSecrets "4/abc" true (worldWith storedCreds)).2 =
      count Event.isWrite (worldWith storedCreds) ∧
    (processAuthCode envRejected sampleSecrets "4/abc" true (worldWith storedCreds)).2.files =
      (worldWith storedCreds).files :=
  processAuthCode_error_is_terminal envRejected sampleSecrets "4/abc" true (worldWith storedCreds)
    { Error := "invalid_grant", ErrorDescription := "Token has been expired or revoked." }
    rfl (by decide)

/-- C5 fails on the code. The stored record is stale and the token endpoint answers the
refresh with `error = "invalid_grant"` and no tokens: `doRefresh` never reads the
`error` member, so it overwrites the credential file with a record whose access
and id tokens are empty and reports `valid = true`. -/
theorem doRefresh_saves_error_response :
    (doRefresh envRejected "user_credentials.json" (worldWith staleCreds)).1 = ("", "", true) ∧
    count Event.isWrite (doRefresh envRejected "user_credentials.json" (worldWith staleCreds)).2
      = 1 ∧
    (worldWith staleCreds).files "user_credentials.json" =
      some (marshalUserCredentials staleCreds) ∧
    (doRefresh envRejected "user_credentials.json"
        (worldWith staleCreds)).2.files "user_credentials.json" =
      some (marshalUserCredentials
        { staleCreds with AccessToken := "", IDToken := "", ExpiresAt := 1600000000 }) := by
  refine ⟨rfl, by decide, rfl, rfl⟩

/-! ## Credential store round trip -/

/-- C6 (as amended). For every Go record `creds` whose eight strings are valid
UTF-8 (its `ExpiresAt` an `int64`) and every file name, when the file write
succeeds `saveUserCredentials` returns no error, and `loadUserCredentials` on the
same file then succeeds and returns a record equal to `creds`, hence equal in each
of the nine fields. -/
theorem save_then_load_round_trip (env : Env) (filename : String)
    (creds : UserCredentialsBytes) (w : World)
    (hutf8 : creds.ValidStrings = true) (hE : isInt64 creds.ExpiresAt)
    (hw : env.writeErr filename = none) :
    (saveUserCredentialsBytes env filename creds w).1 = none ∧
    (loadUserCredentialsBytes filename (saveUserCredentialsBytes env filename creds w).2).1 =
      .ok creds ∧
    ∀ loaded : UserCredentialsBytes,
      (loadUserCredentialsBytes filename (saveUserCredentialsBytes env filename creds w).2).1 =
        .ok loaded →
      loaded.ClientID = creds.ClientID ∧ loaded.ClientSecret = creds.ClientSecret ∧
      loaded.RefreshToken = creds.RefreshToken ∧ loaded.Scope = creds.Scope ∧
      loaded.Type_ = creds.Type_ ∧ loaded.AccessToken = creds.AccessToken ∧
      loaded.IDToken = creds.IDToken ∧ loaded.Email = creds.Email ∧
      loaded.ExpiresAt = creds.ExpiresAt := by
  have hdoc := saveUserCredentials_then_load env filename creds.toJSON w hE hw
  have hl : (loadUserCredentialsBytes filename
      (saveUserCredentialsBytes env filename creds w).2).1 = .ok creds := by
    simp only [loadUserCredentialsBytes, saveUserCredentialsBytes]
    rw [hdoc.2.1]
    exact congrArg Except.ok (toBytes_toJSON creds hutf8)
  refine ⟨hdoc.1, hl, ?_⟩
  intro loaded h
  rw [hl] at h
  cases h
  simp

theorem save_then_load_round_trip_witness :
    (saveUserCredentialsBytes env0 "user_credentials.json" storedBytes
      (worldWith staleCreds)).1 = none ∧
    (loadUserCredentialsBytes "user_credentials.json"
      (saveUserCredentialsBytes env0 "user_credentials.json" storedBytes
        (worldWith staleCreds)).2).1 = .ok storedBytes :=
  ⟨(save_then_load_round_trip env0 "user_credentials.json" storedBytes (worldWith staleCreds)
      rfl (by decide) rfl).1,
   (save_then_load_round_trip env0 "user_credentials.json" storedBytes (worldWith staleCreds)
      rfl (by decide) rfl).2.1⟩

/-- C6 (as stated) fails. The record `invalidBytes` has the client id `id` followed
by the byte `0xFF`, which is not UTF-8: `saveUserCredentials` returns no error,
`loadUserCredentials` succeeds, and the record it returns has U+FFFD (the bytes
`EF BF BD`) in place of `0xFF`, so its `client_id` differs from the saved one. And
where the file cannot be written, `saveUserCredentials` returns the error. -/
theorem save_then_load_rewrites_invalid_utf8 :
    ValidString invalidBytes.ClientID = false ∧
    (saveUserCredentialsBytes env0 "user_credentials.json" invalidBytes
      (worldWith staleCreds)).1 = none ∧
    (loadUserCredentialsBytes "user_credentials.json"
      (saveUserCredentialsBytes env0 "user_credentials.json" invalidBytes
        (worldWith staleCreds)).2).1 =
      .ok { invalidBytes with ClientID := [0x69, 0x64, 0xEF, 0xBF, 0xBD] } ∧
    ({ invalidBytes with ClientID := [0x69, 0x64, 0xEF, 0xBF, 0xBD] } : UserCredentialsBytes) ≠
      invalidBytes ∧
    (saveUserCredentialsBytes envReadOnly "user_credentials.json" storedBytes
      (worldWith staleCreds)).1 = some "permission denied" := by
  refine ⟨rfl, rfl, rfl, by decide, rfl⟩

/-! ## Strategy selection -/

/-- C7. `get_tokens` selects by fixed priority. (1) With the `Adc` flag set its
result and its effects are those of `get_sa_tokens` (whose id token is `""` on
success), and no other function of the program is called: neither `doRefresh` nor
`loadClientSecrets`, the first step of the interactive flow. (2) With `Adc` off,
`doRefresh` is called, once, exactly when `Auth` is off and the credential file
exists; with `Auth` on or the file absent `doRefresh` is not called and
`get_tokens` is the interactive flow, which starts by loading the client secrets. -/
theorem get_tokens_strategy_selection (env : Env) (w : World) :
    (w.config.Flags.Adc = true →
      get_tokens env w =
        (.ret (get_sa_tokens env (w.log (.call "get_tokens"))).1,
          (get_sa_tokens env (w.log (.call "get_tokens"))).2) ∧
      (∀ a i : String, (get_sa_tokens env (w.log (.call "get_tokens"))).1 = (a, i, none) →
        i = "") ∧
      (∀ fn : String, fn ≠ "get_tokens" → fn ≠ "get_sa_tokens" →
        count (Event.isCall fn) (get_tokens env w).2 = count (Event.isCall fn) w)) ∧
    (w.config.Flags.Adc = false →
      (count (Event.isCall "doRefresh") (get_tokens env w).2 =
          count (Event.isCall "doRefresh") w + 1 ↔
        w.config.Flags.Auth = false ∧ fileExists env.SavedUserCredentials w = true) ∧
      ((w.config.Flags.Auth = true ∨ fileExists env.SavedUserCredentials w = false) →
        count (Event.isCall "doRefresh") (get_tokens env w).2 =
          count (Event.isCall "doRefresh") w ∧
        get_tokens env w = get_tokens_interactive env (w.log (.call "get_tokens")) ∧
        count (Event.isCall "loadClientSecrets") (get_tokens env w).2 =
          count (Event.isCall "loadClientSecrets") w + 1)) := by
  have hno : ∀ h' : w.config.Flags.Adc = false,
      (w.config.Flags.Auth = true ∨ fileExists env.SavedUserCredentials w = false) →
      count (Event.isCall "doRefresh") (get_tokens env w).2 =
          count (Event.isCall "doRefresh") w ∧
        get_tokens env w = get_tokens_interactive env (w.log (.call "get_tokens")) ∧
        count (Event.isCall "loadClientSecrets") (get_tokens env w).2 =
          count (Event.isCall "loadClientSecrets") w + 1 := by
    intro hAdc hor
    have heq := get_tokens_interactive_of env w hAdc hor
    refine ⟨?_, heq, ?_⟩
    · rw [heq, get_tokens_interactive_count_call _ _ _ outsideAuth_doRefresh (by decide)]
      simp [count_log, Event.isCall]
    · rw [heq, get_tokens_interactive_count_loadClientSecrets]
      simp [count_log, Event.isCall]
  refine ⟨fun hAdc => ⟨get_tokens_adc env w hAdc, ?_, ?_⟩, fun hAdc => ⟨?_, hno hAdc⟩⟩
  · intro a i h
    exact get_sa_tokens_id_token env _ a i h
  · intro fn h1 h2
    rw [get_tokens_adc env w hAdc]
    simp only
    rw [get_sa_tokens_count_call _ _ _ h2]
    simp [count_log, Event.isCall, Ne.symm h1]
  · constructor
    · intro hc
      by_contra hcon
      have hor : w.config.Flags.Auth = true ∨ fileExists env.SavedUserCredentials w = false := by
        by_cases ha : w.config.Flags.Auth = true
        · exact Or.inl ha
        · right
          have ha' : w.config.Flags.Auth = false := by simpa using ha
          by_contra hf
          exact hcon ⟨ha', by simpa using hf⟩
      have := (hno hAdc hor).1
      omega
    · rintro ⟨hAuth, hfile⟩
      rw [get_tokens_refresh env w hAdc hAuth hfile]
      split
      · simp only
        rw [doRefresh_count_doRefresh]
        simp [count_log, Event.isCall]
      · rw [get_tokens_interactive_count_call _ _ _ outsideAuth_doRefresh (by decide),
          doRefresh_count_doRefresh]
        simp [count_log, Event.isCall]

theorem get_tokens_strategy_selection_witness :
    (get_tokens env0 worldAdc =
        (.ret (get_sa_tokens env0 (worldAdc.log (.call "get_tokens"))).1,
          (get_sa_tokens env0 (worldAdc.log (.call "get_tokens"))).2) ∧
      count (Event.isCall "doRefresh") (get_tokens env0 worldAdc).2 =
        count (Event.isCall "doRefresh") worldAdc) ∧
    (count (Event.isCall "doRefresh") (get_tokens envManual worldBroken).2 =
        count (Event.isCall "doRefresh") worldBroken + 1 ↔
      worldBroken.config.Flags.Auth = false ∧
        fileExists envManual.SavedUserCredentials worldBroken = true) :=
  ⟨⟨((get_tokens_strategy_selection env0 worldAdc).1 rfl).1,
      ((get_tokens_strategy_selection env0 worldAdc).1 rfl).2.2 "doRefresh" (by decide)
        (by decide)⟩,
    ((get_tokens_strategy_selection envManual worldBroken).2 rfl).1⟩

/-- C8 (as stated) fails: the credential file exists but is not JSON, so
`doRefresh` is entered and fails; `get_tokens` then loads the client secrets,
asks for a code on standard input, exchanges it and returns the new tokens with
no error. -/
theorem get_tokens_failed_refresh_enters_interactive :
    worldBroken.config.Flags.Adc = false ∧ worldBroken.config.Flags.Auth = false ∧
    fileExists envManual.SavedUserCredentials worldBroken = true ∧
    (doRefresh envManual envManual.SavedUserCredentials
      (worldBroken.log (.call "get_tokens"))).1 = ("", "", false) ∧
    count (Event.isCall "doRefresh") (get_tokens envManual worldBroken).2 = 1 ∧
    (∃ w', get_tokens envManual worldBroken = (.ret ("new", "newid", none), w')) ∧
    count (Event.isCall "loadClientSecrets") (get_tokens envManual worldBroken).2 = 1 ∧
    count (Event.isCall "manualAuthentication") (get_tokens envManual worldBroken).2 = 1 ∧
    count Event.isStdin (get_tokens envManual worldBroken).2 = 1 := by
  refine ⟨rfl, rfl, rfl, rfl, by decide, ⟨_, rfl⟩, by decide, by decide, by decide⟩

/-- C8 (as amended). When cached refresh is entered (`Adc` off, `Auth` off, the
credential file exists) and `doRefresh` fails, whatever the cause, `get_tokens`
does not return that failure: it goes on to the interactive strategy from the
world `doRefresh` left, loading the client secrets, and returns what that
strategy returns. -/
theorem get_tokens_failed_refresh_falls_through (env : Env) (w : World)
    (hAdc : w.config.Flags.Adc = false) (hAuth : w.config.Flags.Auth = false)
    (hfile : fileExists env.SavedUserCredentials w = true)
    (hfail : (doRefresh env env.SavedUserCredentials (w.log (.call "get_tokens"))).1.2.2 = false) :
    get_tokens env w =
      get_tokens_interactive env
        (doRefresh env env.SavedUserCredentials (w.log (.call "get_tokens"))).2 ∧
    count (Event.isCall "loadClientSecrets") (get_tokens env w).2 =
      count (Event.isCall "loadClientSecrets") w + 1 := by
  have heq := get_tokens_refresh env w hAdc hAuth hfile
  simp only [hfail, Bool.false_eq_true, if_false] at heq
  refine ⟨heq, ?_⟩
  rw [heq, get_tokens_interactive_count_loadClientSecrets,
    doRefresh_count_call _ _ _ _ outsideAuth_loadClientSecrets (by decide)]
  simp [count_log, Event.isCall]

theorem get_tokens_failed_refresh_falls_through_witness :
    get_tokens envManual worldBroken =
      get_tokens_interactive envManual
        (doRefresh envManual envManual.SavedUserCredentials
          (worldBroken.log (.call "get_tokens"))).2 ∧
    count (Event.isCall "loadClientSecrets") (get_tokens envManual worldBroken).2 =
      count (Event.isCall "loadClientSecrets") worldBroken + 1 :=
  get_tokens_failed_refresh_falls_through envManual worldBroken rfl rfl rfl rfl

/-! ## Environment orchestrator -/

/-- C9. When the first `GetEnvironment` reply decodes to a descriptor whose state
is `RUNNING`, `call_cloud_shell` calls `cloud_shell_get_environment` exactly once
(one GET of the environment resource), never calls `cloudshell_start` (no POST to
the start endpoint) and requests no sleep. -/
theorem call_cloud_shell_running_one_get_no_start (env : Env) (accessToken : String)
    (w : World) (params : CloudShellEnv)
    (hreply : env.getEnvironment (count (Event.isHttpTo environmentURL) w) = .ok params)
    (hstate : params.State = "RUNNING") :
    count (Event.isCall "cloud_shell_get_environment") (call_cloud_shell env accessToken w) =
      count (Event.isCall "cloud_shell_get_environment") w + 1 ∧
    count (Event.isHttpTo environmentURL) (call_cloud_shell env accessToken w) =
      count (Event.isHttpTo environmentURL) w + 1 ∧
    count (Event.isCall "cloudshell_start") (call_cloud_shell env accessToken w) =
      count (Event.isCall "cloudshell_start") w ∧
    count (Event.isHttpTo startURL) (call_cloud_shell env accessToken w) =
      count (Event.isHttpTo startURL) w ∧
    count Event.isSleep (call_cloud_shell env accessToken w) = count Event.isSleep w := by
  have hr : (env.getEnvironment (count (Event.isHttpTo environmentURL) w)).result = .ok params := by
    rw [hreply]; rfl
  rw [call_cloud_shell_first env accessToken w params hr]
  have hd : params.State ≠ "DISABLED" := by rw [hstate]; decide
  have hu : environmentURL ≠ startURL := by decide
  by_cases hc : w.config.Command = CMD_INFO
  · simp [hc, count, List.countP_append, List.countP_cons, Event.isCall, Event.isHttpTo,
      Event.isSleep, hu]
  · simp only [hc, if_neg hd, if_false]
    simp only [hstate, ne_eq, not_true_eq_false, if_false]
    refine ⟨?_, ?_, ?_, ?_, ?_⟩ <;> rw [dispatch_count _ _ _ _ (by intros; rfl)] <;>
      simp [count, List.countP_append, List.countP_cons, Event.isCall, Event.isHttpTo,
        Event.isSleep, hu]

theorem call_cloud_shell_running_one_get_no_start_witness :
    count (Event.isCall "cloud_shell_get_environment")
        (call_cloud_shell envRunning "token" worldPutty) =
      count (Event.isCall "cloud_shell_get_environment") worldPutty + 1 ∧
    count (Event.isHttpTo environmentURL) (call_cloud_shell envRunning "token" worldPutty) =
      count (Event.isHttpTo environmentURL) worldPutty + 1 ∧
    count (Event.isCall "cloudshell_start") (call_cloud_shell envRunning "token" worldPutty) =
      count (Event.isCall "cloudshell_start") worldPutty ∧
    count (Event.isHttpTo startURL) (call_cloud_shell envRunning "token" worldPutty) =
      count (Event.isHttpTo startURL) worldPutty ∧
    count Event.isSleep (call_cloud_shell envRunning "token" worldPutty) =
      count Event.isSleep worldPutty :=
  call_cloud_shell_running_one_get_no_start envRunning "token" worldPutty
    { State := "RUNNING", SshUsername := "user", SshHost := "host", SshPort := 6000 } rfl rfl

/-- C10 (as amended). Let the command not be `info` and the first
`GetEnvironment` reply be `DISABLED`. Then `cloudshell_start` is called exactly
once. If the start request is accepted, the trace continues with `m` polls,
`1 ≤ m ≤ 60`, each a 500 ms sleep followed by one `cloud_shell_get_environment`;
none of the first `m - 1` replies is `RUNNING` or failing, the last one is
unless `m = 60`, and 60 polls are made when none of the 60 replies is `RUNNING`
or failing; after the polls come at most the settle sleep and transport calls.
If 60 polls are made and none of their replies is `RUNNING`, nothing follows them:
61 `cloud_shell_get_environment` calls in all and no transport. If the start
request is not accepted, the run ends after it, with no poll. -/
theorem call_cloud_shell_disabled_starts_once_then_polls (env : Env) (accessToken : String)
    (w : World) (p0 : CloudShellEnv)
    (hcmd : w.config.Command ≠ CMD_INFO)
    (hreply : env.getEnvironment (count (Event.isHttpTo environmentURL) w) = .ok p0)
    (hstate : p0.State = "DISABLED") :
    count (Event.isCall "cloudshell_start") (call_cloud_shell env accessToken w) =
      count (Event.isCall "cloudshell_start") w + 1 ∧
    (∀ q : CloudShellEnv,
      env.startEnvironment (count (Event.isHttpTo startURL) w) = .ok q → q.Error.Code = 0 →
      ∃ (m : Nat) (tail : List Event), 1 ≤ m ∧ m ≤ 60 ∧
        (call_cloud_shell env accessToken w).trace =
          w.trace ++ startEvents accessToken w ++ pollEvents accessToken w m ++ tail ∧
        (∀ e ∈ tail, e = .sleep 5000 ∨ ∃ handler params, e = .transport handler params) ∧
        (∀ i, i + 1 < m →
          (env.getEnvironment (count (Event.isHttpTo environmentURL) w + 1 + i)).stops = false) ∧
        (m < 60 →
          (env.getEnvironment (count (Event.isHttpTo environmentURL) w + m)).stops = true) ∧
        ((∀ i, i < 60 →
            (env.getEnvironment (count (Event.isHttpTo environmentURL) w + 1 + i)).stops =
              false) → m = 60) ∧
        (m = 60 →
          (∀ i p, i < 60 →
            (env.getEnvironment (count (Event.isHttpTo environmentURL) w + 1 + i)).result =
              .ok p → p.State ≠ "RUNNING") →
          tail = [] ∧
          count (Event.isCall "cloud_shell_get_environment") (call_cloud_shell env accessToken w) =
            count (Event.isCall "cloud_shell_get_environment") w + 61 ∧
          count Event.isTransport (call_cloud_shell env accessToken w) =
            count Event.isTransport w)) ∧
    ((∀ q : CloudShellEnv,
        env.startEnvironment (count (Event.isHttpTo startURL) w) = .ok q → q.Error.Code ≠ 0) →
      (call_cloud_shell env accessToken w).trace = w.trace ++ startEvents accessToken w) := by
  refine ⟨?_, ?_, ?_⟩
  · by_cases hacc : ∃ q, env.startEnvironment (count (Event.isHttpTo startURL) w) = .ok q ∧
        q.Error.Code = 0
    · obtain ⟨q, hsr, hq⟩ := hacc
      obtain ⟨m, tail, -, -, htr, htl, -⟩ :=
        call_cloud_shell_disabled_polls env accessToken w p0 q hcmd hreply hstate hsr hq
      have e1 := countP_tail_zero (Event.isCall "cloudshell_start") tail rfl (fun _ _ => rfl) htl
      have e2 := countP_pollEvents_zero accessToken w (Event.isCall "cloudshell_start")
        rfl (by decide) (fun _ => rfl) m
      show (call_cloud_shell env accessToken w).trace.countP _ = _
      rw [htr]
      simp only [List.countP_append, e1, e2]
      simp [count, startEvents, List.countP_cons, Event.isCall]
    · rw [call_cloud_shell_start_rejected env accessToken w p0 hcmd hreply hstate
        (fun q hsr hq => hacc ⟨q, hsr, hq⟩)]
      simp [count, startEvents, List.countP_append, List.countP_cons, Event.isCall]
  · intro q hstart hq
    obtain ⟨m, tail, hm1, hm, htr, htl, hpre, hlast, hlive, hno⟩ :=
      call_cloud_shell_disabled_polls env accessToken w p0 q hcmd hreply hstate hstart hq
    refine ⟨m, tail, hm1, hm, htr, htl, hpre, hlast, hlive, ?_⟩
    intro h60 hnone
    have ht := hno h60 hnone
    subst h60
    subst ht
    refine ⟨rfl, ?_, ?_⟩
    · show (call_cloud_shell env accessToken w).trace.countP _ = _
      rw [htr]
      simp only [List.countP_append, countP_pollEvents_call]
      simp [count, startEvents, List.countP_cons, Event.isCall]
    · show (call_cloud_shell env accessToken w).trace.countP _ = _
      rw [htr]
      simp only [List.countP_append, countP_pollEvents_transport]
      simp [count, startEvents, List.countP_cons, Event.isTransport]
  · intro hfail
    rw [call_cloud_shell_start_rejected env accessToken w p0 hcmd hreply hstate hfail]

theorem call_cloud_shell_disabled_starts_once_then_polls_witness :
    worldPutty.config.Command ≠ CMD_INFO ∧
    count (Event.isCall "cloudshell_start") (call_cloud_shell envNeverStarts "token" worldPutty) =
      count (Event.isCall "cloudshell_start") worldPutty + 1 ∧
    count (Event.isCall "cloud_shell_get_environment")
        (call_cloud_shell envNeverStarts "token" worldPutty) =
      count (Event.isCall "cloud_shell_get_environment") worldPutty + 61 ∧
    count Event.isTransport (call_cloud_shell envNeverStarts "token" worldPutty) =
      count Event.isTransport worldPutty := by
  obtain ⟨m, tail, -, -, -, -, -, -, hlive, h⟩ :=
    (call_cloud_shell_disabled_starts_once_then_polls envNeverStarts "token" worldPutty
      { State := "DISABLED" } (by decide) rfl rfl).2.1 {} rfl rfl
  have hnr : ∀ (i : Nat) (p : CloudShellEnv), i < 60 →
      (envNeverStarts.getEnvironment (count (Event.isHttpTo environmentURL) worldPutty + 1 + i)).result
        = .ok p → p.State ≠ "RUNNING" := by
    intro i p _ hp
    have hp' : p = { State := "DISABLED" } := by
      have : (Except.ok { State := "DISABLED" } : Except Err CloudShellEnv) = .ok p := hp
      injection this with h'
      exact h'.symm
    subst hp'
    decide
  exact ⟨by decide,
    (call_cloud_shell_disabled_starts_once_then_polls envNeverStarts "token" worldPutty
      { State := "DISABLED" } (by decide) rfl rfl).1,
    (h (hlive (fun _ _ => rfl)) hnr).2⟩

/-- C10 (as stated) fails: the command is `putty`, the first reply is `DISABLED`
and no reply to `GetEnvironment` would ever be `RUNNING` or failing, but the
start request cannot be sent; `call_cloud_shell` returns after the one
`cloudshell_start` call, with no re-fetch and no sleep, instead of polling 60
times. -/
theorem call_cloud_shell_failed_start_does_not_poll :
    worldPutty.config.Command ≠ CMD_INFO ∧
    (envStartFails.getEnvironment 0).result = .ok { State := "DISABLED" } ∧
    (∀ k, (envStartFails.getEnvironment k).stops = false) ∧
    count (Event.isCall "cloudshell_start") (call_cloud_shell envStartFails "token" worldPutty) =
      1 ∧
    count (Event.isCall "cloud_shell_get_environment")
      (call_cloud_shell envStartFails "token" worldPutty) = 1 ∧
    count Event.isSleep (call_cloud_shell envStartFails "token" worldPutty) = 0 := by
  refine ⟨by decide, rfl, fun _ => rfl, by decide, by decide, by decide⟩

/-- C12. In every run of `call_cloud_shell` the events it appends split into `pre`,
which holds every `GetEnvironment` request and no transport call, and `ts`, the
transport calls. Either `ts` is empty, or the last `GetEnvironment` request of the
run was answered with a descriptor `d` whose state is `RUNNING` and every call in
`ts` is a transport handler called with `d`. -/
theorem transport_only_with_last_running_descriptor (env : Env) (accessToken : String)
    (w : World) :
    ∃ pre ts : List Event,
      (call_cloud_shell env accessToken w).trace = w.trace ++ pre ++ ts ∧
      pre.countP Event.isTransport = 0 ∧
      ts.countP (Event.isHttpTo environmentURL) = 0 ∧
      (ts = [] ∨
        ∃ d : CloudShellEnv, 1 ≤ pre.countP (Event.isHttpTo environmentURL) ∧
          (env.getEnvironment (count (Event.isHttpTo environmentURL) w +
            pre.countP (Event.isHttpTo environmentURL) - 1)).result = .ok d ∧
          d.State = "RUNNING" ∧
          ∀ e ∈ ts, ∃ handler, e = .transport handler d) := by
  obtain ⟨pre, hpre, hcase⟩ := call_cloud_shell_shape env accessToken w
  rcases hcase with h | ⟨d, h1, h2, h3, h4⟩
  · exact ⟨pre, [], by rw [h]; simp, hpre, rfl, Or.inl rfl⟩
  · obtain ⟨evs, hevs, hall⟩ := dispatch_trace env d
      ({ w with trace := w.trace ++ pre } : World)
    refine ⟨pre, evs, by rw [h4, hevs], hpre, ?_, Or.inr ⟨d, h1, h2, h3, hall⟩⟩
    rw [List.countP_eq_zero]
    intro e he
    obtain ⟨handler, rfl⟩ := hall e he
    simp [Event.isHttpTo]

/-- C16. When the first `GetEnvironment` reply decodes to a descriptor whose state
is neither `DISABLED` nor `RUNNING`, `call_cloud_shell` appends only its one
`cloud_shell_get_environment` call with its GET: `cloudshell_start` is not called,
nothing is polled, no sleep is requested and no transport is called. -/
theorem call_cloud_shell_other_state_ends (env : Env) (accessToken : String) (w : World)
    (p0 : CloudShellEnv)
    (hreply : env.getEnvironment (count (Event.isHttpTo environmentURL) w) = .ok p0)
    (hd : p0.State ≠ "DISABLED") (hr : p0.State ≠ "RUNNING") :
    (call_cloud_shell env accessToken w).trace = w.trace ++
      [.call "call_cloud_shell", .call "cloud_shell_get_environment",
       .get environmentURL (environmentHeaders accessToken w)] ∧
    count (Event.isCall "cloud_shell_get_environment") (call_cloud_shell env accessToken w) =
      count (Event.isCall "cloud_shell_get_environment") w + 1 ∧
    count (Event.isHttpTo environmentURL) (call_cloud_shell env accessToken w) =
      count (Event.isHttpTo environmentURL) w + 1 ∧
    count (Event.isCall "cloudshell_start") (call_cloud_shell env accessToken w) =
      count (Event.isCall "cloudshell_start") w ∧
    count (Event.isHttpTo startURL) (call_cloud_shell env accessToken w) =
      count (Event.isHttpTo startURL) w ∧
    count Event.isSleep (call_cloud_shell env accessToken w) = count Event.isSleep w ∧
    count Event.isTransport (call_cloud_shell env accessToken w) = count Event.isTransport w := by
  have hres : (env.getEnvironment (count (Event.isHttpTo environmentURL) w)).result =
      .ok p0 := by
    rw [hreply]; rfl
  have hu : environmentURL ≠ startURL := by decide
  rw [call_cloud_shell_other_state env accessToken w p0 hres hd hr]
  simp [firstEvents, count, List.countP_append, List.countP_cons, Event.isCall, Event.isHttpTo,
    Event.isSleep, Event.isTransport, hu]

theorem call_cloud_shell_other_state_ends_witness :
    (call_cloud_shell envStarting "token" worldPutty).trace = worldPutty.trace ++
      [.call "call_cloud_shell", .call "cloud_shell_get_environment",
       .get environmentURL (environmentHeaders "token" worldPutty)] ∧
    count (Event.isCall "cloud_shell_get_environment")
        (call_cloud_shell envStarting "token" worldPutty) =
      count (Event.isCall "cloud_shell_get_environment") worldPutty + 1 ∧
    count (Event.isHttpTo environmentURL) (call_cloud_shell envStarting "token" worldPutty) =
      count (Event.isHttpTo environmentURL) worldPutty + 1 ∧
    count (Event.isCall "cloudshell_start") (call_cloud_shell envStarting "token" worldPutty) =
      count (Event.isCall "cloudshell_start") worldPutty ∧
    count (Event.isHttpTo startURL) (call_cloud_shell envStarting "token" worldPutty) =
      count (Event.isHttpTo startURL) worldPutty ∧
    count Event.isSleep (call_cloud_shell envStarting "token" worldPutty) =
      count Event.isSleep worldPutty ∧
    count Event.isTransport (call_cloud_shell envStarting "token" worldPutty) =
      count Event.isTransport worldPutty :=
  call_cloud_shell_other_state_ends envStarting "token" worldPutty { State := "STARTING" } rfl
    (by decide) (by decide)

/-- C11 (as amended). Let the command not be `info`, the first `GetEnvironment`
reply be `DISABLED`, the start request be accepted, `1 ≤ k ≤ 60`, the replies to
polls `1..k-1` be error-free and not `RUNNING`, and the reply to poll `k` be
error-free and `RUNNING`, with descriptor `p`. Then `call_cloud_shell` makes
exactly `k + 1` `cloud_shell_get_environment` calls, applies the 5000 ms settle
delay exactly once, requests `500 * k + 5000` ms of sleep in total (at most 35000),
and reaches the dispatch: after the settle delay come only transport calls with
`p`, among them the handler of the command when it is `putty`, `exec`, `download`
or `upload`. -/
theorem call_cloud_shell_success_after_k_polls (env : Env) (accessToken : String) (w : World)
    (p0 q p : CloudShellEnv) (k : Nat)
    (hcmd : w.config.Command ≠ CMD_INFO)
    (hreply : env.getEnvironment (count (Event.isHttpTo environmentURL) w) = .ok p0)
    (hstate : p0.State = "DISABLED")
    (hstart : env.startEnvironment (count (Event.isHttpTo startURL) w) = .ok q)
    (hq : q.Error.Code = 0)
    (hk1 : 1 ≤ k) (hk : k ≤ 60)
    (hpolls : ∀ i, i + 1 < k →
      (env.getEnvironment (count (Event.isHttpTo environmentURL) w + 1 + i)).stops = false)
    (hlast : env.getEnvironment (count (Event.isHttpTo environmentURL) w + k) = .ok p)
    (hp : p.Error.Code = 0) (hrun : p.State = "RUNNING") :
    count (Event.isCall "cloud_shell_get_environment") (call_cloud_shell env accessToken w) =
      count (Event.isCall "cloud_shell_get_environment") w + (k + 1) ∧
    count (Event.isHttpTo environmentURL) (call_cloud_shell env accessToken w) =
      count (Event.isHttpTo environmentURL) w + (k + 1) ∧
    count Event.isSettle (call_cloud_shell env accessToken w) = count Event.isSettle w + 1 ∧
    totalSleep (call_cloud_shell env accessToken w) = totalSleep w + (500 * k + 5000) ∧
    500 * k + 5000 ≤ 35000 ∧
    (∃ ts : List Event,
      (call_cloud_shell env accessToken w).trace =
        w.trace ++ startEvents accessToken w ++ pollEvents accessToken w k ++ [.sleep 5000] ++ ts ∧
      ∀ e ∈ ts, ∃ handler, e = .transport handler p) ∧
    (w.config.Command = CMD_PUTTY →
      .transport "exec_putty" p ∈ (call_cloud_shell env accessToken w).trace) ∧
    (w.config.Command = CMD_EXEC →
      .transport "exec_command" p ∈ (call_cloud_shell env accessToken w).trace) ∧
    (w.config.Command = CMD_DOWNLOAD →
      .transport "sftp_download" p ∈ (call_cloud_shell env accessToken w).trace) ∧
    (w.config.Command = CMD_UPLOAD →
      .transport "sftp_upload" p ∈ (call_cloud_shell env accessToken w).trace) := by
  have hu : environmentURL ≠ startURL := by decide
  rw [call_cloud_shell_running_at env accessToken w p0 q p k hcmd hreply hstate hstart hq hk1 hk
    hpolls hlast hp hrun]
  have hmem := dispatch_mem env p
    ({ w with trace := w.trace ++ startEvents accessToken w ++
      pollEvents accessToken w k ++ [.sleep 5000] } : World)
  refine ⟨?_, ?_, ?_, ?_, by omega, dispatch_trace env p _, hmem.1, hmem.2.1, hmem.2.2.1,
    hmem.2.2.2⟩
  · rw [dispatch_count _ _ _ _ (by intros; rfl)]
    simp only [count, List.countP_append, countP_pollEvents_call]
    simp [startEvents, List.countP_cons, Event.isCall]
    omega
  · rw [dispatch_count _ _ _ _ (by intros; rfl)]
    simp only [count, List.countP_append, countP_pollEvents_get]
    simp [startEvents, List.countP_cons, Event.isHttpTo, Ne.symm hu]
    omega
  · rw [dispatch_count _ _ _ _ (by intros; rfl)]
    simp only [count, List.countP_append,
      countP_pollEvents_zero accessToken w Event.isSettle rfl rfl (fun _ => rfl)]
    simp [startEvents, List.countP_cons, Event.isSettle]
  · rw [totalSleep_dispatch]
    simp only [totalSleep, List.map_append, List.sum_append, sleepMs_pollEvents]
    simp [startEvents, Event.sleepMs]
    omega

theorem call_cloud_shell_success_after_k_polls_witness :
    count (Event.isCall "cloud_shell_get_environment")
        (call_cloud_shell envThreePolls "token" worldPutty) =
      count (Event.isCall "cloud_shell_get_environment") worldPutty + (3 + 1) ∧
    count Event.isSettle (call_cloud_shell envThreePolls "token" worldPutty) =
      count Event.isSettle worldPutty + 1 ∧
    totalSleep (call_cloud_shell envThreePolls "token" worldPutty) =
      totalSleep worldPutty + (500 * 3 + 5000) ∧
    Event.transport "exec_putty"
        { State := "RUNNING", SshUsername := "user", SshHost := "host", SshPort := 6000 } ∈
      (call_cloud_shell envThreePolls "token" worldPutty).trace := by
  have hpolls : ∀ i, i + 1 < 3 →
      (envThreePolls.getEnvironment
        (count (Event.isHttpTo environmentURL) worldPutty + 1 + i)).stops = false := by
    intro i hi
    have hi2 : i < 2 := by omega
    interval_cases i <;> rfl
  have h := call_cloud_shell_success_after_k_polls envThreePolls "token" worldPutty
    { State := "DISABLED" } {}
    { State := "RUNNING", SshUsername := "user", SshHost := "host", SshPort := 6000 } 3
    (by decide) rfl rfl rfl rfl (by decide) (by decide) hpolls rfl rfl rfl
  exact ⟨h.1, h.2.2.1, h.2.2.2.1, h.2.2.2.2.2.2.1 rfl⟩

/-- C11 (as stated) fails on the replies `DISABLED`, `STARTING`, `STARTING`,
`RUNNING` (`k = 3`). With the command `info` the run ends after the first
`cloud_shell_get_environment`: one call instead of four, no sleep, no transport.
With the command `putty` and a start request that cannot be sent the run ends
after `cloudshell_start`: one call, no sleep, no transport. With the command
`putty`, an accepted start and a `RUNNING` reply that carries an error code the run
ends at that reply: four calls, but no settle delay and no transport. -/
theorem call_cloud_shell_three_polls_without_success :
    ((envThreePolls.getEnvironment 0).result = .ok { State := "DISABLED" } ∧
      (envThreePolls.getEnvironment 1).stops = false ∧
      (envThreePolls.getEnvironment 2).stops = false ∧
      (envThreePolls.getEnvironment 3).result =
        .ok { State := "RUNNING", SshUsername := "user", SshHost := "host", SshPort := 6000 }) ∧
    (count (Event.isCall "cloud_shell_get_environment")
        (call_cloud_shell envThreePolls "token" worldInfo) = 1 ∧
      totalSleep (call_cloud_shell envThreePolls "token" worldInfo) = 0 ∧
      count Event.isTransport (call_cloud_shell envThreePolls "token" worldInfo) = 0) ∧
    (count (Event.isCall "cloud_shell_get_environment")
        (call_cloud_shell envThreePollsStartFails "token" worldPutty) = 1 ∧
      totalSleep (call_cloud_shell envThreePollsStartFails "token" worldPutty) = 0 ∧
      count Event.isTransport (call_cloud_shell envThreePollsStartFails "token" worldPutty) = 0) ∧
    ((envRunningWithError.getEnvironment 3).result =
        .ok { State := "RUNNING", Error := { Code := 500, Message := "backend error" } } ∧
      count (Event.isCall "cloud_shell_get_environment")
        (call_cloud_shell envRunningWithError "token" worldPutty) = 4 ∧
      count Event.isSettle (call_cloud_shell envRunningWithError "token" worldPutty) = 0 ∧
      count Event.isTransport (call_cloud_shell envRunningWithError "token" worldPutty) = 0) := by
  refine ⟨⟨rfl, rfl, rfl, rfl⟩, ⟨by decide, by decide, by decide⟩,
    ⟨by decide, by decide, by decide⟩, ⟨rfl, by decide, by decide, by decide⟩⟩


/-! ## Refresh token -/

/-- C13 (as amended). A successful refresh saves the stored `refresh_token`
unchanged, so a non-empty one stays non-empty: on its refresh path, when the token
endpoint answers with tokens and the write succeeds, `doRefresh` returns
`valid = true` and the file holds a record with the `RefreshToken` of the stored
record. A successful re-authorization saves the `refresh_token` of the token
response, whatever the store held: `processAuthCode` returns no error and the file
holds a record whose `RefreshToken` is the response's. -/
theorem refresh_token_after_update (env : Env) (w : World) (tokens : OAuthTokens) :
    (∀ (filename : String) (data : Doc) (creds : UserCredentials),
      w.files filename = some data →
      unmarshalUserCredentials data {} = .ok creds →
      creds.RefreshToken ≠ "" →
      (Time.ofUnix (env.clock (count Event.isNow w)).1 (env.clock (count Event.isNow w)).2).Before
        (Time.ofUnix (wrap64 (creds.ExpiresAt - 900)) 0) = false →
      env.tokenEndpoint (count (Event.isHttpTo tokenEndpointURL) w) (refreshContent creds) =
        .ok tokens →
      env.writeErr filename = none →
      (doRefresh env filename w).1 = (tokens.AccessToken, tokens.IDToken, true) ∧
      ∃ saved : UserCredentials,
        (doRefresh env filename w).2.files filename = some (marshalUserCredentials saved) ∧
        saved.RefreshToken = creds.RefreshToken ∧ saved.RefreshToken ≠ "") ∧
    (∀ (secrets : ClientSecrets) (auth_code : String) (flag_oob : Bool),
      env.tokenEndpoint (count (Event.isHttpTo tokenEndpointURL) w)
        (authCodeContent secrets auth_code flag_oob) = .ok tokens →
      tokens.Error = "" →
      env.writeErr env.SavedUserCredentials = none →
      (processAuthCode env secrets auth_code flag_oob w).1 =
        (tokens.AccessToken, tokens.IDToken, none) ∧
      ∃ saved : UserCredentials,
        (processAuthCode env secrets auth_code flag_oob w).2.files env.SavedUserCredentials =
          some (marshalUserCredentials saved) ∧
        saved.RefreshToken = tokens.RefreshToken) := by
  constructor
  · intro filename data creds hfile hdec hne hb hr hw
    rw [doRefresh_stale_ok env filename w data creds tokens hfile hdec hb hr _ rfl]
    simp only [hw]
    refine ⟨trivial, refreshedCredentials creds tokens
      (wrap64 ((env.clock (count Event.isNow w + 1)).1 + tokens.ExpiresIn))
      (env.tokenInfo (count (Event.isHttpTo tokenInfoURL) w) tokens.AccessToken).result,
      ?_, ?_, ?_⟩
    · simp
    · exact refreshedCredentials_RefreshToken creds tokens _ _
    · rw [refreshedCredentials_RefreshToken]
      exact hne
  · intro secrets auth_code flag_oob hr herr hw
    have h := (processAuthCode_ok_trace env secrets auth_code flag_oob w tokens hr herr _ rfl).2.1
      hw
    exact ⟨h.1, _, h.2, authorizedCredentials_RefreshToken secrets tokens _ _⟩

theorem refresh_token_after_update_witness :
    ((doRefresh envTokens "user_credentials.json" (worldWith staleCreds)).1 =
        ("new", "newid", true) ∧
      ∃ saved : UserCredentials,
        (doRefresh envTokens "user_credentials.json"
            (worldWith staleCreds)).2.files "user_credentials.json" =
          some (marshalUserCredentials saved) ∧
        saved.RefreshToken = staleCreds.RefreshToken ∧ saved.RefreshToken ≠ "") ∧
    ((processAuthCode envTokens sampleSecrets "4/abc" true (worldWith storedCreds)).1 =
        ("new", "newid", none) ∧
      ∃ saved : UserCredentials,
        (processAuthCode envTokens sampleSecrets "4/abc" true
            (worldWith storedCreds)).2.files envTokens.SavedUserCredentials =
          some (marshalUserCredentials saved) ∧
        saved.RefreshToken = "1//r2") :=
  ⟨(refresh_token_after_update envTokens (worldWith staleCreds)
      { AccessToken := "new", IDToken := "newid", ExpiresIn := 3600, RefreshToken := "1//r2",
        Scope := "openid", TokenType := "Bearer" }).1
      "user_credentials.json" (marshalUserCredentials staleCreds) staleCreds rfl rfl
      (by decide) (by decide) rfl rfl,
   (refresh_token_after_update envTokens (worldWith storedCreds)
      { AccessToken := "new", IDToken := "newid", ExpiresIn := 3600, RefreshToken := "1//r2",
        Scope := "openid", TokenType := "Bearer" }).2 sampleSecrets "4/abc" true rfl rfl rfl⟩

/-- C13 (as stated) fails: the store holds a record with `refresh_token = "1//r"`,
the authorization-code exchange succeeds with a response that carries no
`refresh_token`, and `processAuthCode` returns no error and overwrites the file
with a record whose `refresh_token` is empty. -/
theorem processAuthCode_clears_refresh_token :
    (loadUserCredentials "user_credentials.json" (worldWith storedCreds)).1 = .ok storedCreds ∧
    storedCreds.RefreshToken ≠ "" ∧
    (processAuthCode envNoRefreshToken sampleSecrets "4/abc" true (worldWith storedCreds)).1 =
      ("new", "newid", none) ∧
    (loadUserCredentials "user_credentials.json"
      (processAuthCode envNoRefreshToken sampleSecrets "4/abc" true
        (worldWith storedCreds)).2).1 =
      .ok { ClientID := "id", ClientSecret := "secret", RefreshToken := "", Scope := "openid",
            Type_ := "Bearer", AccessToken := "new", IDToken := "newid", Email := "",
            ExpiresAt := 1600003600 } := by
  refine ⟨rfl, by decide, rfl, rfl⟩

/-! ## Embedded errors, desktop probe, command line -/

/-- C14 fails on the code. The first `GetEnvironment` reply is parsed, carries the
error code 403 and has the state `DISABLED`: `call_cloud_shell` nevertheless calls
`cloudshell_start`, fetches the environment again, applies the settle delay and
calls the transport handler. -/
theorem call_cloud_shell_continues_after_entry_error :
    (envEntryError.getEnvironment 0).result =
      .ok { State := "DISABLED",
            Error := { Code := 403, Message := "denied", Status := "PERMISSION_DENIED" } } ∧
    count (Event.isCall "cloudshell_start") (call_cloud_shell envEntryError "token" worldPutty) =
      1 ∧
    count (Event.isCall "cloud_shell_get_environment")
      (call_cloud_shell envEntryError "token" worldPutty) = 2 ∧
    count Event.isSettle (call_cloud_shell envEntryError "token" worldPutty) = 1 ∧
    count Event.isTransport (call_cloud_shell envEntryError "token" worldPutty) = 1 := by
  refine ⟨rfl, by decide, by decide, by decide, by decide⟩

/-- C15 fails on the code. On a host that is not Windows, `xdg-open` is on the PATH
and no credential file exists, so `get_tokens` reaches the interactive path; it
looks for `dxg-open`, does not find it, and takes the manual flow: it reads a code
from standard input, starts no process, and exchanges the code with the
out-of-band redirect address. -/
theorem get_tokens_manual_flow_on_desktop :
    envDesktop.isWindows = false ∧
    envDesktop.lookPath "xdg-open" = .ok "/usr/bin/xdg-open" ∧
    Event.lookPath "dxg-open" ∈ (get_tokens envDesktop worldFirstRun).2.trace ∧
    Event.lookPath "xdg-open" ∉ (get_tokens envDesktop worldFirstRun).2.trace ∧
    count (Event.isCall "manualAuthentication") (get_tokens envDesktop worldFirstRun).2 = 1 ∧
    count Event.isStdin (get_tokens envDesktop worldFirstRun).2 = 1 ∧
    count Event.isStart (get_tokens envDesktop worldFirstRun).2 = 0 ∧
    Event.post tokenEndpointURL formHeaders
        ("client_id=id&client_secret=secret&code=4/abc&grant_type=authorization_code" ++
          "&redirect_uri=urn:ietf:wg:oauth:2.0:oob") ∈
      (get_tokens envDesktop worldFirstRun).2.trace := by
  refine ⟨rfl, rfl, by decide, by decide, by decide, by decide, by decide, by decide⟩

/-- C17 fails on the code. With `os.Args = [cloudinfo, info, exec]` the guard
`len(args) < 2` passes and `args[x + 1]` is read at index 2 of a slice of length 2;
with `[cloudinfo, info, download, a.txt]` the guard `len(args) >= 3` passes and
the destination is read at index 3 of a slice of length 3. In both runs
`process_cmdline` neither returns nor exits: the read is out of range. -/
theorem process_cmdline_reads_out_of_range (abs : String → Except Err String) (cfg : Config) :
    process_cmdline abs ["cloudinfo", "info", "exec"] cfg = .outOfRange 2 2 ∧
    process_cmdline abs ["cloudinfo", "info", "download", "a.txt"] cfg = .outOfRange 3 3 := by
  constructor <;> rfl

end CloudShellCli
